import Mathlib

/-!
Display-output management engine (DRM output): a shallow embedding.

The definitions below are a shallow embedding of
`plugins/platforms/drm/drm_output.cpp` and `abstract_output.cpp`.
Machine integers are natural numbers or integers, reduced modulo `2^w` at the
places where the C++ types could wrap.  Kernel and library calls whose outcome the
program cannot control are inputs of the functions (an environment record).
-/

set_option autoImplicit false

namespace KWin

/-! ## Mode timings and the refresh rate -/

/-- The kernel mode record `drmModeModeInfo` (libdrm).  `clock`, `vrefresh`,
`flags` and `type` are `uint32_t`, the timing fields are `uint16_t`, `name` is a
C string. -/
structure drmModeModeInfo where
  clock : Nat
  hdisplay : Nat
  hsync_start : Nat
  hsync_end : Nat
  htotal : Nat
  hskew : Nat
  vdisplay : Nat
  vsync_start : Nat
  vsync_end : Nat
  vtotal : Nat
  vscan : Nat
  vrefresh : Nat
  flags : Nat
  type : Nat
  name : String
deriving DecidableEq, Repr, Inhabited

/-- Every field of the record lies in the range of its C type. -/
def drmModeModeInfo.inRange (m : drmModeModeInfo) : Prop :=
  m.clock < 2 ^ 32 ∧ m.hdisplay < 2 ^ 16 ∧ m.hsync_start < 2 ^ 16 ∧ m.hsync_end < 2 ^ 16 ∧
  m.htotal < 2 ^ 16 ∧ m.hskew < 2 ^ 16 ∧ m.vdisplay < 2 ^ 16 ∧ m.vsync_start < 2 ^ 16 ∧
  m.vsync_end < 2 ^ 16 ∧ m.vtotal < 2 ^ 16 ∧ m.vscan < 2 ^ 16 ∧ m.vrefresh < 2 ^ 32 ∧
  m.flags < 2 ^ 32 ∧ m.type < 2 ^ 32

instance (m : drmModeModeInfo) : Decidable m.inRange := by
  unfold drmModeModeInfo.inRange; infer_instance

/-- `DRM_MODE_FLAG_INTERLACE`, `(1<<4)` in `drm_mode.h`. -/
def DRM_MODE_FLAG_INTERLACE : Nat := 0x10
/-- `DRM_MODE_FLAG_DBLSCAN`, `(1<<5)` in `drm_mode.h`. -/
def DRM_MODE_FLAG_DBLSCAN : Nat := 0x20
/-- `DRM_MODE_TYPE_PREFERRED`, `(1<<3)` in `drm_mode.h`. -/
def DRM_MODE_TYPE_PREFERRED : Nat := 0x8

/-- `refreshRateForMode` (drm_output.cpp:244).  The first expression is computed in
`long long` and stored in a `quint64`; the later updates are `quint64` operations.
Division by zero (undefined in C++) is not modelled: the theorems about this
function assume `htotal` and `vtotal` positive. -/
def refreshRateForMode (m : drmModeModeInfo) : Nat :=
  let refreshRate := ((m.clock * 1000000 / m.htotal + m.vtotal / 2) / m.vtotal) % 2 ^ 64
  let refreshRate :=
    if m.flags &&& DRM_MODE_FLAG_INTERLACE ≠ 0 then (refreshRate * 2) % 2 ^ 64 else refreshRate
  let refreshRate :=
    if m.flags &&& DRM_MODE_FLAG_DBLSCAN ≠ 0 then refreshRate / 2 else refreshRate
  if m.vscan > 1 then refreshRate / m.vscan else refreshRate

/-! ## EDID parsing -/

/-- One byte of a property blob. -/
abbrev Byte := Fin 256

/-- The read `data[i]` on the blob's bytes, as an integer.  The C++ code reads
without a bound check; a read behind the end of the blob (undefined in C++) gives 0
here, and the theorems state the length they need. -/
def byteAt (data : List Byte) (i : Nat) : Nat := (data.getD i 0).val

/-- `verifyEdidHeader` (drm_output.cpp:436). -/
def verifyEdidHeader (data : List Byte) : Bool :=
  if byteAt data 0 ≠ 0x00 then false
  else if (List.range' 1 6).any (fun i => byteAt data i ≠ 0xFF) then false
  else if byteAt data 7 ≠ 0x00 then false
  else true

/-- `QByteArray`: a sequence of bytes. -/
abbrev QByteArray := List Byte

/-- `QByteArray(const char *)`: the bytes of a C string, up to its terminating NUL. -/
def QByteArray.fromCString (s : List Byte) : QByteArray := s.takeWhile (fun c => c ≠ 0)

/-- Conversion of an `int` to `char`: the low eight bits. -/
def toChar (n : Nat) : Byte := ⟨n % 256, Nat.mod_lt _ (by decide)⟩

/-- Qt's `ascii_isspace`, the whitespace `QByteArray::trimmed` removes:
tab, newline, vertical tab, form feed, carriage return and space. -/
def ascii_isspace (c : Byte) : Bool := (decide (9 ≤ c.val) && decide (c.val ≤ 13)) || decide (c.val = 32)

/-- `QByteArray::trimmed`: whitespace removed from both ends. -/
def QByteArray.trimmed (s : QByteArray) : QByteArray :=
  (s.dropWhile ascii_isspace).rdropWhile ascii_isspace

/-- `QByteArray(const char *data, int size)` at `&data[start]`: `size` bytes from
`start` on, NUL bytes included. -/
def QByteArray.fromRaw (data : List Byte) (start size : Nat) : QByteArray :=
  (List.range size).map (fun k => data.getD (start + k) 0)

/-- `QByteArray::number(uint)`: the decimal digits in ASCII. -/
def QByteArray.number (n : Nat) : QByteArray :=
  (Nat.toDigits 10 n).map (fun c => toChar c.toNat)

/-- `QSize`; a default-constructed size is `(-1, -1)`. -/
structure QSize where
  width : Int := -1
  height : Int := -1
deriving DecidableEq, Repr, Inhabited

/-- `QSize::isEmpty`: width or height is less than 1. -/
def QSize.isEmpty (s : QSize) : Bool := decide (s.width < 1) || decide (s.height < 1)

/-- `QSize::transposed`. -/
def QSize.transposed (s : QSize) : QSize := ⟨s.height, s.width⟩

/-- `QPoint`. -/
structure QPoint where
  x : Int := 0
  y : Int := 0
deriving DecidableEq, Repr, Inhabited

/-- Conversion of an unsigned value to a 32-bit `int` (two's complement). -/
def toInt32 (n : Nat) : Int :=
  if n % 2 ^ 32 < 2 ^ 31 then ((n % 2 ^ 32 : Nat) : Int) else ((n % 2 ^ 32 : Nat) : Int) - 2 ^ 32

/-- Conversion of a signed value to `quint64`. -/
def toUInt64 (i : Int) : Nat := (i % 2 ^ 64).toNat

/-- The parsed EDID fields, `DrmOutput::Edid` (drm_output.h).  A default-constructed
record has three empty byte arrays and an invalid (empty) size. -/
structure Edid where
  eisaId : QByteArray := []
  monitorName : QByteArray := []
  serialNumber : QByteArray := []
  physicalSize : QSize := {}
deriving DecidableEq, Repr, Inhabited

/-- `extractEisaId` (drm_output.cpp:453).  The three characters are computed in
`int`, stored in a `char id[4]` ending in NUL and handed to `QByteArray(const char*)`. -/
def extractEisaId (data : List Byte) : QByteArray :=
  let offset := 0x8
  if byteAt data offset >>> 7 ≠ 0 then []
  else
    let id0 := toChar (65 + ((byteAt data offset >>> 2) &&& 0x1f) - 1)
    let id1 := toChar (65 + (((byteAt data offset &&& 0x3) <<< 3) |||
                ((byteAt data (offset + 1) >>> 5) &&& 0x7)) - 1)
    let id2 := toChar (65 + (byteAt data (offset + 1) &&& 0x1f) - 1)
    QByteArray.fromCString [id0, id1, id2, 0]

/-- One iteration of the loop of `extractMonitorDescriptorDescription`
(drm_output.cpp:496-532) for block `i`. -/
def descriptorStep (data : List Byte) (edid : Edid) (i : Nat) : Edid :=
  let co := 0x36 + i * 18
  if byteAt data co ≠ 0 then edid
  else if byteAt data (co + 1) ≠ 0 then edid
  else if byteAt data (co + 2) ≠ 0 then edid
  else
    let edid :=
      if byteAt data (co + 3) = 0xfc ∧ edid.monitorName.isEmpty then
        { edid with monitorName := (QByteArray.fromRaw data (co + 5) 12).trimmed }
      else edid
    let edid :=
      if byteAt data (co + 3) = 0xfe then
        let id := (QByteArray.fromRaw data (co + 5) 12).trimmed
        if ¬ id.isEmpty then { edid with eisaId := id } else edid
      else edid
    let edid :=
      if byteAt data (co + 3) = 0xff then
        { edid with serialNumber := (QByteArray.fromRaw data (co + 5) 12).trimmed }
      else edid
    edid

/-- `extractMonitorDescriptorDescription` (drm_output.cpp:490): the loop over the
blocks `i = 0 .. 4`. -/
def extractMonitorDescriptorDescription (data : List Byte) (edid : Edid) : Edid :=
  (List.range 5).foldl (descriptorStep data) edid

/-- `extractSerialNumber` (drm_output.cpp:535): the little-endian 32-bit number at
offset 0x0C, in decimal, or nothing when it is zero. -/
def extractSerialNumber (data : List Byte) : QByteArray :=
  let offset := 0x0C
  let serialNumber := byteAt data (offset + 0)
  let serialNumber := serialNumber ||| ((byteAt data (offset + 1) <<< 8) % 2 ^ 32)
  let serialNumber := serialNumber ||| ((byteAt data (offset + 2) <<< 16) % 2 ^ 32)
  let serialNumber := serialNumber ||| ((byteAt data (offset + 3) <<< 24) % 2 ^ 32)
  if serialNumber = 0 then [] else QByteArray.number serialNumber

/-- `extractPhysicalSize` (drm_output.cpp:557): centimetres at 0x15 and 0x16 times
ten.  `QSize * 10` rounds a floating-point product, which is exact on these
integers. -/
def extractPhysicalSize (data : List Byte) : QSize :=
  ⟨(byteAt data 0x15 : Int) * 10, (byteAt data 0x16 : Int) * 10⟩

/-! ## The output state

`drm_output.h`, `drm_object_plane.h` and `drm_object_crtc.h` are not part of the
sources at hand; the records below hold the members that `drm_output.cpp` and
`abstract_output.cpp` read and write, under the names used there.  Buffers
(`DrmBuffer *`) are identified by a number, `none` is the null pointer.  Qt signal
emissions, debug output and the calls into the compositor and the workspace are not
modelled. -/

/-- `DrmOutput::DpmsMode`. -/
inductive DpmsMode where
  | On
  | Standby
  | Suspend
  | Off
deriving DecidableEq, Repr, Inhabited

/-- `DrmOutput::AtomicCommitMode`. -/
inductive AtomicCommitMode where
  | Test
  | Real
deriving DecidableEq, Repr

/-- `Qt::ScreenOrientation`. -/
inductive ScreenOrientation where
  | PrimaryOrientation
  | LandscapeOrientation
  | PortraitOrientation
  | InvertedLandscapeOrientation
  | InvertedPortraitOrientation
deriving DecidableEq, Repr, Inhabited

/-- `AbstractOutput::Transform` (abstract_output.h:50), with the same eight values in
the same order as `KWayland::Server::OutputDeviceInterface::Transform` and
`KWayland::Server::OutputInterface::Transform`, between which the code casts. -/
inductive Transform where
  | Normal
  | Rotated90
  | Rotated180
  | Rotated270
  | Flipped
  | Flipped90
  | Flipped180
  | Flipped270
deriving DecidableEq, Repr, Inhabited

/-- `DrmPlane::TypeIndex`. -/
inductive PlaneTypeIndex where
  | Overlay
  | Primary
  | Cursor
deriving DecidableEq, Repr, Inhabited

/-- A plane object (`DrmPlane`): its id, type, owning output (`output()`), the bit
mask behind `isCrtcSupported`, the two buffer slots `current()` and `next()` and the
rotation flags `transformation()` and `supportedTransformations()`.  The cached
property values written with `setValue` are consumed only by `atomicPopulate`,
outside these sources, and are not tracked. -/
structure DrmPlane where
  id : Nat := 0
  type : PlaneTypeIndex := PlaneTypeIndex.Primary
  output : Option Nat := none
  possibleCrtcs : Nat := 0
  current : Option Nat := none
  next : Option Nat := none
  transformation : Nat := 1
  supportedTransformations : Nat := 1
deriving DecidableEq, Repr, Inhabited

/-- `DrmPlane::setTransformation`. -/
def DrmPlane.setTransformation (p : DrmPlane) (t : Nat) : DrmPlane := { p with transformation := t }

/-- `DrmPlane::setNext`. -/
def DrmPlane.setNext (p : DrmPlane) (b : Option Nat) : DrmPlane := { p with next := b }

/-- `DrmPlane::setCurrent`. -/
def DrmPlane.setCurrent (p : DrmPlane) (b : Option Nat) : DrmPlane := { p with current := b }

/-- A CRTC object (`DrmCrtc`): id, resource index and the buffer slots `current()`
and `next()`. -/
structure DrmCrtc where
  id : Nat := 0
  resIndex : Nat := 0
  current : Option Nat := none
  next : Option Nat := none
deriving DecidableEq, Repr, Inhabited

/-- The member `m_lastWorkingState` of `DrmOutput`. -/
structure LastWorkingState where
  valid : Bool := false
  mode : drmModeModeInfo := default
  orientation : ScreenOrientation := ScreenOrientation.PrimaryOrientation
  globalPos : QPoint := {}
  planeTransformations : Nat := 1
deriving DecidableEq, Repr, Inhabited

/-- `KWayland::Server::OutputDeviceInterface::ModeFlags`: the bits `Current` and
`Preferred`. -/
structure ModeFlags where
  current : Bool := false
  preferred : Bool := false
deriving DecidableEq, Repr, Inhabited

/-- `KWayland::Server::OutputDeviceInterface::Mode`; `refreshRate` and `id` are
`int`. -/
structure Mode where
  size : QSize := {}
  refreshRate : Int := 60000
  flags : ModeFlags := {}
  id : Int := -1
deriving DecidableEq, Repr, Inhabited

/-- An entry of `m_nextPlanesFlipList` (a `DrmPlane *`).  The only plane
`drm_output.cpp` appends to the list is `m_primaryPlane`. -/
inductive PlaneRef where
  | primaryPlane
deriving DecidableEq, Repr

/-- A call of `DrmCrtc::flipBuffer` or of `DrmPlane::flipBuffer` /
`flipBufferWithDelete`, recorded in the order the calls are made. -/
inductive FlipCall where
  | crtc
  | plane (p : PlaneRef)
deriving DecidableEq, Repr

/-- A call into the kernel, recorded in the order the calls are made. -/
inductive HwCall where
  | setCursor (handle : Option Nat)
  | createPropertyBlob
  | atomicCommit (flags : Nat)
  | setCrtc (buffer : Nat)
  | pageFlip (buffer : Nat)
  | connectorSetProperty (dpms : Nat)
deriving DecidableEq, Repr

/-- The state of one `DrmOutput`, base class `AbstractOutput` included.
`enabled`, `globalPosition` and `scaleF` are the state of the output-device object
that `isEnabled()`, `globalPos()` and `scale()` read (`scaleF` is the value of the
`qreal` scale, a `double`); the fields starting with `wl` and `xdg` are what has been
published to the protocol objects (`deviceTransform` is the transform of the
output-device object, which `transformWayland()` reads); `hwCalls` records the kernel
calls made, `deletedBuffers` the buffers passed to `delete`, `flipCalls` the buffer
flips and `deleteLaterCalled` whether `deleteLater()` has been called. -/
structure DrmOutput where
  enabled : Bool := true
  globalPosition : QPoint := {}
  scaleF : ℚ := 1
  wlGlobalPosition : QPoint := {}
  wlScale : Int := 1
  xdgLogicalPosition : QPoint := {}
  xdgLogicalSize : QSize := {}
  wlCurrentMode : QSize × Int := ({}, 60000)
  wlDpmsMode : DpmsMode := DpmsMode.On
  deviceModes : List Mode := []
  m_physicalSize : QSize := {}
  m_orientation : ScreenOrientation := ScreenOrientation.PrimaryOrientation
  m_internal : Bool := false
  m_edid : Edid := {}
  m_originEdid : QByteArray := []
  m_hasDpms : Bool := false
  m_scalingCapable : Bool := false
  m_mode : drmModeModeInfo := default
  m_dpmsMode : DpmsMode := DpmsMode.On
  m_dpmsModePending : DpmsMode := DpmsMode.On
  m_pageFlipPending : Bool := false
  m_modesetRequested : Bool := true
  m_dpmsAtomicOffPending : Bool := false
  m_teardown : Bool := false
  m_deleted : Bool := false
  m_isVirtual : Bool := false
  m_primaryPlane : Option DrmPlane := none
  m_crtc : DrmCrtc := {}
  m_nextPlanesFlipList : List PlaneRef := []
  m_lastWorkingState : LastWorkingState := {}
  m_blobId : Nat := 0
  m_cursor : List (Option Nat) := [none, none]
  m_cursorIndex : Nat := 0
  m_hasNewCursor : Bool := false
  needShowCursor : Bool := false
  needHideCursor : Bool := false
  hwCalls : List HwCall := []
  deletedBuffers : List Nat := []
  deviceTransform : Transform := Transform.Normal
  wlTransform : Transform := Transform.Normal
  wlDisconnected : Bool := false
  deleteLaterCalled : Bool := false
  flipCalls : List FlipCall := []
deriving Repr, Inhabited

/-- The backend settings the output consults (`DrmBackend`, drm_backend.h). -/
structure DrmBackend where
  atomicModeSetting : Bool := false
  deleteBufferAfterPageFlip : Bool := false
  usesSoftwareCursor : Bool := false
deriving DecidableEq, Repr, Inhabited

/-! ## Cursor, geometry and DPMS helpers -/

/-- Outcomes of the calls one cursor update depends on: whether the backend's
software cursor image is null and whether `drmModeSetCursor` succeeds. -/
structure CursorEnv where
  softwareCursorNull : Bool := false
  setCursorOk : Bool := true
deriving DecidableEq, Repr, Inhabited

/-- Appends a kernel call to the record. -/
def DrmOutput.logCall (o : DrmOutput) (c : HwCall) : DrmOutput :=
  { o with hwCalls := o.hwCalls ++ [c] }

/-- `DrmOutput::hideCursor` (drm_output.cpp:111). -/
def hideCursor (setCursorOk : Bool) (o : DrmOutput) : Bool × DrmOutput :=
  if o.m_isVirtual then (false, o)
  else (setCursorOk, o.logCall (HwCall.setCursor none))

/-- `DrmOutput::showCursor(DrmDumbBuffer *c)` (drm_output.cpp:123). -/
def showCursorBuffer (setCursorOk : Bool) (o : DrmOutput) (c : Option Nat) : Bool × DrmOutput :=
  match c with
  | none => (false, o)
  | some handle => (setCursorOk, o.logCall (HwCall.setCursor (some handle)))

/-- `DrmOutput::showCursor()` (drm_output.cpp:138). -/
def showCursor (setCursorOk : Bool) (o : DrmOutput) : Bool × DrmOutput :=
  let r := showCursorBuffer setCursorOk o ((o.m_cursor.getD o.m_cursorIndex none))
  if ¬ r.1 then r
  else
    let o := r.2
    if o.m_hasNewCursor then
      (r.1, { o with m_cursorIndex := (o.m_cursorIndex + 1) % 2, m_hasNewCursor := false })
    else (r.1, o)

/-- `DrmOutput::updateCursor` (drm_output.cpp:153), as far as the output state goes:
the painting into the image of `m_cursor[m_cursorIndex]` is not modelled.  The
result is `none` when the buffer pointer that is dereferenced is null. -/
def updateCursor (softwareCursorNull : Bool) (o : DrmOutput) : Option DrmOutput :=
  if softwareCursorNull then some o
  else
    match o.m_cursor.getD o.m_cursorIndex none with
    | none => none
    | some _ => some { o with m_hasNewCursor := true }

/-- `AbstractOutput::setOrientation` (abstract_output.h). -/
def setOrientation (o : DrmOutput) (set : ScreenOrientation) : DrmOutput :=
  { o with m_orientation := set }

/-- `AbstractOutput::setGlobalPos` (abstract_output.cpp:79). -/
def setGlobalPos (o : DrmOutput) (pos : QPoint) : DrmOutput :=
  if ¬ o.enabled then o
  else { o with globalPosition := pos, wlGlobalPosition := pos, xdgLogicalPosition := pos }

/-! ## Binary floating point

A `float` or `double` value is represented by the rational number it stands for.
Every arithmetic operation of the code on such values is the exact operation followed
by the rounding of IEEE 754 (round to nearest, ties to even).  Infinities, NaN and the
sign of zero are not represented: an operation whose exact result lies beyond the
largest finite number is outside the model. -/

/-- The integer nearest to `x`, the even one of the two when `x` lies half-way. -/
def roundHalfEven (x : ℚ) : Int :=
  let f := Int.floor x
  if x - f < 1 / 2 then f
  else if 1 / 2 < x - f then f + 1
  else if f % 2 = 0 then f else f + 1

/-- The binary floating-point number with a significand of `p` bits and least normal
exponent `emin` that is nearest to `q` (ties to even, gradual underflow): `q` is
rounded to a multiple of `2 ^ (e - (p - 1))`, where `2 ^ e <= |q| < 2 ^ (e + 1)`
and `e` is at least `emin`. -/
def roundTo (p : Nat) (emin : Int) (q : ℚ) : ℚ :=
  if q = 0 then 0
  else
    let e := max (Int.log 2 |q|) emin
    let ulp : ℚ := (2 : ℚ) ^ (e - ((p : Int) - 1))
    (roundHalfEven (q / ulp) : ℚ) * ulp

/-- Rounding to `float` (IEEE 754 binary32: 24-bit significand, exponents from
-126). -/
def roundFloat (q : ℚ) : ℚ := roundTo 24 (-126) q

/-- Rounding to `double` (IEEE 754 binary64: 53-bit significand, exponents from
-1022). -/
def roundDouble (q : ℚ) : ℚ := roundTo 53 (-1022) q

/-- The conversion of a `double` to `int`: the fractional part is discarded.  A value
outside the range of `int` (undefined in C++) is not modelled. -/
def truncToInt (d : ℚ) : Int := if 0 ≤ d then Int.floor d else Int.ceil d

/-- Qt 5's `qRound(double d)` (qglobal.h):
`d >= 0.0 ? int(d + 0.5) : int(d - double(int(d-1)) + 0.5) + int(d-1)`, every sum and
difference rounded to `double`. -/
def qRound (d : ℚ) : Int :=
  if 0 ≤ d then truncToInt (roundDouble (d + 1 / 2))
  else
    truncToInt (roundDouble (roundDouble (d - (truncToInt (roundDouble (d - 1)) : ℚ)) + 1 / 2))
      + truncToInt (roundDouble (d - 1))

/-- Qt's `operator/(const QSize &, qreal)` (qsize.h):
`QSize(qRound(s.wd / c), qRound(s.ht / c))`; each component is converted to `double`
(exactly), divided by the `double` `c` with the quotient rounded to `double`, and
rounded to `int` by `qRound`.  Division by zero is not modelled. -/
def QSize.divide (s : QSize) (c : ℚ) : QSize :=
  ⟨qRound (roundDouble ((s.width : ℚ) / c)), qRound (roundDouble ((s.height : ℚ) / c))⟩

/-- `QRect`, given by its top-left corner and its size. -/
structure QRect where
  x : Int := 0
  y : Int := 0
  width : Int := 0
  height : Int := 0
deriving DecidableEq, Repr, Inhabited

/-- `QRect(const QPoint &topLeft, const QSize &size)`. -/
def QRect.ofTopLeftSize (topLeft : QPoint) (size : QSize) : QRect :=
  ⟨topLeft.x, topLeft.y, size.width, size.height⟩

/-- `AbstractOutput::scale` (abstract_output.h). -/
def scale (o : DrmOutput) : ℚ := o.scaleF

/-- `AbstractOutput::globalPos` (abstract_output.h). -/
def globalPos (o : DrmOutput) : QPoint := o.globalPosition

/-- `AbstractOutput::orientateSize` (abstract_output.cpp:271). -/
def orientateSize (o : DrmOutput) (size : QSize) : QSize :=
  if o.m_orientation = ScreenOrientation.PortraitOrientation ∨
      o.m_orientation = ScreenOrientation.InvertedPortraitOrientation then
    size.transposed
  else size

/-- `DrmOutput::pixelSize` (drm_output.cpp:1075). -/
def pixelSize (o : DrmOutput) : QSize :=
  orientateSize o ⟨o.m_mode.hdisplay, o.m_mode.vdisplay⟩

/-- `DrmOutput::modeSize` (drm_output.cpp:1080). -/
def modeSize (o : DrmOutput) : QSize := ⟨o.m_mode.hdisplay, o.m_mode.vdisplay⟩

/-- `AbstractOutput::geometry` (abstract_output.cpp:61). -/
def geometry (o : DrmOutput) : QRect :=
  QRect.ofTopLeftSize (globalPos o) ((pixelSize o).divide (scale o))

/-- `AbstractOutput::setScale` (abstract_output.cpp:89); the client-visible scale is
`std::ceil(scale)` as an `int`. -/
def setScale (o : DrmOutput) (scale : ℚ) : DrmOutput :=
  if ¬ o.enabled then o
  else
    { o with scaleF := scale, wlScale := Int.ceil scale,
             xdgLogicalSize := (pixelSize o).divide scale }

/-- `AbstractOutput::setWaylandMode(size, refreshRate)` (abstract_output.cpp:189). -/
def AbstractOutput.setWaylandMode (o : DrmOutput) (size : QSize) (refreshRate : Int) :
    DrmOutput :=
  if ¬ o.enabled then o
  else
    { o with wlCurrentMode := (size, refreshRate),
             xdgLogicalSize := (pixelSize o).divide (scale o) }

/-- `DrmOutput::setWaylandMode()` (drm_output.cpp:1085): the mode's size and its
refresh rate, converted to `int`, go to `AbstractOutput::setWaylandMode`. -/
def setWaylandMode (o : DrmOutput) : DrmOutput :=
  AbstractOutput.setWaylandMode o ⟨o.m_mode.hdisplay, o.m_mode.vdisplay⟩
    (toInt32 (refreshRateForMode o.m_mode))

/-- `DrmOutput::dpmsOffHandler` (drm_output.cpp:858). -/
def dpmsOffHandler (o : DrmOutput) : DrmOutput :=
  { o with wlDpmsMode := o.m_dpmsModePending }

/-! ## The atomic commit -/

/-- `DRM_MODE_PAGE_FLIP_EVENT` (drm_mode.h). -/
def DRM_MODE_PAGE_FLIP_EVENT : Nat := 0x01
/-- `DRM_MODE_ATOMIC_TEST_ONLY` (drm_mode.h). -/
def DRM_MODE_ATOMIC_TEST_ONLY : Nat := 0x0100
/-- `DRM_MODE_ATOMIC_NONBLOCK` (drm_mode.h). -/
def DRM_MODE_ATOMIC_NONBLOCK : Nat := 0x0200
/-- `DRM_MODE_ATOMIC_ALLOW_MODESET` (drm_mode.h). -/
def DRM_MODE_ATOMIC_ALLOW_MODESET : Nat := 0x0400

/-- Outcomes of the kernel and object calls of one `doAtomicCommit`:
`drmModeAtomicAlloc`, `drmModeCreatePropertyBlob` (and the blob id it yields), the
`atomicPopulate` of the connector, the CRTC and the `i`-th plane of the flip list,
`drmModeAtomicCommit`, and `drmModeSetCursor` in `showCursor` and `hideCursor`. -/
structure CommitEnv where
  allocOk : Bool := true
  blobOk : Bool := true
  blobId : Nat := 1
  connPopulateOk : Bool := true
  crtcPopulateOk : Bool := true
  planePopulateOk : Nat → Bool := fun _ => true
  commitOk : Bool := true
  showCursorOk : Bool := true
  hideCursorOk : Bool := true

/-- The lambda `errorHandler` of `doAtomicCommit` (drm_output.cpp:1315).  The result
is `none` when a plane of the flip list is a null pointer. -/
def errorHandler (o : DrmOutput) : Option DrmOutput :=
  let o :=
    if o.m_dpmsMode ≠ o.m_dpmsModePending then
      let o := { o with m_dpmsModePending := o.m_dpmsMode }
      if o.m_dpmsMode ≠ DpmsMode.On then dpmsOffHandler o else o
    else o
  match o.m_nextPlanesFlipList, o.m_primaryPlane with
  | [], _ => some o
  | _ :: _, none => none
  | _ :: _, some p =>
    some { o with m_primaryPlane := some (p.setNext none), m_nextPlanesFlipList := [] }

/-- `DrmOutput::atomicReqModesetPopulate` (drm_output.cpp:1431).  The result is
`none` when `m_primaryPlane` is null. -/
def atomicReqModesetPopulate (b : DrmBackend) (env : CommitEnv) (o : DrmOutput) (enable : Bool) :
    Option (Bool × DrmOutput) :=
  if o.m_isVirtual then some (false, o)
  else
    match o.m_primaryPlane with
    | none => none
    | some p =>
      let o :=
        if enable then o
        else
          let o :=
            if b.deleteBufferAfterPageFlip then
              { o with deletedBuffers := o.deletedBuffers ++ p.current.toList ++ p.next.toList }
            else o
          { o with m_primaryPlane := some ((p.setCurrent none).setNext none) }
      some (env.connPopulateOk && env.crtcPopulateOk, o)

/-- The failing exits of `doAtomicCommit`: `errorHandler(); return false;`. -/
def commitFailed (o : DrmOutput) : Option (Bool × DrmOutput) :=
  (errorHandler o).map (fun o => (false, o))

/-- The flags `doAtomicCommit` computes (drm_output.cpp:1345-1374), given whether the
mode-set branch added `DRM_MODE_ATOMIC_ALLOW_MODESET`. -/
def commitFlags (mode : AtomicCommitMode) (modeset : Bool) (pending : DpmsMode) : Nat :=
  let flags := 0
  let flags := if modeset then flags ||| DRM_MODE_ATOMIC_ALLOW_MODESET else flags
  match mode with
  | AtomicCommitMode.Real =>
    if pending = DpmsMode.On then
      let flags :=
        if flags &&& DRM_MODE_ATOMIC_ALLOW_MODESET = 0 then flags ||| DRM_MODE_ATOMIC_NONBLOCK
        else flags
      flags ||| DRM_MODE_PAGE_FLIP_EVENT
    else flags
  | AtomicCommitMode.Test => flags ||| DRM_MODE_ATOMIC_TEST_ONLY

/-- The end of `doAtomicCommit` once `drmModeAtomicCommit` has succeeded
(drm_output.cpp:1395-1415). -/
def commitSucceeded (env : CommitEnv) (mode : AtomicCommitMode) (flags : Nat)
    (o : DrmOutput) : DrmOutput :=
  let o :=
    if mode = AtomicCommitMode.Real ∧ flags &&& DRM_MODE_ATOMIC_ALLOW_MODESET ≠ 0 then
      { o with m_modesetRequested := false, m_dpmsMode := o.m_dpmsModePending,
               wlDpmsMode := o.m_dpmsModePending }
    else o
  let o :=
    if o.needShowCursor then
      { (showCursor env.showCursorOk o).2 with needShowCursor := false }
    else o
  let o :=
    if o.needHideCursor then
      { (hideCursor env.hideCursorOk o).2 with needHideCursor := false }
    else o
  o

/-- The tail of `doAtomicCommit` after the population of the mode-set part
(drm_output.cpp:1364-1415); `modeset` tells whether that part ran.  The result is
`none` when a plane of the flip list is a null pointer. -/
def doAtomicCommitTail (env : CommitEnv) (mode : AtomicCommitMode) (modeset : Bool)
    (o : DrmOutput) : Option (Bool × DrmOutput) :=
  let flags := commitFlags mode modeset o.m_dpmsModePending
  if o.m_nextPlanesFlipList ≠ [] ∧ o.m_primaryPlane = none then none
  else
    let ret := (List.range o.m_nextPlanesFlipList.length).all env.planePopulateOk
    if ¬ ret then commitFailed o
    else if ¬ env.commitOk then commitFailed (o.logCall (HwCall.atomicCommit flags))
    else some (true, commitSucceeded env mode flags (o.logCall (HwCall.atomicCommit flags)))

/-- `DrmOutput::doAtomicCommit` (drm_output.cpp:1311).  The result is `none` when a
null plane pointer is dereferenced. -/
def doAtomicCommit (b : DrmBackend) (env : CommitEnv) (mode : AtomicCommitMode)
    (o : DrmOutput) : Option (Bool × DrmOutput) :=
  if ¬ env.allocOk then commitFailed o
  else if o.m_modesetRequested then
    if o.m_dpmsModePending = DpmsMode.On ∧ ¬ env.blobOk then
      commitFailed (o.logCall HwCall.createPropertyBlob)
    else
      let o :=
        if o.m_dpmsModePending = DpmsMode.On then
          { o.logCall HwCall.createPropertyBlob with m_blobId := env.blobId }
        else o
      match atomicReqModesetPopulate b env o (o.m_dpmsModePending = DpmsMode.On) with
      | none => none
      | some (false, o) => commitFailed o
      | some (true, o) => doAtomicCommitTail env mode true o
  else doAtomicCommitTail env mode false o

/-! ## Presenting a buffer -/

/-- Outcomes of the calls one `presentAtomically` depends on: whether the logind
session is active, the two commits, and the cursor calls of the rollback. -/
structure AtomicEnv where
  sessionActive : Bool := true
  test : CommitEnv := {}
  real : CommitEnv := {}
  rollbackCursor : CursorEnv := {}

/-- Outcomes of the calls one `presentLegacy` depends on: whether the logind session
is active, `DrmBuffer::needsModeChange`, `drmModeSetCrtc` and `drmModePageFlip`. -/
structure LegacyEnv where
  sessionActive : Bool := true
  needsModeChange : Bool := false
  setCrtcOk : Bool := true
  pageFlipOk : Bool := true
deriving DecidableEq, Repr, Inhabited

/-- The two statements `m_primaryPlane->setNext(buffer); m_nextPlanesFlipList <<
m_primaryPlane;` of `presentAtomically` (drm_output.cpp:1225), on the plane `p` that
`m_primaryPlane` points to. -/
def queuePrimaryPlane (o : DrmOutput) (p : DrmPlane) (buffer : Nat) : DrmOutput :=
  { o with m_primaryPlane := some (p.setNext (some buffer)),
           m_nextPlanesFlipList := o.m_nextPlanesFlipList ++ [PlaneRef.primaryPlane] }

/-- The assignments at the start of the rollback in `presentAtomically`
(drm_output.cpp:1234-1240): mode, orientation, global position, plane transformation
and the mode-set request. -/
def restoreGeometry (o : DrmOutput) : DrmOutput :=
  let o := { o with m_mode := o.m_lastWorkingState.mode }
  let o := setOrientation o o.m_lastWorkingState.orientation
  let o := setGlobalPos o o.m_lastWorkingState.globalPos
  let o :=
    match o.m_primaryPlane with
    | some p =>
      { o with m_primaryPlane := some (p.setTransformation o.m_lastWorkingState.planeTransformations) }
    | none => o
  { o with m_modesetRequested := true }

/-- The branch of `presentAtomically` taken when the TEST commit failed
(drm_output.cpp:1229-1248): the return to `m_lastWorkingState`.  The result is
`none` when `updateCursor` dereferences a null cursor buffer. -/
def restoreLastWorkingState (env : CursorEnv) (o : DrmOutput) : Option DrmOutput :=
  if o.m_lastWorkingState.valid then
    match updateCursor env.softwareCursorNull (restoreGeometry o) with
    | none => none
    | some o => some (setWaylandMode (showCursor env.setCursorOk o).2)
  else some o

/-- The end of `presentAtomically` after the REAL commit has succeeded
(drm_output.cpp:1257-1268): the current mode set is stored as the new good state
when a mode-set was requested, and the flip becomes pending. -/
def recordWorkingState (wasModeset : Bool) (o : DrmOutput) : DrmOutput :=
  let o :=
    if wasModeset then
      { o with m_lastWorkingState :=
          { mode := o.m_mode,
            orientation := o.m_orientation,
            globalPos := o.globalPosition,
            planeTransformations :=
              match o.m_primaryPlane with
              | some p => p.transformation
              | none => o.m_lastWorkingState.planeTransformations,
            valid := true } }
    else o
  { o with m_pageFlipPending := true }

/-- `DrmOutput::presentAtomically` (drm_output.cpp:1210).  The result is `none` when
a null pointer is dereferenced. -/
def presentAtomically (b : DrmBackend) (env : AtomicEnv) (o : DrmOutput) (buffer : Nat) :
    Option (Bool × DrmOutput) :=
  if o.m_isVirtual then some (false, o)
  else if ¬ env.sessionActive then some (false, o)
  else if o.m_pageFlipPending then some (false, o)
  else
    match o.m_primaryPlane with
    | none => none
    | some p =>
      match doAtomicCommit b env.test AtomicCommitMode.Test (queuePrimaryPlane o p buffer) with
      | none => none
      | some (false, o) => (restoreLastWorkingState env.rollbackCursor o).map (fun o => (false, o))
      | some (true, o) =>
        let wasModeset := o.m_modesetRequested
        match doAtomicCommit b env.real AtomicCommitMode.Real o with
        | none => none
        | some (false, o) => some (false, o)
        | some (true, o) => some (true, recordWorkingState wasModeset o)

/-- `DrmOutput::setModeLegacy` (drm_output.cpp:1300). -/
def setModeLegacy (setCrtcOk : Bool) (o : DrmOutput) (buffer : Nat) : Bool × DrmOutput :=
  (setCrtcOk, o.logCall (HwCall.setCrtc buffer))

/-- `DrmOutput::presentLegacy` (drm_output.cpp:1271). -/
def presentLegacy (env : LegacyEnv) (o : DrmOutput) (buffer : Nat) : Bool × DrmOutput :=
  if o.m_crtc.next.isSome then (false, o)
  else if ¬ env.sessionActive then
    (false, { o with m_crtc := { o.m_crtc with next := some buffer } })
  else if o.m_dpmsMode ≠ DpmsMode.On then (false, o)
  else
    let needModeset :=
      o.m_crtc.current.isNone || env.needsModeChange || o.m_modesetRequested
    let r := if needModeset then setModeLegacy env.setCrtcOk o buffer else (true, o)
    if needModeset ∧ ¬ r.1 then (false, r.2)
    else
      let o := if needModeset then { r.2 with m_modesetRequested := false } else r.2
      let o := o.logCall (HwCall.pageFlip buffer)
      if env.pageFlipOk then (true, { o with m_crtc := { o.m_crtc with next := some buffer } })
      else (false, o)

/-- Outcomes of the calls one `present` depends on, for either path. -/
structure PresentEnv where
  atomic : AtomicEnv := {}
  legacy : LegacyEnv := {}

/-- `DrmOutput::present` (drm_output.cpp:1163). -/
def present (b : DrmBackend) (env : PresentEnv) (o : DrmOutput) (buffer : Nat) :
    Option (Bool × DrmOutput) :=
  if o.m_teardown then some (false, o)
  else if o.m_dpmsModePending = DpmsMode.Off then some (false, o)
  else if b.atomicModeSetting then presentAtomically b env.atomic o buffer
  else some (presentLegacy env.legacy o buffer)

/-! ## DPMS -/

/-- The value of a `DpmsMode` (`DRM_MODE_DPMS_ON` .. `DRM_MODE_DPMS_OFF`). -/
def DpmsMode.toNat : DpmsMode → Nat
  | DpmsMode.On => 0
  | DpmsMode.Standby => 1
  | DpmsMode.Suspend => 2
  | DpmsMode.Off => 3

/-- Outcomes of the calls one DPMS change depends on: `drmModeConnectorSetProperty`,
the two commits of `dpmsAtomicOff`, and `DrmCrtc::blank` (drm_object_crtc.cpp is not
in the sources: its result and the CRTC it leaves behind are taken as given). -/
structure DpmsEnv where
  setPropertyOk : Bool := true
  crtcBlank : DrmCrtc → Bool × DrmCrtc := fun c => (true, c)
  test : CommitEnv := {}
  real : CommitEnv := {}

/-- `DrmOutput::dpmsOnHandler` (drm_output.cpp:834). -/
def dpmsOnHandler (b : DrmBackend) (env : DpmsEnv) (o : DrmOutput) : DrmOutput :=
  let o := { o with wlDpmsMode := o.m_dpmsModePending }
  let o := if ¬ b.usesSoftwareCursor then { o with needShowCursor := true } else o
  if ¬ b.atomicModeSetting then { o with m_crtc := (env.crtcBlank o.m_crtc).2 } else o

/-- `DrmOutput::dpmsLegacyApply` (drm_output.cpp:753).  The result is `none` when
`m_dpms` is null (the connector has no DPMS property), since `m_dpms->prop_id` is
read. -/
def dpmsLegacyApply (b : DrmBackend) (env : DpmsEnv) (o : DrmOutput) :
    Option (Bool × DrmOutput) :=
  if ¬ o.m_hasDpms then none
  else
    let o := o.logCall (HwCall.connectorSetProperty o.m_dpmsModePending.toNat)
    if ¬ env.setPropertyOk then some (false, { o with m_dpmsModePending := o.m_dpmsMode })
    else
      let o := dpmsOnHandler b env o
      some (true, { o with m_dpmsMode := o.m_dpmsModePending })

/-- `DrmOutput::dpmsAtomicOff` (drm_output.cpp:1181).  The result is `none` when
`m_primaryPlane` is null. -/
def dpmsAtomicOff (b : DrmBackend) (env : DpmsEnv) (o : DrmOutput) :
    Option (Bool × DrmOutput) :=
  let o := { o with m_dpmsAtomicOffPending := false }
  match o.m_primaryPlane with
  | none => none
  | some p =>
    let o := { o with deletedBuffers := o.deletedBuffers ++ p.next.toList,
                      m_primaryPlane := some (p.setNext none),
                      m_nextPlanesFlipList := o.m_nextPlanesFlipList ++ [PlaneRef.primaryPlane] }
    let o := if ¬ b.usesSoftwareCursor then { o with needHideCursor := true } else o
    match doAtomicCommit b env.test AtomicCommitMode.Test o with
    | none => none
    | some (false, o) => some (false, o)
    | some (true, o) =>
      match doAtomicCommit b env.real AtomicCommitMode.Real o with
      | none => none
      | some (false, o) => some (false, o)
      | some (true, o) => some (true, dpmsOffHandler { o with m_nextPlanesFlipList := [] })

/-- `DrmOutput::updateDpms` (drm_output.cpp:801); `mode` is the requested mode after
`fromWaylandDpmsMode`, which maps each of the four modes to itself.  The result is
`none` when a null plane pointer is dereferenced. -/
def updateDpms (b : DrmBackend) (env : DpmsEnv) (o : DrmOutput) (mode : DpmsMode) :
    Option DrmOutput :=
  if ¬ o.m_hasDpms then some o
  else if mode = o.m_dpmsModePending then some o
  else
    let o := { o with m_dpmsModePending := mode }
    if b.atomicModeSetting then
      let o := { o with m_modesetRequested := true }
      if mode = DpmsMode.On then
        let o := if o.m_pageFlipPending then { o with m_pageFlipPending := false } else o
        some (dpmsOnHandler b env o)
      else
        let o := { o with m_dpmsAtomicOffPending := true }
        if ¬ o.m_pageFlipPending then (dpmsAtomicOff b env o).map Prod.snd
        else some o
    else (dpmsLegacyApply b env o).map Prod.snd

/-! ## Initialisation of an output -/

/-- The connector record `drmModeConnector` (libdrm), as far as `init` reads it;
`count_modes` is the length of `modes`.  The property list is read through kernel
calls whose results are part of `InitEnv`. -/
structure drmModeConnector where
  connector_type : Nat := 0
  connector_type_id : Nat := 0
  mmWidth : Nat := 0
  mmHeight : Nat := 0
  modes : List drmModeModeInfo := []
deriving DecidableEq, Repr, Inhabited

/-- `DRM_MODE_CONNECTOR_HDMIA` (drm_mode.h). -/
def DRM_MODE_CONNECTOR_HDMIA : Nat := 11
/-- `DRM_MODE_CONNECTOR_LVDS` (drm_mode.h). -/
def DRM_MODE_CONNECTOR_LVDS : Nat := 7
/-- `DRM_MODE_CONNECTOR_eDP` (drm_mode.h). -/
def DRM_MODE_CONNECTOR_eDP : Nat := 14
/-- `DRM_MODE_CONNECTOR_DSI` (drm_mode.h). -/
def DRM_MODE_CONNECTOR_DSI : Nat := 16

/-- The two tables `s_default_landscape_drm_mode_infos` and
`s_default_portrait_drm_mode_infos` of drm_default_modes.h, which is not in the
sources: they are parameters of the functions that read them. -/
structure DefaultModes where
  landscape : List drmModeModeInfo := []
  portrait : List drmModeModeInfo := []
deriving DecidableEq, Repr, Inhabited

/-- The byte array "unknown". -/
def unknown : QByteArray := [0x75, 0x6E, 0x6B, 0x6E, 0x6F, 0x77, 0x6E]

/-- What `init` obtains from outside: the EDID blob the property loop of `initEdid`
ends with (`none` when there is no EDID property or the blob cannot be fetched),
whether the connector has a property named "DPMS" and one named "scaling mode", and
the `PhysicalSize` entry of the configuration group `EdidOverwrite`, keyed by EISA
ID, monitor name and serial number (`none` when the group has no such key, else the
size `readEntry` returns); the DPMS outcomes are those of the closing `updateDpms`. -/
structure InitEnv where
  edid : Option (List Byte) := none
  hasDpmsProperty : Bool := true
  hasScalingProperty : Bool := false
  edidOverwrite : QByteArray → QByteArray → QByteArray → Option QSize := fun _ _ _ => none
  dpms : DpmsEnv := {}

/-- `DrmOutput::initEdid` (drm_output.cpp:563). -/
def initEdid (o : DrmOutput) (edid : Option (List Byte)) : DrmOutput :=
  match edid with
  | none => o
  | some data =>
    if data.length < 128 then o
    else if ¬ verifyEdidHeader data then o
    else
      let m_edid := { o.m_edid with eisaId := extractEisaId data }
      let m_edid := { m_edid with serialNumber := extractSerialNumber data }
      let m_originEdid := data.take 128
      let m_edid := extractMonitorDescriptorDescription data m_edid
      let m_edid := { m_edid with physicalSize := extractPhysicalSize data }
      { o with m_edid := m_edid, m_originEdid := m_originEdid }

/-- `DrmOutput::initDpms` (drm_output.cpp:666). -/
def initDpms (o : DrmOutput) (hasDpmsProperty : Bool) : DrmOutput :=
  if hasDpmsProperty then { o with m_hasDpms := true } else o

/-- `DrmOutput::initScaling` (drm_output.cpp:680). -/
def initScaling (o : DrmOutput) (hasScalingProperty : Bool) : DrmOutput :=
  if hasScalingProperty then { o with m_scalingCapable := true } else o

/-- Modelled from the spec: `DrmPlane::isCrtcSupported` (drm_object_plane.h is not in
the sources).  The spec has "CRTC-support bitmasks per plane": the plane supports
the CRTC with resource index `resIndex` when that bit of its mask is set. -/
def DrmPlane.isCrtcSupported (p : DrmPlane) (resIndex : Nat) : Bool :=
  p.possibleCrtcs.testBit resIndex

/-- `DrmPlane::setOutput`. -/
def DrmPlane.setOutput (p : DrmPlane) (output : Option Nat) : DrmPlane :=
  { p with output := output }

/-- `DrmOutput::initPrimaryPlane` (drm_output.cpp:596) over the backend's plane list
(a null entry is `none`); `self` identifies this output.  It returns the result, the
plane list afterwards and the output afterwards. -/
def initPrimaryPlane (self : Nat) (o : DrmOutput) :
    List (Option DrmPlane) → Bool × List (Option DrmPlane) × DrmOutput
  | [] => (false, [], o)
  | none :: rest =>
    let r := initPrimaryPlane self o rest
    (r.1, none :: r.2.1, r.2.2)
  | some p :: rest =>
    if p.type ≠ PlaneTypeIndex.Primary ∨ p.output.isSome ∨ o.m_primaryPlane.isSome ∨
        ¬ p.isCrtcSupported o.m_crtc.resIndex then
      let r := initPrimaryPlane self o rest
      (r.1, some p :: r.2.1, r.2.2)
    else
      (true, some (p.setOutput (some self)) :: rest,
        { o with m_primaryPlane := some (p.setOutput (some self)) })

/-- `DrmOutput::isCurrentMode` (drm_output.cpp:417). -/
def isCurrentMode (o : DrmOutput) (mode : drmModeModeInfo) : Bool :=
  decide (mode.clock = o.m_mode.clock) && decide (mode.hdisplay = o.m_mode.hdisplay) &&
  decide (mode.hsync_start = o.m_mode.hsync_start) &&
  decide (mode.hsync_end = o.m_mode.hsync_end) && decide (mode.htotal = o.m_mode.htotal) &&
  decide (mode.hskew = o.m_mode.hskew) && decide (mode.vdisplay = o.m_mode.vdisplay) &&
  decide (mode.vsync_start = o.m_mode.vsync_start) &&
  decide (mode.vsync_end = o.m_mode.vsync_end) && decide (mode.vtotal = o.m_mode.vtotal) &&
  decide (mode.vscan = o.m_mode.vscan) && decide (mode.vrefresh = o.m_mode.vrefresh) &&
  decide (mode.flags = o.m_mode.flags) && decide (mode.type = o.m_mode.type) &&
  decide (mode.name = o.m_mode.name)

/-- The `Mode` that both loops of `initOutputDevice` build from a timing and an id
(drm_output.cpp:355-367 and 395-407). -/
def makeMode (o : DrmOutput) (id : Int) (m : drmModeModeInfo) : Mode :=
  { id := id,
    size := ⟨m.hdisplay, m.vdisplay⟩,
    flags := { current := isCurrentMode o m,
               preferred := decide (m.type &&& DRM_MODE_TYPE_PREFERRED ≠ 0) },
    refreshRate := toInt32 (refreshRateForMode m) }

/-- The first loop of `initOutputDevice` (drm_output.cpp:351-369), from index `i`
on. -/
def readModes (o : DrmOutput) : Nat → List drmModeModeInfo → List Mode
  | _, [] => []
  | i, m :: rest => makeMode o i m :: readModes o (i + 1) rest

/-- The second loop of `initOutputDevice` (drm_output.cpp:388-409) over the table
entries that remain, with the current value of `modeid`. -/
def synthesizeModes (o : DrmOutput) (default_mode : Mode) :
    Int → List drmModeModeInfo → List Mode
  | _, [] => []
  | modeid, drm_mode :: rest =>
    if (drm_mode.hdisplay : Int) > default_mode.size.width ∨
        (drm_mode.vdisplay : Int) > default_mode.size.height ∨
        refreshRateForMode drm_mode > toUInt64 default_mode.refreshRate then
      synthesizeModes o default_mode modeid rest
    else
      makeMode o modeid drm_mode :: synthesizeModes o default_mode (modeid + 1) rest

/-- The adjustment of the native mode's flags in `initOutputDevice`
(drm_output.cpp:375-377): a mode that is not marked preferred gets the flag set
`Preferred` alone. -/
def markPreferred (default_mode : Mode) : Mode :=
  if ¬ default_mode.flags.preferred then
    { default_mode with flags := { current := false, preferred := true } }
  else default_mode

/-- The mode list `initOutputDevice` (drm_output.cpp:323) builds and hands to
`initWaylandOutputDevice`.  The loop bound `sz` is the number of entries of the
landscape table, also when the portrait table is read; entries of the portrait
table behind its end (undefined in C++) are not modelled. -/
def initOutputDeviceModes (tables : DefaultModes) (connector : drmModeConnector)
    (o : DrmOutput) : List Mode :=
  let modes := readModes o 0 connector.modes
  match modes with
  | [default_mode] =>
    if o.m_internal ∧ o.m_scalingCapable then
      let default_mode := markPreferred default_mode
      let landscape := decide (default_mode.size.width > default_mode.size.height)
      let drm_modes := if landscape then tables.landscape else tables.portrait
      let sz := tables.landscape.length
      default_mode :: synthesizeModes o default_mode 1 (drm_modes.take sz)
    else modes
  | _ => modes

/-- `DrmOutput::initOutputDevice` (drm_output.cpp:323) with
`AbstractOutput::initWaylandOutputDevice` (abstract_output.cpp:208): the mode list is
added to the output device and the logical size `pixelSize() / scale()` is published
on the xdg output (abstract_output.cpp:265).  The names, the manufacturer, the UUID
and the colour curves are not tracked. -/
def initOutputDevice (tables : DefaultModes) (connector : drmModeConnector)
    (o : DrmOutput) : DrmOutput :=
  let o := { o with deviceModes := o.deviceModes ++ initOutputDeviceModes tables connector o }
  { o with xdgLogicalSize := (pixelSize o).divide (scale o) }

/-- The second half of `DrmOutput::init` (drm_output.cpp:276-310), which runs once
the primary plane or the CRTC has been set up: internal flag, physical size, mode
list and the closing `updateDpms(On)`.  `setDpmsSupported` and the signal connections
are not tracked. -/
def initFinish (b : DrmBackend) (tables : DefaultModes) (env : InitEnv)
    (connector : drmModeConnector) (o : DrmOutput) : Option DrmOutput :=
  let internal :=
    decide (connector.connector_type = DRM_MODE_CONNECTOR_LVDS) ||
    decide (connector.connector_type = DRM_MODE_CONNECTOR_eDP) ||
    decide (connector.connector_type = DRM_MODE_CONNECTOR_DSI)
  let o := { o with m_internal := internal }
  let physicalSize :=
    if ¬ o.m_edid.physicalSize.isEmpty then o.m_edid.physicalSize
    else ⟨toInt32 connector.mmWidth, toInt32 connector.mmHeight⟩
  let group := env.edidOverwrite
    (if o.m_edid.eisaId.isEmpty then unknown else o.m_edid.eisaId)
    (if o.m_edid.monitorName.isEmpty then unknown else o.m_edid.monitorName)
    (if o.m_edid.serialNumber.isEmpty then unknown else o.m_edid.serialNumber)
  let physicalSize :=
    match group with
    | some overwriteSize => overwriteSize
    | none => physicalSize
  let o := { o with m_physicalSize := physicalSize }
  let o := initOutputDevice tables connector o
  updateDpms b env.dpms o DpmsMode.On

/-- The set-up step of `DrmOutput::init` (drm_output.cpp:269-275) whose failure makes
`init` return false: `initPrimaryPlane()` with atomic mode setting, `m_crtc->blank()`
without.  It returns the outcome, the plane list and the output afterwards. -/
def initSetup (b : DrmBackend) (env : InitEnv) (self : Nat)
    (planes : List (Option DrmPlane)) (o : DrmOutput) :
    Bool × List (Option DrmPlane) × DrmOutput :=
  if b.atomicModeSetting then initPrimaryPlane self o planes
  else
    ((env.dpms.crtcBlank o.m_crtc).1, planes,
      { o with m_crtc := (env.dpms.crtcBlank o.m_crtc).2 })

/-- `DrmOutput::init` (drm_output.cpp:262).  `self` identifies this output, `planes`
is the backend's plane list.  `initUuid` (an MD5 digest) is not tracked.  The result
is `none` when a null plane pointer is dereferenced; otherwise it holds the return
value, the plane list and the output. -/
def init (b : DrmBackend) (tables : DefaultModes) (env : InitEnv) (self : Nat)
    (planes : List (Option DrmPlane)) (connector : drmModeConnector) (o : DrmOutput) :
    Option (Bool × List (Option DrmPlane) × DrmOutput) :=
  let o := initEdid o env.edid
  let o := initDpms o env.hasDpmsProperty
  let o := initScaling o env.hasScalingProperty
  let r := initSetup b env self planes o
  if ¬ r.1 then some (false, r.2.1, r.2.2)
  else (initFinish b tables env connector r.2.2).map (fun o => (true, r.2.1, o))

/-! ## Frame conditions -/

/-- The members that a failing `doAtomicCommit` leaves alone. -/
def CommitFrame (o o' : DrmOutput) : Prop :=
  o'.m_lastWorkingState = o.m_lastWorkingState ∧ o'.enabled = o.enabled ∧
  o'.globalPosition = o.globalPosition ∧ o'.m_cursor = o.m_cursor ∧
  o'.m_cursorIndex = o.m_cursorIndex ∧
  (o.m_primaryPlane.isSome = true → o'.m_primaryPlane.isSome = true)

/-- The members the rollback of `presentAtomically` restores. -/
def SameGeometry (o o' : DrmOutput) : Prop :=
  o'.m_mode = o.m_mode ∧ o'.m_orientation = o.m_orientation ∧
  o'.m_primaryPlane = o.m_primaryPlane ∧ o'.globalPosition = o.globalPosition

/-- A recorded kernel call is a DPMS request: a write of the connector's DPMS
property, or an atomic commit that is not a TEST_ONLY commit. -/
def isDpmsRequest : HwCall → Bool
  | HwCall.connectorSetProperty _ => true
  | HwCall.atomicCommit flags => decide (flags &&& DRM_MODE_ATOMIC_TEST_ONLY = 0)
  | _ => false

/-- The number of DPMS requests in a record of kernel calls. -/
def dpmsRequests (calls : List HwCall) : Nat := calls.countP isDpmsRequest

/-- Going from `o` to `o'` appends kernel calls to the record, at most `k` of them
DPMS requests. -/
def Calls (k : Nat) (o o' : DrmOutput) : Prop :=
  ∃ extra, o'.hwCalls = o.hwCalls ++ extra ∧ dpmsRequests extra ≤ k

/-! ## Vocabulary for the descriptor blocks -/

/-- Block `i` is used as a descriptor: its flag bytes and its reserved byte are
zero. -/
def isDescriptor (data : List Byte) (i : Nat) : Bool :=
  decide (byteAt data (0x36 + i * 18) = 0) && decide (byteAt data (0x36 + i * 18 + 1) = 0) &&
    decide (byteAt data (0x36 + i * 18 + 2) = 0)

/-- Block `i` is a descriptor that carries the tag `tag`. -/
def hasTag (data : List Byte) (tag : Nat) (i : Nat) : Bool :=
  isDescriptor data i && decide (byteAt data (0x36 + i * 18 + 3) = tag)

/-- The trimmed 12-byte text of block `i`. -/
def descriptorText (data : List Byte) (i : Nat) : QByteArray :=
  (QByteArray.fromRaw data (0x36 + i * 18 + 5) 12).trimmed

/-- The text of the first block of `blocks` that satisfies `p`. -/
def firstText (data : List Byte) (p : Nat → Bool) (blocks : List Nat) : Option QByteArray :=
  (blocks.find? p).map (descriptorText data)

/-- The text of the last block of `blocks` that satisfies `p`. -/
def lastText (data : List Byte) (p : Nat → Bool) (blocks : List Nat) : Option QByteArray :=
  (blocks.reverse.find? p).map (descriptorText data)

/-- A sufficient condition for the scan of block `i` to read only bytes of the blob:
the whole block lies inside the blob, or the iteration ends at one of its first two
bytes, which lies inside the blob. -/
def blockInBounds (data : List Byte) (i : Nat) : Bool :=
  decide (0x36 + i * 18 + 17 < data.length) ||
  (decide (0x36 + i * 18 < data.length) && decide (byteAt data (0x36 + i * 18) ≠ 0)) ||
  (decide (0x36 + i * 18 + 1 < data.length) && decide (byteAt data (0x36 + i * 18 + 1) ≠ 0))

/-- The scan of the five blocks reads only bytes of the blob. -/
def scanInBounds (data : List Byte) : Bool :=
  (List.range 5).all (blockInBounds data)

/-! ## Vocabulary for the mode catalog -/

/-- A table entry does not exceed the native mode in width, height and refresh
rate. -/
def fitsNative (native e : drmModeModeInfo) : Bool :=
  decide (e.hdisplay ≤ native.hdisplay) && decide (e.vdisplay ≤ native.vdisplay) &&
    decide (refreshRateForMode e ≤ refreshRateForMode native)

/-- A mode with its id set aside. -/
def Mode.withoutId (m : Mode) : Mode := { m with id := 0 }

/-! ## Concrete inputs used by the witnesses and counterexamples -/

/-- A 128-byte EDID with the valid header, manufacturer "DEL", physical size
52 cm x 29 cm and four descriptor blocks: two serial numbers ("A1", then "B2") and two
monitor names (an empty one, then "DELL").  Byte 126 (extension count) is 0 and byte
127 is the checksum. -/
def sampleEdid : List Byte :=
  [0x00, 0xFF, 0xFF, 0xFF, 0xFF, 0xFF, 0xFF, 0x00, 0x10, 0xAC, 0x01, 0x40, 0x4D, 0x3C, 0x00, 0x00,
   0x01, 0x1E, 0x01, 0x03, 0x80, 0x34, 0x1D, 0x78, 0x00, 0x00, 0x00, 0x00, 0x00, 0x00, 0x00, 0x00,
   0x00, 0x00, 0x00, 0x00, 0x00, 0x00, 0x00, 0x00, 0x00, 0x00, 0x00, 0x00, 0x00, 0x00, 0x00, 0x00,
   0x00, 0x00, 0x00, 0x00, 0x00, 0x00, 0x00, 0x00, 0x00, 0xFF, 0x00, 0x41, 0x31, 0x0A, 0x20, 0x20,
   0x20, 0x20, 0x20, 0x20, 0x20, 0x20, 0x20, 0x20, 0x00, 0x00, 0x00, 0xFF, 0x00, 0x42, 0x32, 0x0A,
   0x20, 0x20, 0x20, 0x20, 0x20, 0x20, 0x20, 0x20, 0x20, 0x20, 0x00, 0x00, 0x00, 0xFC, 0x00, 0x0A,
   0x20, 0x20, 0x20, 0x20, 0x20, 0x20, 0x20, 0x20, 0x20, 0x20, 0x20, 0x20, 0x00, 0x00, 0x00, 0xFC,
   0x00, 0x44, 0x45, 0x4C, 0x4C, 0x0A, 0x20, 0x20, 0x20, 0x20, 0x20, 0x20, 0x20, 0x20, 0x00, 0xEF]



/-- The timing 1920x1080 at 60 Hz. -/
def mode1080 : drmModeModeInfo :=
  { clock := 148500, hdisplay := 1920, hsync_start := 2008, hsync_end := 2052,
    htotal := 2200, hskew := 0, vdisplay := 1080, vsync_start := 1084,
    vsync_end := 1089, vtotal := 1125, vscan := 0, vrefresh := 60, flags := 0,
    type := 0x48, name := "1920x1080" }

/-- The timing 1280x720 at 60 Hz. -/
def mode720 : drmModeModeInfo :=
  { clock := 74250, hdisplay := 1280, hsync_start := 1390, hsync_end := 1430,
    htotal := 1650, hskew := 0, vdisplay := 720, vsync_start := 725,
    vsync_end := 730, vtotal := 750, vscan := 0, vrefresh := 60, flags := 0,
    type := 0x40, name := "1280x720" }

/-- An atomic output whose last working state is 1920x1080 at position (1920, 0) and
which has since been asked for 1280x720, rotated, at position (0, 0). -/
def reconfiguredOutput (enabled : Bool) : DrmOutput :=
  { enabled := enabled,
    globalPosition := ⟨0, 0⟩,
    m_orientation := ScreenOrientation.PortraitOrientation,
    m_mode := mode720,
    m_modesetRequested := true,
    m_primaryPlane := some { id := 31, transformation := 2 },
    m_cursor := [some 1, some 2],
    m_lastWorkingState :=
      { valid := true, mode := mode1080,
        orientation := ScreenOrientation.PrimaryOrientation,
        globalPos := ⟨1920, 0⟩, planeTransformations := 1 } }

/-- The timing 3840x2160 at 60 Hz. -/
def mode2160 : drmModeModeInfo :=
  { clock := 594000, hdisplay := 3840, hsync_start := 4016, hsync_end := 4104,
    htotal := 4400, hskew := 0, vdisplay := 2160, vsync_start := 2168,
    vsync_end := 2178, vtotal := 2250, vscan := 0, vrefresh := 60, flags := 0,
    type := 0x40, name := "3840x2160" }

/-- The timing 1920x1080 at 75 Hz. -/
def mode1080at75 : drmModeModeInfo :=
  { clock := 220750, hdisplay := 1920, hsync_start := 2064, hsync_end := 2264,
    htotal := 2608, hskew := 0, vdisplay := 1080, vsync_start := 1083,
    vsync_end := 1088, vtotal := 1128, vscan := 0, vrefresh := 75, flags := 0,
    type := 0x40, name := "1920x1080" }

/-- The portrait timing 720x1280 at 60 Hz. -/
def mode720portrait : drmModeModeInfo :=
  { clock := 74250, hdisplay := 720, hsync_start := 760, hsync_end := 800,
    htotal := 990, hskew := 0, vdisplay := 1280, vsync_start := 1283,
    vsync_end := 1293, vtotal := 1250, vscan := 0, vrefresh := 60, flags := 0,
    type := 0x40, name := "720x1280" }

/-- Two small timing tables of equal length. -/
def sampleTables : DefaultModes :=
  { landscape := [mode2160, mode1080at75, mode720],
    portrait := [mode720portrait, mode720portrait, mode720portrait] }

/-- A connector of the given type that reports the single mode 1920x1080 at
60 Hz. -/
def oneModeConnector (connector_type : Nat) : drmModeConnector :=
  { connector_type := connector_type, connector_type_id := 1,
    mmWidth := 340, mmHeight := 190, modes := [mode1080] }

/-- A scaling-capable output driving 1920x1080, internal or not. -/
def scalingOutput (internal : Bool) : DrmOutput :=
  { m_internal := internal, m_scalingCapable := true, m_mode := mode1080 }

/-- An environment in which the kernel rejects the TEST commit. -/
def testRejected : AtomicEnv := { test := { commitOk := false } }

/-! ## Runs of cursor calls -/

/-- One call on the cursor of an output: `showCursor()` with the outcome of
`drmModeSetCursor`, or `updateCursor()` with whether the software cursor image is
null. -/
inductive CursorCall where
  | showCursor (setCursorOk : Bool)
  | updateCursor (softwareCursorNull : Bool)
deriving DecidableEq, Repr, Inhabited

/-- An output together with ghost state: the index of the buffer handed to the most
recent successful `showCursor()`, `none` before the first one. -/
structure CursorTrace where
  output : DrmOutput
  shown : Option Nat := none
deriving Inhabited

/-- The index of the buffer `updateCursor` paints into, `m_cursor[m_cursorIndex]`
(drm_output.cpp:160). -/
def CursorTrace.renderTarget (t : CursorTrace) : Nat := t.output.m_cursorIndex

/-- One cursor call on a trace.  `showCursor()` hands `m_cursor[m_cursorIndex]`, read
before the index is toggled, to the kernel (drm_output.cpp:140). -/
def CursorTrace.step (t : CursorTrace) : CursorCall → Option CursorTrace
  | CursorCall.showCursor ok =>
      let r := showCursor ok t.output
      some { output := r.2, shown := if r.1 then some t.output.m_cursorIndex else t.shown }
  | CursorCall.updateCursor null =>
      (updateCursor null t.output).map fun o => { t with output := o }

/-- A sequence of cursor calls, `none` when one of them dereferences a null buffer. -/
def CursorTrace.run (t : CursorTrace) : List CursorCall → Option CursorTrace
  | [] => some t
  | c :: cs => (t.step c).bind fun t1 => t1.run cs

/-- Every `showCursor()` of the run that succeeds finds `m_hasNewCursor` set. -/
def CursorTrace.showsChangedContent (t : CursorTrace) : List CursorCall → Bool
  | [] => true
  | c :: cs =>
      (match c with
        | CursorCall.showCursor ok => !(showCursor ok t.output).1 || t.output.m_hasNewCursor
        | CursorCall.updateCursor _ => true) &&
      (match t.step c with
        | none => true
        | some t1 => t1.showsChangedContent cs)

/-- The run of `k` rounds, each a content change followed by a `showCursor()` whose
kernel call succeeds. -/
def alternatingRun : Nat → List CursorCall
  | 0 => []
  | k + 1 => CursorCall.updateCursor false :: CursorCall.showCursor true :: alternatingRun k

/-- The cursor state after `initCursor`: both buffers allocated, index 0, no new
content. -/
def initialCursor : DrmOutput := { m_cursor := [some 1, some 2] }

/-- A run with content changes, one failing and two successful `showCursor()` calls. -/
def sampleCursorRun : List CursorCall :=
  [CursorCall.updateCursor false, CursorCall.showCursor false, CursorCall.showCursor true,
   CursorCall.updateCursor false, CursorCall.updateCursor false, CursorCall.showCursor true]

/-! ## The logical-to-native matrix -/

/-- `QPointF`; the coordinates are the values of its two `qreal` (`double`)
members. -/
structure QPointF where
  x : ℚ := 0
  y : ℚ := 0
deriving DecidableEq, Repr, Inhabited

/-- `QPointF(const QPoint &)`. -/
def QPoint.toPointF (p : QPoint) : QPointF := ⟨(p.x : ℚ), (p.y : ℚ)⟩

/-- `QRect::topLeft`. -/
def QRect.topLeft (r : QRect) : QPoint := ⟨r.x, r.y⟩

/-- The entries of a `QMatrix4x4` that act on the x and y coordinates of a point:
the upper-left 2x2 block (`m11 m12 / m21 m22`) and the translation column
(`dx dy`).  The operations used here (uniform and x/y scaling, translation in the
plane, rotation about the z axis) leave the bottom row at (0, 0, 0, 1) and never
mix z into x or y.  Each entry is the value of a `float`. -/
structure QMatrix4x4 where
  m11 : ℚ := 1
  m12 : ℚ := 0
  m21 : ℚ := 0
  m22 : ℚ := 1
  dx : ℚ := 0
  dy : ℚ := 0
deriving DecidableEq, Repr, Inhabited

/-- Qt 5's `QMatrix4x4::scale(float x, float y)` (qmatrix4x4.cpp): the first column is
multiplied by `x` and the second by `y`, each product rounded to `float`;
`scale(float factor)` is `scale(factor, factor)` on these entries.  (For a matrix
without rotation Qt multiplies the diagonal only; the other two entries are zero
then.) -/
def QMatrix4x4.scale (m : QMatrix4x4) (x y : ℚ) : QMatrix4x4 :=
  { m with m11 := roundFloat (m.m11 * x), m21 := roundFloat (m.m21 * x),
           m12 := roundFloat (m.m12 * y), m22 := roundFloat (m.m22 * y) }

/-- Qt 5's `QMatrix4x4::translate(float x, float y)`:
`m[3][0] += m[0][0] * x + m[1][0] * y; m[3][1] += m[0][1] * x + m[1][1] * y;` in
`float` arithmetic.  (The shorter forms Qt uses for a matrix without rotation or
without scaling give the same values: they leave out terms that are zero.) -/
def QMatrix4x4.translate (m : QMatrix4x4) (x y : ℚ) : QMatrix4x4 :=
  { m with
    dx := roundFloat (m.dx + roundFloat (roundFloat (m.m11 * x) + roundFloat (m.m12 * y))),
    dy := roundFloat (m.dy + roundFloat (roundFloat (m.m21 * x) + roundFloat (m.m22 * y))) }

/-- The sine and cosine `QMatrix4x4::rotate` takes for an angle in degrees.  Qt
treats the multiples of 90 degrees exactly; for every other angle it calls `sinf`
and `cosf`, which is outside this model (the pair for angle 0 stands in), and
`logicalToNativeMatrix` passes -90, -180 and -270 only. -/
def rotateSinCos (angle : Int) : ℚ × ℚ :=
  if angle = 90 ∨ angle = -270 then (1, 0)
  else if angle = -90 ∨ angle = 270 then (-1, 0)
  else if angle = 180 ∨ angle = -180 then (0, -1)
  else (0, 1)

/-- Qt 5's `QMatrix4x4::rotate(angle, 0, 0, 1)`, the rotation about the z axis:
`m[0][0] = (tmp = m[0][0]) * c + m[1][0] * s; m[1][0] = m[1][0] * c - tmp * s;` and
the same for the second row, in `float` arithmetic. -/
def QMatrix4x4.rotate (m : QMatrix4x4) (angle : Int) : QMatrix4x4 :=
  let s := (rotateSinCos angle).1
  let c := (rotateSinCos angle).2
  { m with m11 := roundFloat (roundFloat (m.m11 * c) + roundFloat (m.m12 * s)),
           m12 := roundFloat (roundFloat (m.m12 * c) - roundFloat (m.m11 * s)),
           m21 := roundFloat (roundFloat (m.m21 * c) + roundFloat (m.m22 * s)),
           m22 := roundFloat (roundFloat (m.m22 * c) - roundFloat (m.m21 * s)) }

/-- Qt 5's `QMatrix4x4::map(const QPointF &)` for a matrix whose bottom row is
(0, 0, 0, 1): `xin * qreal(m[0][0]) + yin * qreal(m[1][0]) + qreal(m[3][0])` and the
same with the second row, in `double` arithmetic (the entries convert to `double`
exactly). -/
def QMatrix4x4.map (m : QMatrix4x4) (p : QPointF) : QPointF :=
  ⟨roundDouble (roundDouble (roundDouble (p.x * m.m11) + roundDouble (p.y * m.m12)) + m.dx),
   roundDouble (roundDouble (roundDouble (p.x * m.m21) + roundDouble (p.y * m.m22)) + m.dy)⟩

/-- The first `switch` of `logicalToNativeMatrix` (abstract_output.cpp:289): the
translation by the extent and the rotation.  The `int` arguments are converted to
`float`. -/
def rotationSwitch (matrix : QMatrix4x4) (rect : QRect) : Transform → QMatrix4x4
  | Transform.Normal | Transform.Flipped => matrix
  | Transform.Rotated90 | Transform.Flipped90 =>
      (matrix.translate 0 (roundFloat (rect.width : ℚ))).rotate (-90)
  | Transform.Rotated180 | Transform.Flipped180 =>
      (matrix.translate (roundFloat (rect.width : ℚ)) (roundFloat (rect.height : ℚ))).rotate
        (-180)
  | Transform.Rotated270 | Transform.Flipped270 =>
      (matrix.translate (roundFloat (rect.height : ℚ)) 0).rotate (-270)

/-- The second `switch` of `logicalToNativeMatrix` (abstract_output.cpp:310): the
horizontal flip of the four flipped transforms. -/
def flipSwitch (matrix : QMatrix4x4) (rect : QRect) : Transform → QMatrix4x4
  | Transform.Flipped | Transform.Flipped90 | Transform.Flipped180 | Transform.Flipped270 =>
      (matrix.translate (roundFloat (rect.width : ℚ)) 0).scale (-1) 1
  | Transform.Normal | Transform.Rotated90 | Transform.Rotated180 | Transform.Rotated270 =>
      matrix

/-- `AbstractOutput::logicalToNativeMatrix` (abstract_output.cpp:284).  `scale` is
the value of the `qreal` argument, which is converted to `float` for
`QMatrix4x4::scale(float)`; the `int` coordinates of the rectangle are converted to
`float` for `translate`. -/
def logicalToNativeMatrix (rect : QRect) (scale : ℚ) (transform : Transform) : QMatrix4x4 :=
  let matrix : QMatrix4x4 := {}
  let matrix := matrix.scale (roundFloat scale) (roundFloat scale)
  let matrix := rotationSwitch matrix rect transform
  let matrix := flipSwitch matrix rect transform
  matrix.translate (roundFloat (-(rect.x : ℚ))) (roundFloat (-(rect.y : ℚ)))

/-! ### The same construction in exact arithmetic

The reference the `float` construction is compared with: what `logicalToNativeMatrix`
computes when no operation rounds. -/

/-- The scaling of `QMatrix4x4.scale` without rounding. -/
def QMatrix4x4.scaleExact (m : QMatrix4x4) (x y : ℚ) : QMatrix4x4 :=
  { m with m11 := m.m11 * x, m21 := m.m21 * x, m12 := m.m12 * y, m22 := m.m22 * y }

/-- The translation of `QMatrix4x4.translate` without rounding. -/
def QMatrix4x4.translateExact (m : QMatrix4x4) (x y : ℚ) : QMatrix4x4 :=
  { m with dx := m.dx + m.m11 * x + m.m12 * y, dy := m.dy + m.m21 * x + m.m22 * y }

/-- The rotation of `QMatrix4x4.rotate` without rounding. -/
def QMatrix4x4.rotateExact (m : QMatrix4x4) (angle : Int) : QMatrix4x4 :=
  let s := (rotateSinCos angle).1
  let c := (rotateSinCos angle).2
  { m with m11 := m.m11 * c + m.m12 * s, m12 := m.m12 * c - m.m11 * s,
           m21 := m.m21 * c + m.m22 * s, m22 := m.m22 * c - m.m21 * s }

/-- The image of a point under the matrix, without rounding. -/
def QMatrix4x4.mapExact (m : QMatrix4x4) (p : QPointF) : QPointF :=
  ⟨m.m11 * p.x + m.m12 * p.y + m.dx, m.m21 * p.x + m.m22 * p.y + m.dy⟩

/-- The first `switch` of `logicalToNativeMatrix` without rounding. -/
def rotationSwitchExact (matrix : QMatrix4x4) (rect : QRect) : Transform → QMatrix4x4
  | Transform.Normal | Transform.Flipped => matrix
  | Transform.Rotated90 | Transform.Flipped90 =>
      (matrix.translateExact 0 (rect.width : ℚ)).rotateExact (-90)
  | Transform.Rotated180 | Transform.Flipped180 =>
      (matrix.translateExact (rect.width : ℚ) (rect.height : ℚ)).rotateExact (-180)
  | Transform.Rotated270 | Transform.Flipped270 =>
      (matrix.translateExact (rect.height : ℚ) 0).rotateExact (-270)

/-- The second `switch` of `logicalToNativeMatrix` without rounding. -/
def flipSwitchExact (matrix : QMatrix4x4) (rect : QRect) : Transform → QMatrix4x4
  | Transform.Flipped | Transform.Flipped90 | Transform.Flipped180 | Transform.Flipped270 =>
      (matrix.translateExact (rect.width : ℚ) 0).scaleExact (-1) 1
  | Transform.Normal | Transform.Rotated90 | Transform.Rotated180 | Transform.Rotated270 =>
      matrix

/-- The matrix of `logicalToNativeMatrix` without rounding. -/
def exactMatrix (rect : QRect) (scale : ℚ) (transform : Transform) : QMatrix4x4 :=
  let matrix : QMatrix4x4 := {}
  let matrix := matrix.scaleExact scale scale
  let matrix := rotationSwitchExact matrix rect transform
  let matrix := flipSwitchExact matrix rect transform
  matrix.translateExact (-(rect.x : ℚ)) (-(rect.y : ℚ))

/-- The number `q` is `j * n / 2 ^ k` for an integer `j` of absolute value at most
`B`: a multiple of the scale `n / 2 ^ k`. -/
def Scaled (n : Int) (k : Nat) (B : Int) (q : ℚ) : Prop :=
  ∃ j : Int, |j| ≤ B ∧ q = ((n * j : Int) : ℚ) / (2 : ℚ) ^ k

/-- The entries of the 2x2 block are the scale `n / 2 ^ k` times -1, 0 or 1, and the
translation entries are the scale times an integer of absolute value at most `D`. -/
def ScaledMatrix (n : Int) (k : Nat) (D : Int) (m : QMatrix4x4) : Prop :=
  Scaled n k 1 m.m11 ∧ Scaled n k 1 m.m12 ∧ Scaled n k 1 m.m21 ∧ Scaled n k 1 m.m22 ∧
  Scaled n k D m.dx ∧ Scaled n k D m.dy

/-- The `double` nearest to 1.1 (`0x3FF199999999999A`). -/
def scale11 : ℚ := 4953959590107546 / 4503599627370496

/-- The `double` nearest to 1.6 (`0x3FF999999999999A`). -/
def scale16 : ℚ := 3602879701896397 / 2251799813685248

/-- Whether the transform turns by 90 or 270 degrees, so that width and height of
the native rectangle are exchanged. -/
def Transform.swapsAxes : Transform → Bool
  | Transform.Rotated90 | Transform.Flipped90 | Transform.Rotated270 | Transform.Flipped270 =>
      true
  | _ => false

/-- The width `W` and height `H` of the unscaled native rectangle of `rect` under a
transform. -/
def nativeExtent (rect : QRect) (t : Transform) : ℚ × ℚ :=
  if t.swapsAxes then ((rect.height : ℚ), (rect.width : ℚ))
  else ((rect.width : ℚ), (rect.height : ℚ))

/-- The four corners `(x + a, y + b)`, `a` in `{0, w}`, `b` in `{0, h}`, of a
rectangle. -/
def QRect.corners (r : QRect) : List QPointF :=
  [⟨r.x, r.y⟩, ⟨(r.x : ℚ) + r.width, r.y⟩, ⟨r.x, (r.y : ℚ) + r.height⟩,
   ⟨(r.x : ℚ) + r.width, (r.y : ℚ) + r.height⟩]

/-- The four corners of the rectangle from the origin to `(sW, sH)`. -/
def nativeCorners (sW sH : ℚ) : List QPointF := [⟨0, 0⟩, ⟨sW, 0⟩, ⟨0, sH⟩, ⟨sW, sH⟩]

/-- The rectangle 100x50 at (10, 20). -/
def sampleRect : QRect := ⟨10, 20, 100, 50⟩

/-- `QRect::size`. -/
def QRect.size (r : QRect) : QSize := ⟨r.width, r.height⟩

/-- A disabled output in portrait orientation with mode 1920x1080 at (100, 0). -/
def disabledOutput : DrmOutput :=
  { enabled := false, globalPosition := ⟨100, 0⟩, m_mode := mode1080,
    m_orientation := ScreenOrientation.PortraitOrientation }

/-- A plane `initPrimaryPlane` may claim for a CRTC with resource index `resIndex`: it
is of type Primary, has no output and supports that CRTC. -/
def DrmPlane.claimable (p : DrmPlane) (resIndex : Nat) : Bool :=
  decide (p.type = PlaneTypeIndex.Primary) && p.output.isNone && p.isCrtcSupported resIndex

/-- Three planes: an overlay plane, a primary plane owned by output 1, and a free
primary plane, all supporting CRTC 0. -/
def samplePlanes : List (Option DrmPlane) :=
  [some { id := 30, type := PlaneTypeIndex.Overlay, possibleCrtcs := 1 },
   some { id := 31, output := some 1, possibleCrtcs := 1 },
   some { id := 32, possibleCrtcs := 1 }]

/-- Every kernel call recorded between the states `o` and `o'` satisfies `P`. -/
def CallsAll (P : HwCall → Prop) (o o' : DrmOutput) : Prop :=
  ∃ extra, o'.hwCalls = o.hwCalls ++ extra ∧ ∀ c ∈ extra, P c

/-- An output with a primary plane and a mode-set requested, as `presentAtomically`
hands it to `doAtomicCommit`. -/
def commitReady : DrmOutput :=
  { m_primaryPlane := some { id := 31, next := some 7 },
    m_nextPlanesFlipList := [PlaneRef.primaryPlane] }

/-- The members a failing `doAtomicCommit` reads in its error handler or leaves
alone, equal in `o` and `x`: the flip list, the active DPMS state, the mode-set
request and the deferred cursor flags. -/
def CommitInputs (o x : DrmOutput) : Prop :=
  x.m_nextPlanesFlipList = o.m_nextPlanesFlipList ∧ x.m_dpmsMode = o.m_dpmsMode ∧
  x.m_modesetRequested = o.m_modesetRequested ∧ x.needShowCursor = o.needShowCursor ∧
  x.needHideCursor = o.needHideCursor

/-- The state `o'` a failed `doAtomicCommit` leaves behind when entered in `o`: the
pending DPMS state equals the active one, the flip list is empty, the plane that was
in the list (the primary plane) has no next buffer, and the active DPMS state, the
mode-set request and the deferred cursor flags are those of `o`. -/
def RolledBack (o o' : DrmOutput) : Prop :=
  o'.m_dpmsModePending = o'.m_dpmsMode ∧ o'.m_nextPlanesFlipList = [] ∧
  (o.m_nextPlanesFlipList ≠ [] → o'.m_primaryPlane.map DrmPlane.next = some none) ∧
  o'.m_dpmsMode = o.m_dpmsMode ∧ o'.m_modesetRequested = o.m_modesetRequested ∧
  o'.needShowCursor = o.needShowCursor ∧ o'.needHideCursor = o.needHideCursor

/-! ## Transform, page-flip completion and teardown -/

/-- The rotation flags of `DrmPlane::Transformation` that `output2PlaneTransform`
returns.  drm_object_plane.h is not in the sources, so the four values are a
parameter; the defaults are `DRM_MODE_ROTATE_0` .. `DRM_MODE_ROTATE_270` of
drm_mode.h. -/
structure PlaneRotations where
  Rotate0 : Nat := 1
  Rotate90 : Nat := 2
  Rotate180 : Nat := 4
  Rotate270 : Nat := 8
deriving DecidableEq, Repr, Inhabited

/-- `device2OutputTransform` (drm_output.cpp:871). -/
def device2OutputTransform : Transform → Transform
  | Transform.Normal => Transform.Normal
  | Transform.Flipped => Transform.Flipped
  | Transform.Rotated90 => Transform.Rotated90
  | Transform.Flipped90 => Transform.Flipped90
  | Transform.Rotated180 => Transform.Rotated180
  | Transform.Flipped180 => Transform.Flipped180
  | Transform.Rotated270 => Transform.Rotated270
  | Transform.Flipped270 => Transform.Flipped270

/-- `output2PlaneTransform` (drm_output.cpp:898). -/
def output2PlaneTransform (rot : PlaneRotations) : Transform → Nat
  | Transform.Normal | Transform.Flipped => rot.Rotate0
  | Transform.Rotated90 | Transform.Flipped90 => rot.Rotate90
  | Transform.Rotated180 | Transform.Flipped180 => rot.Rotate180
  | Transform.Rotated270 | Transform.Flipped270 => rot.Rotate270

/-- The `switch` of `DrmOutput::transform` (drm_output.cpp:966-981): the four
rotations set the orientation, every other value takes `default: break;`. -/
def orientationSwitch (o : DrmOutput) : Transform → DrmOutput
  | Transform.Normal => setOrientation o ScreenOrientation.PrimaryOrientation
  | Transform.Rotated90 => setOrientation o ScreenOrientation.PortraitOrientation
  | Transform.Rotated180 => setOrientation o ScreenOrientation.InvertedLandscapeOrientation
  | Transform.Rotated270 => setOrientation o ScreenOrientation.InvertedPortraitOrientation
  | Transform.Flipped | Transform.Flipped90 | Transform.Flipped180 | Transform.Flipped270 => o

/-- The plane part of `DrmOutput::transform` (drm_output.cpp:988-997): without atomic
mode setting a supported rotation is handed to the primary plane. -/
def planeTransformStep (b : DrmBackend) (rot : PlaneRotations) (o : DrmOutput)
    (transform : Transform) : DrmOutput :=
  match o.m_primaryPlane with
  | none => o
  | some p =>
    let planeTransform := output2PlaneTransform rot (device2OutputTransform transform)
    if ¬ b.atomicModeSetting ∧ p.supportedTransformations &&& planeTransform ≠ 0 then
      { o with m_primaryPlane := some (p.setTransformation planeTransform) }
    else o

/-- `DrmOutput::transform` (drm_output.cpp:957).  The result is `none` when
`updateCursor` dereferences a null cursor buffer. -/
def transform (b : DrmBackend) (rot : PlaneRotations) (env : CursorEnv) (o : DrmOutput)
    (transform : Transform) : Option DrmOutput :=
  let o := { o with deviceTransform := transform,
                    wlTransform := device2OutputTransform transform }
  let o := orientationSwitch o transform
  let o := { o with xdgLogicalSize := (pixelSize o).divide (scale o) }
  let o := planeTransformStep b rot o transform
  let o := { o with m_modesetRequested := true }
  match updateCursor env.softwareCursorNull o with
  | none => none
  | some o => some (setWaylandMode (showCursor env.setCursorOk o).2)

/-- Modelled from the spec: `DrmCrtc::flipBuffer` (drm_object_crtc.cpp is not in the
sources).  The spec has "on completion, `next` becomes `current` and the old
`current` is released": the next buffer becomes the current one and the next slot is
emptied. -/
def DrmCrtc.flipBuffer (c : DrmCrtc) : DrmCrtc := { c with current := c.next, next := none }

/-- Modelled from the spec: `DrmPlane::flipBuffer` and the slot update of
`DrmPlane::flipBufferWithDelete` (drm_object_plane.cpp is not in the sources), by the
same sentence of the spec as `DrmCrtc.flipBuffer`. -/
def DrmPlane.flipBuffer (p : DrmPlane) : DrmPlane := { p with current := p.next, next := none }

/-- The call `m_crtc->flipBuffer()` in `pageFlipped`; the old current buffer is
released, which is a `delete` when the backend deletes buffers after the flip. -/
def flipCrtc (b : DrmBackend) (o : DrmOutput) : DrmOutput :=
  { o with m_crtc := o.m_crtc.flipBuffer,
           deletedBuffers := o.deletedBuffers ++
             (if b.deleteBufferAfterPageFlip then o.m_crtc.current.toList else []),
           flipCalls := o.flipCalls ++ [FlipCall.crtc] }

/-- One round of the loops over `m_nextPlanesFlipList` in `pageFlipped`
(drm_output.cpp:1132 and 1148): `p->flipBufferWithDelete()` or `p->flipBuffer()` on
the plane the entry points to.  The result is `none` when that pointer is null. -/
def flipPlane (withDelete : Bool) (o : DrmOutput) (ref : PlaneRef) : Option DrmOutput :=
  match o.m_primaryPlane with
  | none => none
  | some p =>
    some { o with m_primaryPlane := some p.flipBuffer,
                  deletedBuffers := o.deletedBuffers ++
                    (if withDelete then p.current.toList else []),
                  flipCalls := o.flipCalls ++ [FlipCall.plane ref] }

/-- The loop over `m_nextPlanesFlipList` followed by `m_nextPlanesFlipList.clear()`. -/
def flipPlanes (withDelete : Bool) (o : DrmOutput) : Option DrmOutput :=
  (o.m_nextPlanesFlipList.foldl (fun acc ref => acc.bind fun x => flipPlane withDelete x ref)
    (some o)).map fun x => { x with m_nextPlanesFlipList := [] }

/-- The buffer hand-over of `pageFlipped` (drm_output.cpp:1119-1156).  The Boolean
tells whether the function returned from inside (the `return` at line 1130, taken
when the primary plane has no next buffer); the result is `none` when a null plane
pointer is dereferenced.  `releaseGbm` is not tracked. -/
def finishFlip (b : DrmBackend) (o : DrmOutput) : Option (Bool × DrmOutput) :=
  if b.deleteBufferAfterPageFlip then
    if b.atomicModeSetting then
      match o.m_primaryPlane with
      | none => none
      | some p =>
        if p.next.isNone then some (true, o)
        else (flipPlanes true o).map fun x => (false, x)
    else some (false, flipCrtc b o)
  else
    let r := if b.atomicModeSetting then flipPlanes false o else some (flipCrtc b o)
    r.map fun x => (false, flipCrtc b x)

/-- The part of `pageFlipped` behind the teardown check (drm_output.cpp:1116-1160):
the buffer hand-over, then the deferred DPMS-off.  `m_crtc` is a record in this model,
so the states in which the pointer `m_crtc` is null (line 1116) are outside it.  The
result is `none` when a null plane pointer is dereferenced. -/
def completeFlip (b : DrmBackend) (env : DpmsEnv) (o : DrmOutput) : Option DrmOutput :=
  match finishFlip b o with
  | none => none
  | some (true, o) => some o
  | some (false, o) =>
    if o.m_dpmsAtomicOffPending then (dpmsAtomicOff b env o).map Prod.snd else some o

/-- `DrmOutput::pageFlipped` (drm_output.cpp:1104).  The result is `none` when a null
plane pointer is dereferenced. -/
def pageFlipped (b : DrmBackend) (env : DpmsEnv) (o : DrmOutput) : Option DrmOutput :=
  let o := { o with m_pageFlipPending := false }
  if o.m_teardown ∧ o.m_deleted then some o
  else completeFlip b env (if o.m_teardown then { o with deleteLaterCalled := true } else o)

/-- `DrmOutput::atomicEnable` (drm_output.cpp:769); `DrmBackend::enableOutput` and the
repaint are not tracked. -/
def atomicEnable (o : DrmOutput) : DrmOutput :=
  let o := { o with m_modesetRequested := true }
  if o.m_dpmsAtomicOffPending then { o with m_dpmsAtomicOffPending := false } else o

/-- `DrmOutput::atomicDisable` (drm_output.cpp:784). -/
def atomicDisable (b : DrmBackend) (env : DpmsEnv) (o : DrmOutput) : Option DrmOutput :=
  if o.m_teardown then some o
  else
    let o := { o with m_modesetRequested := true, m_dpmsAtomicOffPending := true }
    if ¬ o.m_pageFlipPending then (dpmsAtomicOff b env o).map Prod.snd else some o

/-- `DrmOutput::updateEnablement` (drm_output.cpp:729). -/
def updateEnablement (b : DrmBackend) (env : DpmsEnv) (o : DrmOutput) (enable : Bool) :
    Option DrmOutput :=
  if enable then
    let o := { o with m_dpmsModePending := DpmsMode.On }
    if b.atomicModeSetting then some (atomicEnable o)
    else (dpmsLegacyApply b env o).map Prod.snd
  else
    let o := { o with m_dpmsModePending := DpmsMode.Off }
    if b.atomicModeSetting then atomicDisable b env o
    else (dpmsLegacyApply b env o).map Prod.snd

/-- `AbstractOutput::setEnabled` (abstract_output.cpp:156); the creation and the
destruction of the Wayland output global are not tracked. -/
def setEnabled (b : DrmBackend) (env : DpmsEnv) (o : DrmOutput) (enable : Bool) :
    Option DrmOutput :=
  if enable = o.enabled then some o
  else updateEnablement b env { o with enabled := enable } enable

/-- The branch of `teardown` for an output that is being destroyed
(drm_output.cpp:69-86). -/
def releaseResources (b : DrmBackend) (env : DpmsEnv) (hideCursorOk : Bool) (o : DrmOutput) :
    DrmOutput :=
  let o := (hideCursor hideCursorOk o).2
  let o := { o with m_crtc := (env.crtcBlank o.m_crtc).2 }
  let o :=
    match o.m_primaryPlane with
    | some p =>
      { o with m_primaryPlane := some ((p.setOutput none).setCurrent none),
               deletedBuffers := o.deletedBuffers ++
                 (if b.deleteBufferAfterPageFlip then p.current.toList else []) }
    | none => o
  { o with m_cursor := [none, none] }

/-- `DrmOutput::teardown` (drm_output.cpp:62).  The result is `none` when
`dpmsLegacyApply` reads a null `m_dpms`. -/
def teardown (b : DrmBackend) (env : DpmsEnv) (hideCursorOk : Bool) (o : DrmOutput) :
    Option DrmOutput :=
  let o := { o with m_teardown := true }
  if o.m_isVirtual then some o
  else if o.m_deleted then some (releaseResources b env hideCursorOk o)
  else if ¬ o.m_pageFlipPending then
    (setEnabled b env { o with wlDisconnected := true } false).map fun x =>
      { x with deleteLaterCalled := true }
  else some o

/-- An output in landscape orientation with mode 1920x1080 and both cursor buffers
allocated. -/
def landscapeOutput : DrmOutput := { m_mode := mode1080, m_cursor := [some 1, some 2] }

/-- An output on legacy hardware whose CRTC shows buffer 1 and has buffer 2 queued. -/
def flippingOutput : DrmOutput :=
  { m_pageFlipPending := true, m_crtc := { current := some 1, next := some 2 } }

/-- The members that no `doAtomicCommit`, failing or not, touches, and the presence of
the primary plane, which it keeps. -/
structure Kept (o o' : DrmOutput) : Prop where
  teardown : o'.m_teardown = o.m_teardown
  deleted : o'.m_deleted = o.m_deleted
  deleteLater : o'.deleteLaterCalled = o.deleteLaterCalled
  flipPending : o'.m_pageFlipPending = o.m_pageFlipPending
  offPending : o'.m_dpmsAtomicOffPending = o.m_dpmsAtomicOffPending
  enabled : o'.enabled = o.enabled
  flipCalls : o'.flipCalls = o.flipCalls
  crtc : o'.m_crtc = o.m_crtc
  plane : o.m_primaryPlane.isSome = true → o'.m_primaryPlane.isSome = true

/-- An output on atomic hardware with a deferred DPMS-off, a flip pending and a
primary plane that shows buffer 5 and has no next buffer. -/
def deferredOffOutput : DrmOutput :=
  { m_hasDpms := true, m_dpmsModePending := DpmsMode.Off, m_dpmsAtomicOffPending := true,
    m_pageFlipPending := true, m_modesetRequested := true,
    m_primaryPlane := some { id := 31, current := some 5 } }

/-- The members the buffer hand-over of `pageFlipped` leaves alone, and the presence
of the primary plane, which it keeps. -/
structure FlipKept (o o' : DrmOutput) : Prop where
  teardown : o'.m_teardown = o.m_teardown
  deleted : o'.m_deleted = o.m_deleted
  deleteLater : o'.deleteLaterCalled = o.deleteLaterCalled
  flipPending : o'.m_pageFlipPending = o.m_pageFlipPending
  offPending : o'.m_dpmsAtomicOffPending = o.m_dpmsAtomicOffPending
  hwCalls : o'.hwCalls = o.hwCalls
  plane : o.m_primaryPlane.isSome = true → o'.m_primaryPlane.isSome = true

/-- Going from `o` to `o'` appends kernel calls to the record, at most `k` of them
of the kind `p`. -/
def CountCalls (p : HwCall → Bool) (k : Nat) (o o' : DrmOutput) : Prop :=
  ∃ extra, o'.hwCalls = o.hwCalls ++ extra ∧ extra.countP p ≤ k

/-- The native refresh rate as the second loop of `initOutputDevice` reads it:
`refreshRateForMode` of the native mode, stored in the `int` `Mode::refreshRate`
(drm_output.cpp:367) and converted to `quint64` by the comparison with the entry's
`refreshRateForMode` (drm_output.cpp:391). -/
def storedRefreshRate (native : drmModeModeInfo) : Nat :=
  toUInt64 (toInt32 (refreshRateForMode native))

/-- The table entry `e` lies within the native mode as the second loop of
`initOutputDevice` compares them: width and height do not exceed the native ones and
`refreshRateForMode e` does not exceed the stored native refresh rate. -/
def fitsStored (native e : drmModeModeInfo) : Bool :=
  decide (e.hdisplay ≤ native.hdisplay) && decide (e.vdisplay ≤ native.vdisplay) &&
    decide (refreshRateForMode e ≤ storedRefreshRate native)

/-- The table entries the second loop of `initOutputDevice` reads for the native mode
`native`: of the landscape table when the native width exceeds the native height,
else of the portrait table, the first `sz` entries, `sz` being the number of entries
of the landscape table (drm_output.cpp:381-388). -/
def tableRead (tables : DefaultModes) (native : drmModeModeInfo) : List drmModeModeInfo :=
  (if native.hdisplay > native.vdisplay then tables.landscape else tables.portrait).take
    tables.landscape.length

/-- Two timing tables of different length: the portrait table has an entry behind the
loop bound. -/
def unevenTables : DefaultModes :=
  { landscape := [mode2160], portrait := [mode2160, mode720portrait] }

/-- An internal connector that reports the single portrait mode 720x1280. -/
def portraitConnector : drmModeConnector :=
  { connector_type := DRM_MODE_CONNECTOR_eDP, connector_type_id := 1,
    mmWidth := 68, mmHeight := 121, modes := [mode720portrait] }

/-- A 1920x1080 timing whose `refreshRateForMode` is 3 000 000 000, which does not fit
a 32-bit `int`. -/
def fastNative : drmModeModeInfo :=
  { mode1080 with clock := 3000, htotal := 1, vtotal := 1 }

/-- A 1280x720 timing whose `refreshRateForMode` is 4 000 000 000. -/
def fasterEntry : drmModeModeInfo :=
  { mode720 with clock := 4000, htotal := 1, vtotal := 1 }

/-- The `float` next above 1, `1 + 2 ^ (-23)` (also a `double`). -/
def scaleAboveOne : ℚ := 8388609 / 8388608

/-- The rectangle 1x1 at (5, 0). -/
def offsetRect : QRect := ⟨5, 0, 1, 1⟩

/-- An output driving a 1440x900 mode at the scale 1.6 (as a `double`), placed at
(0, 0). -/
def scaledOutput : DrmOutput :=
  { scaleF := scale16, m_mode := { mode1080 with hdisplay := 1440, vdisplay := 900 } }

/-! ## Theorems -/

theorem flag_test_iff (f k : Nat) : f &&& 2 ^ k ≠ 0 ↔ f.testBit k = true := by
  constructor
  · intro h
    by_contra hb
    apply h
    apply Nat.eq_of_testBit_eq
    intro i
    simp only [Nat.testBit_and, Nat.zero_testBit, Nat.testBit_two_pow]
    by_cases hki : k = i
    · subst hki; simp [hb]
    · simp [hki]
  · intro hb h
    have := congrArg (fun n => n.testBit k) h
    simp [Nat.testBit_and, Nat.testBit_two_pow, hb] at this

/-- C1: for a mode with `htotal > 0` and `vtotal > 0` (fields in the range of their
C types) `refreshRateForMode` returns `r3`, where
`r0 = (clock * 1000000 / htotal + vtotal / 2) / vtotal`, `r1` doubles `r0` when
the interlace flag (bit 4) is set, `r2` halves `r1` when the double-scan flag
(bit 5) is set and `r3` divides `r2` by `vscan` when `vscan > 1`; and the mode
clock=148500, htotal=2200, vtotal=1125 without flags and vscan gives 60000. -/
theorem refreshRateForMode_formula (m : drmModeModeInfo)
    (hclock : m.clock < 2 ^ 32) (hvt : m.vtotal < 2 ^ 16)
    (hh : 0 < m.htotal) (hv : 0 < m.vtotal) :
    (let r0 := (m.clock * 1000000 / m.htotal + m.vtotal / 2) / m.vtotal
     let r1 := if m.flags.testBit 4 then 2 * r0 else r0
     let r2 := if m.flags.testBit 5 then r1 / 2 else r1
     let r3 := if m.vscan > 1 then r2 / m.vscan else r2
     refreshRateForMode m = r3) ∧
    (m.clock = 148500 → m.htotal = 2200 → m.vtotal = 1125 → m.flags = 0 → m.vscan = 0 →
      refreshRateForMode m = 60000) := by
  have hr0 : (m.clock * 1000000 / m.htotal + m.vtotal / 2) / m.vtotal < 2 ^ 63 := by
    have h1 : m.clock * 1000000 / m.htotal ≤ m.clock * 1000000 := Nat.div_le_self _ _
    have h2 : (m.clock * 1000000 / m.htotal + m.vtotal / 2) / m.vtotal
        ≤ m.clock * 1000000 / m.htotal + m.vtotal / 2 := Nat.div_le_self _ _
    omega
  have hI : (m.flags &&& DRM_MODE_FLAG_INTERLACE ≠ 0) ↔ m.flags.testBit 4 = true :=
    flag_test_iff m.flags 4
  have hD : (m.flags &&& DRM_MODE_FLAG_DBLSCAN ≠ 0) ↔ m.flags.testBit 5 = true :=
    flag_test_iff m.flags 5
  refine ⟨?_, ?_⟩
  · have e1 : (m.clock * 1000000 / m.htotal + m.vtotal / 2) / m.vtotal % 2 ^ 64
        = (m.clock * 1000000 / m.htotal + m.vtotal / 2) / m.vtotal :=
      Nat.mod_eq_of_lt (by omega)
    have e2 : (m.clock * 1000000 / m.htotal + m.vtotal / 2) / m.vtotal * 2 % 2 ^ 64
        = 2 * ((m.clock * 1000000 / m.htotal + m.vtotal / 2) / m.vtotal) := by
      rw [Nat.mod_eq_of_lt (by omega), Nat.mul_comm]
    simp only [refreshRateForMode, e1, e2, hI, hD]
  · intro h1 h2 h3 h4 h5
    simp [refreshRateForMode, h1, h2, h3, h4, h5]

/-- Witness of C1 at the 1920x1080@60 timing. -/
theorem refreshRateForMode_formula_witness :
    refreshRateForMode
      { clock := 148500, hdisplay := 1920, hsync_start := 2008, hsync_end := 2052,
        htotal := 2200, hskew := 0, vdisplay := 1080, vsync_start := 1084,
        vsync_end := 1089, vtotal := 1125, vscan := 0, vrefresh := 60, flags := 0,
        type := 0, name := "1920x1080" } = 60000 :=
  (refreshRateForMode_formula
      { clock := 148500, hdisplay := 1920, hsync_start := 2008, hsync_end := 2052,
        htotal := 2200, hskew := 0, vdisplay := 1080, vsync_start := 1084,
        vsync_end := 1089, vtotal := 1125, vscan := 0, vrefresh := 60, flags := 0,
        type := 0, name := "1920x1080" }
      (by decide) (by decide) (by decide) (by decide)).2 rfl rfl rfl rfl rfl

theorem byteAt_cons_succ (b : Byte) (data : List Byte) (i : Nat) :
    byteAt (b :: data) (i + 1) = byteAt data i := by
  simp [byteAt]

theorem byteAt_cons_zero (b : Byte) (data : List Byte) : byteAt (b :: data) 0 = b.val := by
  simp [byteAt]

theorem byte_val_eq_iff (b : Byte) (n : Nat) (hn : n < 256) :
    b.val = n ↔ b = ⟨n, hn⟩ := by
  constructor
  · intro h; exact Fin.ext h
  · intro h; rw [h]

theorem verifyEdidHeader_cons8 (b0 b1 b2 b3 b4 b5 b6 b7 : Byte) (rest : List Byte) :
    verifyEdidHeader (b0 :: b1 :: b2 :: b3 :: b4 :: b5 :: b6 :: b7 :: rest) = true ↔
      (b0 = 0x00 ∧ b1 = 0xFF ∧ b2 = 0xFF ∧ b3 = 0xFF ∧ b4 = 0xFF ∧ b5 = 0xFF ∧ b6 = 0xFF ∧
        b7 = 0x00) := by
  have e0 : ∀ b : Byte, b.val = 0 ↔ b = 0x00 := fun b => byte_val_eq_iff b 0 (by decide)
  have eF : ∀ b : Byte, b.val = 255 ↔ b = 0xFF := fun b => byte_val_eq_iff b 255 (by decide)
  simp only [verifyEdidHeader, List.range', List.any_cons, List.any_nil, byteAt_cons_succ,
    byteAt_cons_zero]
  simp only [ne_eq, e0, eF]
  by_cases h0 : b0 = 0x00 <;> by_cases h1 : b1 = 0xFF <;> by_cases h2 : b2 = 0xFF <;>
    by_cases h3 : b3 = 0xFF <;> by_cases h4 : b4 = 0xFF <;> by_cases h5 : b5 = 0xFF <;>
    by_cases h6 : b6 = 0xFF <;> by_cases h7 : b7 = 0x00 <;>
    simp [h0, h1, h2, h3, h4, h5, h6, h7]

theorem length_ge8_cases (data : List Byte) (h : 8 ≤ data.length) :
    ∃ b0 b1 b2 b3 b4 b5 b6 b7 rest,
      data = b0 :: b1 :: b2 :: b3 :: b4 :: b5 :: b6 :: b7 :: rest := by
  match data, h with
  | b0 :: b1 :: b2 :: b3 :: b4 :: b5 :: b6 :: b7 :: rest, _ =>
    exact ⟨b0, b1, b2, b3, b4, b5, b6, b7, rest, rfl⟩

/-- C2: on a blob of at least 8 bytes `verifyEdidHeader` returns true exactly when
bytes 0..7 are `00 FF FF FF FF FF FF 00`, and replacing any one of the eight bytes of
an accepted header by a different value makes it return false. -/
theorem verifyEdidHeader_iff (data : List Byte) (hlen : 8 ≤ data.length) :
    (verifyEdidHeader data = true ↔
      data.take 8 = [0x00, 0xFF, 0xFF, 0xFF, 0xFF, 0xFF, 0xFF, 0x00]) ∧
    (verifyEdidHeader data = true →
      ∀ (i : Nat) (v : Byte), i < 8 → v ≠ data.getD i 0 →
        verifyEdidHeader (data.set i v) = false) := by
  obtain ⟨b0, b1, b2, b3, b4, b5, b6, b7, rest, rfl⟩ := length_ge8_cases data hlen
  refine ⟨?_, ?_⟩
  · rw [verifyEdidHeader_cons8]
    simp
  · intro hv i v hi hne
    rw [verifyEdidHeader_cons8] at hv
    obtain ⟨h0, h1, h2, h3, h4, h5, h6, h7⟩ := hv
    subst h0 h1 h2 h3 h4 h5 h6 h7
    rw [Bool.eq_false_iff]
    intro hc
    have h8 : i = 0 ∨ i = 1 ∨ i = 2 ∨ i = 3 ∨ i = 4 ∨ i = 5 ∨ i = 6 ∨ i = 7 := by omega
    rcases h8 with h | h | h | h | h | h | h | h <;> subst h <;>
      simp only [List.set_cons_zero, List.set_cons_succ, verifyEdidHeader_cons8] at hc <;>
      simp [hc] at hne

/-- Witness of C2: the header `00 FF FF FF FF FF FF 00` followed by two bytes. -/
theorem verifyEdidHeader_iff_witness :
    verifyEdidHeader [0x00, 0xFF, 0xFF, 0xFF, 0xFF, 0xFF, 0xFF, 0x00, 0x10, 0xAC] = true ∧
    verifyEdidHeader
      (([0x00, 0xFF, 0xFF, 0xFF, 0xFF, 0xFF, 0xFF, 0x00, 0x10, 0xAC] : List Byte).set 3 0xFE)
      = false :=
  have h := verifyEdidHeader_iff [0x00, 0xFF, 0xFF, 0xFF, 0xFF, 0xFF, 0xFF, 0x00, 0x10, 0xAC]
    (by decide)
  ⟨h.1.mpr (by decide), h.2 (h.1.mpr (by decide)) 3 0xFE (by decide) (by decide)⟩

theorem toChar_val_of_lt (n : Nat) (h : n < 256) : (toChar n).val = n := by
  simp [toChar, Nat.mod_eq_of_lt h]

theorem toChar_ne_zero (n : Nat) (h0 : 0 < n) (h : n < 256) : toChar n ≠ 0 := by
  intro hc
  have := congrArg Fin.val hc
  rw [toChar_val_of_lt n h] at this
  simp at this
  omega

theorem eisa_fields_lt (b0 b1 : Nat) :
    ((b0 >>> 2) &&& 0x1f) < 32 ∧
    (((b0 &&& 0x3) <<< 3) ||| ((b1 >>> 5) &&& 0x7)) < 32 ∧
    (b1 &&& 0x1f) < 32 := by
  refine ⟨Nat.and_lt_two_pow _ (by decide : 0x1f < 2 ^ 5), ?_,
    Nat.and_lt_two_pow _ (by decide : 0x1f < 2 ^ 5)⟩
  apply Nat.or_lt_two_pow (n := 5)
  · have h : b0 &&& 0x3 < 2 ^ 2 := Nat.and_lt_two_pow _ (by decide)
    rw [Nat.shiftLeft_eq]
    omega
  · have h : (b1 >>> 5) &&& 0x7 < 2 ^ 3 := Nat.and_lt_two_pow _ (by decide)
    omega

theorem fromCString_three (a b c : Byte) (ha : a ≠ 0) (hb : b ≠ 0) (hc : c ≠ 0) :
    QByteArray.fromCString [a, b, c, 0] = [a, b, c] := by
  simp [QByteArray.fromCString, List.takeWhile, ha, hb, hc]

theorem extractEisaId_eq (data : List Byte) (h : byteAt data 8 < 128) :
    extractEisaId data =
      [toChar (65 + ((byteAt data 8 >>> 2) &&& 0x1f) - 1),
       toChar (65 + (((byteAt data 8 &&& 0x3) <<< 3) ||| ((byteAt data 9 >>> 5) &&& 0x7)) - 1),
       toChar (65 + (byteAt data 9 &&& 0x1f) - 1)] := by
  obtain ⟨h1, h2, h3⟩ := eisa_fields_lt (byteAt data 8) (byteAt data 9)
  have hs : byteAt data 8 >>> 7 = 0 := by
    rw [Nat.shiftRight_eq_div_pow]; omega
  have n1 := toChar_ne_zero (65 + ((byteAt data 8 >>> 2) &&& 0x1f) - 1) (by omega) (by omega)
  have n2 := toChar_ne_zero
    (65 + (((byteAt data 8 &&& 0x3) <<< 3) ||| ((byteAt data 9 >>> 5) &&& 0x7)) - 1)
    (by omega) (by omega)
  have n3 := toChar_ne_zero (65 + (byteAt data 9 &&& 0x1f) - 1) (by omega) (by omega)
  simp only [extractEisaId, hs, ne_eq, not_true_eq_false, if_false]
  exact fromCString_three _ _ _ n1 n2 n3

theorem extractEisaId_invalid (data : List Byte) (h : 128 ≤ byteAt data 8) :
    extractEisaId data = [] := by
  have hs : byteAt data 8 >>> 7 ≠ 0 := by
    rw [Nat.shiftRight_eq_div_pow]
    have : 1 ≤ byteAt data 8 / 2 ^ 7 := by
      rw [Nat.le_div_iff_mul_le (by decide)]; omega
    omega
  simp only [extractEisaId, if_pos hs]

/-- C4: with `b0` the byte at 0x08 and `b1` the byte at 0x09, `extractEisaId`
returns the empty array when the top bit of `b0` is set, and otherwise exactly the
three characters `'A' + ((b0 >> 2) & 0x1f) - 1`,
`'A' + (((b0 & 0x3) << 3) | ((b1 >> 5) & 0x7)) - 1` and `'A' + (b1 & 0x1f) - 1`
(`'A'` is 65). -/
theorem extractEisaId_spec (data : List Byte) :
    (128 ≤ byteAt data 8 → extractEisaId data = []) ∧
    (byteAt data 8 < 128 →
      (extractEisaId data).map Fin.val =
        [65 + ((byteAt data 8 >>> 2) &&& 0x1f) - 1,
         65 + (((byteAt data 8 &&& 0x3) <<< 3) ||| ((byteAt data 9 >>> 5) &&& 0x7)) - 1,
         65 + (byteAt data 9 &&& 0x1f) - 1]) := by
  refine ⟨extractEisaId_invalid data, fun h => ?_⟩
  obtain ⟨h1, h2, h3⟩ := eisa_fields_lt (byteAt data 8) (byteAt data 9)
  rw [extractEisaId_eq data h]
  simp only [List.map_cons, List.map_nil]
  rw [toChar_val_of_lt _ (by omega), toChar_val_of_lt _ (by omega), toChar_val_of_lt _ (by omega)]

/-- Witness of C4: the manufacturer bytes `10 AC` decode to "DEL", and a first byte
with the top bit set gives no ID. -/
theorem extractEisaId_spec_witness :
    extractEisaId [0x00, 0xFF, 0xFF, 0xFF, 0xFF, 0xFF, 0xFF, 0x00, 0x90, 0xAC] = [] ∧
    (extractEisaId [0x00, 0xFF, 0xFF, 0xFF, 0xFF, 0xFF, 0xFF, 0x00, 0x10, 0xAC]).map Fin.val
      = [68, 69, 76] :=
  ⟨(extractEisaId_spec [0x00, 0xFF, 0xFF, 0xFF, 0xFF, 0xFF, 0xFF, 0x00, 0x90, 0xAC]).1
      (by decide),
   (extractEisaId_spec [0x00, 0xFF, 0xFF, 0xFF, 0xFF, 0xFF, 0xFF, 0x00, 0x10, 0xAC]).2
      (by decide)⟩

set_option maxRecDepth 8000 in
/-- Counterexample to C5: a 128-byte EDID with the valid header whose manufacturer
bytes are `00 00` yields the non-empty ID "@@@", which has no letter in it. -/
theorem extractEisaId_not_letters :
    extractEisaId
        ([0x00, 0xFF, 0xFF, 0xFF, 0xFF, 0xFF, 0xFF, 0x00, 0x00, 0x00] ++ List.replicate 118 0)
      = [64, 64, 64] ∧
    ¬ (∀ c ∈ extractEisaId
        ([0x00, 0xFF, 0xFF, 0xFF, 0xFF, 0xFF, 0xFF, 0x00, 0x00, 0x00] ++ List.replicate 118 0),
        65 ≤ c.val ∧ c.val ≤ 90) := by
  have h : extractEisaId
        ([0x00, 0xFF, 0xFF, 0xFF, 0xFF, 0xFF, 0xFF, 0x00, 0x00, 0x00] ++ List.replicate 118 0)
      = [64, 64, 64] := by decide
  rw [h]
  decide

/-- C5 (amended): a non-empty ID returned by `extractEisaId` has exactly three
characters, each with a code from 64 (`'@'`) to 95 (`'_'`); the three are all letters
`'A'..'Z'` exactly when each of the three 5-bit fields of the two bytes is between 1
and 26. -/
theorem extractEisaId_chars (data : List Byte) (h : extractEisaId data ≠ []) :
    (extractEisaId data).length = 3 ∧
    (∀ c ∈ extractEisaId data, 64 ≤ c.val ∧ c.val ≤ 95) ∧
    ((∀ c ∈ extractEisaId data, 65 ≤ c.val ∧ c.val ≤ 90) ↔
      (∀ v ∈ [(byteAt data 8 >>> 2) &&& 0x1f,
              ((byteAt data 8 &&& 0x3) <<< 3) ||| ((byteAt data 9 >>> 5) &&& 0x7),
              byteAt data 9 &&& 0x1f], 1 ≤ v ∧ v ≤ 26)) := by
  have hlt : byteAt data 8 < 128 := by
    by_contra hc
    exact h (extractEisaId_invalid data (by omega))
  obtain ⟨h1, h2, h3⟩ := eisa_fields_lt (byteAt data 8) (byteAt data 9)
  have v1 := toChar_val_of_lt (65 + ((byteAt data 8 >>> 2) &&& 0x1f) - 1) (by omega)
  have v2 := toChar_val_of_lt
    (65 + (((byteAt data 8 &&& 0x3) <<< 3) ||| ((byteAt data 9 >>> 5) &&& 0x7)) - 1) (by omega)
  have v3 := toChar_val_of_lt (65 + (byteAt data 9 &&& 0x1f) - 1) (by omega)
  rw [extractEisaId_eq data hlt]
  simp only [List.length_cons, List.length_nil, List.mem_cons, List.mem_singleton,
    forall_eq_or_imp, forall_eq, List.not_mem_nil, false_implies, implies_true, and_true,
    v1, v2, v3, true_and, IsEmpty.forall_iff]
  omega

/-- Witness of the amended C5 on the manufacturer bytes `10 AC` ("DEL"). -/
theorem extractEisaId_chars_witness :
    (extractEisaId [0x00, 0xFF, 0xFF, 0xFF, 0xFF, 0xFF, 0xFF, 0x00, 0x10, 0xAC]).length = 3 :=
  (extractEisaId_chars [0x00, 0xFF, 0xFF, 0xFF, 0xFF, 0xFF, 0xFF, 0x00, 0x10, 0xAC]
    (by decide)).1

/-- C9: when a flip is pending (atomic path: `m_pageFlipPending` is set; legacy path:
the CRTC has a next buffer), `present(buffer)` returns false and changes nothing in
the output state, so the pending buffer, the plane flip list and the pending flag
are as before. -/
theorem present_while_flip_pending (b : DrmBackend) (env : PresentEnv) (o : DrmOutput)
    (buffer : Nat)
    (hatomic : b.atomicModeSetting = true → o.m_pageFlipPending = true)
    (hlegacy : b.atomicModeSetting = false → o.m_crtc.next.isSome = true) :
    present b env o buffer = some (false, o) := by
  unfold present
  by_cases ht : o.m_teardown = true
  · simp [ht]
  by_cases hd : o.m_dpmsModePending = DpmsMode.Off
  · simp [ht, hd]
  by_cases ha : b.atomicModeSetting = true
  · have hp := hatomic ha
    simp only [ht, hd, ha, if_true, if_false]
    unfold presentAtomically
    by_cases hv : o.m_isVirtual = true
    · simp [hv]
    by_cases hs : env.atomic.sessionActive = true
    · simp [hv, hs, hp]
    · simp [hv, hs]
  · have hn := hlegacy (by simpa using ha)
    simp only [ht, hd, ha, if_false]
    simp [presentLegacy, hn]

/-- Witness of C9 on both paths: on the atomic path a flip is pending on an output
whose primary plane has a queued buffer; on the legacy path the CRTC has a next
buffer. -/
theorem present_while_flip_pending_witness :
    present { atomicModeSetting := true } {}
      { m_pageFlipPending := true,
        m_primaryPlane := some { next := some 7 },
        m_nextPlanesFlipList := [PlaneRef.primaryPlane] } 8
      = some (false,
          { m_pageFlipPending := true,
            m_primaryPlane := some { next := some 7 },
            m_nextPlanesFlipList := [PlaneRef.primaryPlane] }) ∧
    present { atomicModeSetting := false } {} { m_crtc := { current := some 6, next := some 7 } } 8
      = some (false, { m_crtc := { current := some 6, next := some 7 } }) :=
  ⟨present_while_flip_pending { atomicModeSetting := true } {} _ 8 (fun _ => rfl)
      (fun h => absurd h (by decide)),
   present_while_flip_pending { atomicModeSetting := false } {} _ 8
      (fun h => absurd h (by decide)) (fun _ => rfl)⟩

theorem CommitFrame.refl (o : DrmOutput) : CommitFrame o o :=
  ⟨rfl, rfl, rfl, rfl, rfl, fun h => h⟩

theorem CommitFrame.trans {a b c : DrmOutput} (h1 : CommitFrame a b) (h2 : CommitFrame b c) :
    CommitFrame a c :=
  ⟨h2.1.trans h1.1, h2.2.1.trans h1.2.1, h2.2.2.1.trans h1.2.2.1,
    h2.2.2.2.1.trans h1.2.2.2.1, h2.2.2.2.2.1.trans h1.2.2.2.2.1,
    fun h => h2.2.2.2.2.2 (h1.2.2.2.2.2 h)⟩

theorem errorHandler_frame (o o' : DrmOutput) (h : errorHandler o = some o') :
    CommitFrame o o' := by
  unfold errorHandler at h
  simp only [dpmsOffHandler] at h
  split at h
  · simp only [Option.some.injEq] at h
    subst h
    split_ifs <;> exact ⟨rfl, rfl, rfl, rfl, rfl, fun h => h⟩
  · exact absurd h (by simp)
  · simp only [Option.some.injEq] at h
    subst h
    split_ifs <;> exact ⟨rfl, rfl, rfl, rfl, rfl, fun _ => rfl⟩

theorem commitFailed_frame (o o' : DrmOutput) (r : Bool) (h : commitFailed o = some (r, o')) :
    r = false ∧ CommitFrame o o' := by
  unfold commitFailed at h
  cases he : errorHandler o with
  | none => simp [he] at h
  | some o1 =>
    simp only [he, Option.map_some', Option.some.injEq, Prod.mk.injEq] at h
    obtain ⟨h1, h2⟩ := h
    subst h2
    exact ⟨h1.symm, errorHandler_frame o o1 he⟩

theorem logCall_frame (o : DrmOutput) (c : HwCall) : CommitFrame o (o.logCall c) :=
  ⟨rfl, rfl, rfl, rfl, rfl, fun h => h⟩

theorem doAtomicCommitTail_frame (env : CommitEnv) (mode : AtomicCommitMode) (modeset : Bool)
    (o o' : DrmOutput) (h : doAtomicCommitTail env mode modeset o = some (false, o')) :
    CommitFrame o o' := by
  simp only [doAtomicCommitTail] at h
  split at h
  · exact absurd h (by simp)
  · split at h
    · exact (commitFailed_frame _ _ _ h).2
    · split at h
      · exact (logCall_frame o _).trans (commitFailed_frame _ _ _ h).2
      · exact absurd h (by simp)

theorem atomicReqModesetPopulate_frame (b : DrmBackend) (env : CommitEnv) (o o' : DrmOutput)
    (enable r : Bool) (h : atomicReqModesetPopulate b env o enable = some (r, o')) :
    CommitFrame o o' := by
  simp only [atomicReqModesetPopulate] at h
  split at h
  · simp only [Option.some.injEq, Prod.mk.injEq] at h
    rw [← h.2]; exact CommitFrame.refl o
  · split at h
    · exact absurd h (by simp)
    · simp only [Option.some.injEq, Prod.mk.injEq] at h
      rw [← h.2]
      cases enable
      · by_cases hd : b.deleteBufferAfterPageFlip = true
        · simp only [Bool.false_eq_true, if_false, hd, if_true]
          exact ⟨rfl, rfl, rfl, rfl, rfl, fun _ => rfl⟩
        · simp only [Bool.false_eq_true, if_false, hd]
          exact ⟨rfl, rfl, rfl, rfl, rfl, fun _ => rfl⟩
      · simp only [if_true]; exact CommitFrame.refl o

theorem doAtomicCommit_frame (b : DrmBackend) (env : CommitEnv) (mode : AtomicCommitMode)
    (o o' : DrmOutput) (h : doAtomicCommit b env mode o = some (false, o')) :
    CommitFrame o o' := by
  simp only [doAtomicCommit] at h
  split at h
  · exact (commitFailed_frame _ _ _ h).2
  · split at h
    · split at h
      · exact (logCall_frame o _).trans (commitFailed_frame _ _ _ h).2
      · have hf : CommitFrame o
            (if o.m_dpmsModePending = DpmsMode.On then
              { o.logCall HwCall.createPropertyBlob with m_blobId := env.blobId } else o) := by
          split <;> exact ⟨rfl, rfl, rfl, rfl, rfl, fun h => h⟩
        split at h
        · exact absurd h (by simp)
        · next o1 hp =>
          exact hf.trans ((atomicReqModesetPopulate_frame _ _ _ _ _ _ hp).trans
            (commitFailed_frame _ _ _ h).2)
        · next o1 hp =>
          exact hf.trans ((atomicReqModesetPopulate_frame _ _ _ _ _ _ hp).trans
            (doAtomicCommitTail_frame _ _ _ _ _ h))
    · exact doAtomicCommitTail_frame _ _ _ _ _ h

theorem showCursor_sameGeometry (ok : Bool) (o : DrmOutput) :
    SameGeometry o (showCursor ok o).2 := by
  unfold showCursor showCursorBuffer
  cases o.m_cursor.getD o.m_cursorIndex none with
  | none => simp [SameGeometry]
  | some handle =>
    cases ok
    · simp [SameGeometry, DrmOutput.logCall]
    · by_cases hn : o.m_hasNewCursor = true <;> simp [SameGeometry, DrmOutput.logCall, hn]

theorem setWaylandMode_sameGeometry (o : DrmOutput) : SameGeometry o (setWaylandMode o) := by
  unfold setWaylandMode AbstractOutput.setWaylandMode
  split <;> exact ⟨rfl, rfl, rfl, rfl⟩

theorem updateCursor_sameGeometry (n : Bool) (o o' : DrmOutput)
    (h : updateCursor n o = some o') : SameGeometry o o' := by
  unfold updateCursor at h
  split at h
  · simp only [Option.some.injEq] at h; rw [← h]; exact ⟨rfl, rfl, rfl, rfl⟩
  · split at h
    · exact absurd h (by simp)
    · simp only [Option.some.injEq] at h; rw [← h]; exact ⟨rfl, rfl, rfl, rfl⟩

theorem updateCursor_isSome (n : Bool) (o : DrmOutput)
    (h : n = true ∨ (o.m_cursor.getD o.m_cursorIndex none).isSome = true) :
    ∃ o', updateCursor n o = some o' := by
  unfold updateCursor
  cases n
  · have hc : (o.m_cursor.getD o.m_cursorIndex none).isSome = true := by
      rcases h with h | h
      · exact absurd h (by decide)
      · exact h
    obtain ⟨c, hc'⟩ := Option.isSome_iff_exists.mp hc
    exact ⟨{ o with m_hasNewCursor := true }, by simp only [Bool.false_eq_true, if_false, hc']⟩
  · exact ⟨o, by simp⟩

theorem restoreGeometry_spec (o : DrmOutput) (p : DrmPlane) (hpl : o.m_primaryPlane = some p) :
    (restoreGeometry o).m_mode = o.m_lastWorkingState.mode ∧
    (restoreGeometry o).m_orientation = o.m_lastWorkingState.orientation ∧
    (restoreGeometry o).m_primaryPlane.map DrmPlane.transformation
      = some o.m_lastWorkingState.planeTransformations ∧
    (restoreGeometry o).globalPosition
      = (if o.enabled then o.m_lastWorkingState.globalPos else o.globalPosition) ∧
    (restoreGeometry o).m_cursor = o.m_cursor ∧
    (restoreGeometry o).m_cursorIndex = o.m_cursorIndex := by
  by_cases he : o.enabled = true
  · simp [restoreGeometry, setOrientation, setGlobalPos, he, hpl, DrmPlane.setTransformation]
  · simp [restoreGeometry, setOrientation, setGlobalPos, he, hpl, DrmPlane.setTransformation]

theorem restoreLastWorkingState_spec (env : CursorEnv) (o : DrmOutput) (p : DrmPlane)
    (hvalid : o.m_lastWorkingState.valid = true) (hpl : o.m_primaryPlane = some p)
    (hcur : env.softwareCursorNull = true ∨ (o.m_cursor.getD o.m_cursorIndex none).isSome = true) :
    ∃ o', restoreLastWorkingState env o = some o' ∧
      o'.m_mode = o.m_lastWorkingState.mode ∧
      o'.m_orientation = o.m_lastWorkingState.orientation ∧
      o'.m_primaryPlane.map DrmPlane.transformation
        = some o.m_lastWorkingState.planeTransformations ∧
      o'.globalPosition
        = (if o.enabled then o.m_lastWorkingState.globalPos else o.globalPosition) := by
  obtain ⟨g1, g2, g3, g4, c1, c2⟩ := restoreGeometry_spec o p hpl
  obtain ⟨o2, ho2⟩ := updateCursor_isSome env.softwareCursorNull (restoreGeometry o)
    (by rw [c1, c2]; exact hcur)
  obtain ⟨u1, u2, u3, u4⟩ := updateCursor_sameGeometry _ _ _ ho2
  obtain ⟨s1, s2, s3, s4⟩ := showCursor_sameGeometry env.setCursorOk o2
  obtain ⟨w1, w2, w3, w4⟩ := setWaylandMode_sameGeometry (showCursor env.setCursorOk o2).2
  refine ⟨setWaylandMode (showCursor env.setCursorOk o2).2, ?_, ?_, ?_, ?_, ?_⟩
  · simp only [restoreLastWorkingState, hvalid, if_true, ho2]
  · rw [w1, s1, u1, g1]
  · rw [w2, s2, u2, g2]
  · rw [w3, s3, u3, g3]
  · rw [w4, s4, u4, g4]

/-- C10 (amended): with a recorded (valid) `m_lastWorkingState`, when the TEST commit
of `presentAtomically` fails, `presentAtomically` returns false and afterwards the
mode, the orientation and the primary plane's transformation equal the values stored
in `m_lastWorkingState`; the global position equals the stored one when the output is
enabled, and is left as it was when the output is disabled (`setGlobalPos` returns at
once on a disabled output). -/
theorem presentAtomically_test_failure (b : DrmBackend) (env : AtomicEnv) (o o2 : DrmOutput)
    (p : DrmPlane) (buffer : Nat)
    (hv : o.m_isVirtual = false) (hs : env.sessionActive = true)
    (hp : o.m_pageFlipPending = false) (hplane : o.m_primaryPlane = some p)
    (hlws : o.m_lastWorkingState.valid = true)
    (hcur : env.rollbackCursor.softwareCursorNull = true ∨
      (o.m_cursor.getD o.m_cursorIndex none).isSome = true)
    (htest : doAtomicCommit b env.test AtomicCommitMode.Test (queuePrimaryPlane o p buffer)
      = some (false, o2)) :
    ∃ o', presentAtomically b env o buffer = some (false, o') ∧
      o'.m_mode = o.m_lastWorkingState.mode ∧
      o'.m_orientation = o.m_lastWorkingState.orientation ∧
      o'.m_primaryPlane.map DrmPlane.transformation
        = some o.m_lastWorkingState.planeTransformations ∧
      o'.globalPosition
        = (if o.enabled then o.m_lastWorkingState.globalPos else o.globalPosition) := by
  obtain ⟨f1, f2, f3, f4, f5, f6⟩ := doAtomicCommit_frame _ _ _ _ _ htest
  have f1' : o2.m_lastWorkingState = o.m_lastWorkingState := f1
  have f2' : o2.enabled = o.enabled := f2
  have f3' : o2.globalPosition = o.globalPosition := f3
  have f4' : o2.m_cursor = o.m_cursor := f4
  have f5' : o2.m_cursorIndex = o.m_cursorIndex := f5
  obtain ⟨p2, hp2⟩ := Option.isSome_iff_exists.mp (f6 rfl)
  obtain ⟨o', h1, h2, h3, h4, h5⟩ := restoreLastWorkingState_spec env.rollbackCursor o2 p2
    (by rw [f1']; exact hlws) hp2 (by rw [f4', f5']; exact hcur)
  refine ⟨o', ?_, ?_, ?_, ?_, ?_⟩
  · simp only [presentAtomically, hv, hs, hp, hplane, htest, h1, Bool.false_eq_true, if_false,
      not_true_eq_false, Option.map_some']
  · rw [h2, f1']
  · rw [h3, f1']
  · rw [h4, f1']
  · rw [h5, f1', f2', f3']

/-- Witness of the amended C10: the enabled output returns to 1920x1080, landscape,
position (1920, 0) and plane rotation 1 when the kernel rejects the TEST commit. -/
theorem presentAtomically_test_failure_witness :
    ∃ o', presentAtomically { atomicModeSetting := true } testRejected
        (reconfiguredOutput true) 5 = some (false, o') ∧
      o'.m_mode = mode1080 ∧
      o'.m_orientation = ScreenOrientation.PrimaryOrientation ∧
      o'.m_primaryPlane.map DrmPlane.transformation = some 1 ∧
      o'.globalPosition = ⟨1920, 0⟩ :=
  presentAtomically_test_failure { atomicModeSetting := true } testRejected
    (reconfiguredOutput true)
    { reconfiguredOutput true with
      m_primaryPlane := some { id := 31, transformation := 2 },
      m_blobId := 1,
      hwCalls := [HwCall.createPropertyBlob, HwCall.atomicCommit 1280] }
    { id := 31, transformation := 2 } 5 rfl rfl rfl rfl rfl (Or.inr rfl) rfl

/-- Counterexample to C10: a disabled output with a recorded last working state at
position (1920, 0) is presented to while its position is (0, 0); the kernel rejects
the TEST commit, `presentAtomically` returns false, and the position is still (0, 0),
not the recorded (1920, 0). -/
theorem presentAtomically_disabled_keeps_position :
    (reconfiguredOutput false).m_lastWorkingState.valid = true ∧
    (reconfiguredOutput false).m_lastWorkingState.globalPos = ⟨1920, 0⟩ ∧
    (doAtomicCommit { atomicModeSetting := true } testRejected.test AtomicCommitMode.Test
      (queuePrimaryPlane (reconfiguredOutput false) { id := 31, transformation := 2 } 5)).map
        Prod.fst = some false ∧
    (presentAtomically { atomicModeSetting := true } testRejected
      (reconfiguredOutput false) 5).map (fun r => (r.1, r.2.globalPosition))
      = some (false, ⟨0, 0⟩) ∧
    ¬ ((presentAtomically { atomicModeSetting := true } testRejected
      (reconfiguredOutput false) 5).map (fun r => r.2.globalPosition)
      = some (reconfiguredOutput false).m_lastWorkingState.globalPos) ∧
    (present { atomicModeSetting := true } { atomic := testRejected }
      (reconfiguredOutput false) 5).map (fun r => (r.1, r.2.globalPosition))
      = some (false, ⟨0, 0⟩) := by
  refine ⟨rfl, rfl, by decide, by decide, by decide, by decide⟩

theorem edidHeader_accepted_iff (data : List Byte) (hlen : 8 ≤ data.length) :
    verifyEdidHeader data = true ↔
      data.take 8 = [0x00, 0xFF, 0xFF, 0xFF, 0xFF, 0xFF, 0xFF, 0x00] := by
  obtain ⟨b0, b1, b2, b3, b4, b5, b6, b7, rest, rfl⟩ := length_ge8_cases data hlen
  rw [verifyEdidHeader_cons8]
  simp

theorem initEdid_rejects (o : DrmOutput) (edid : Option (List Byte))
    (hbad : ∀ data, edid = some data →
      data.length < 128 ∨ data.take 8 ≠ [0x00, 0xFF, 0xFF, 0xFF, 0xFF, 0xFF, 0xFF, 0x00]) :
    initEdid o edid = o := by
  cases edid with
  | none => rfl
  | some data =>
    unfold initEdid
    by_cases hl : data.length < 128
    · simp [hl]
    · have hh : verifyEdidHeader data ≠ true := by
        intro hv
        rcases hbad data rfl with h | h
        · exact hl h
        · exact h ((edidHeader_accepted_iff data (by omega)).mp hv)
      simp [hl, hh]

theorem updateDpms_on_keeps (b : DrmBackend) (env : DpmsEnv) (o : DrmOutput) :
    ∃ o', updateDpms b env o DpmsMode.On = some o' ∧
      o'.m_physicalSize = o.m_physicalSize ∧ o'.m_edid = o.m_edid := by
  unfold updateDpms
  by_cases h1 : o.m_hasDpms = true
  · by_cases h2 : DpmsMode.On = o.m_dpmsModePending
    · exact ⟨o, by simp [h1, h2], rfl, rfl⟩
    · by_cases h3 : b.atomicModeSetting = true
      · by_cases h4 : o.m_pageFlipPending = true <;>
          by_cases h5 : b.usesSoftwareCursor = true <;>
          simp [h1, h2, h3, h4, h5, dpmsOnHandler]
      · by_cases h6 : env.setPropertyOk = true <;>
          by_cases h5 : b.usesSoftwareCursor = true <;>
          simp [h1, h2, h3, h5, h6, dpmsOnHandler, dpmsLegacyApply, DrmOutput.logCall]
  · exact ⟨o, by simp [h1], rfl, rfl⟩

theorem initPrimaryPlane_edid (self : Nat) (o : DrmOutput) (planes : List (Option DrmPlane)) :
    (initPrimaryPlane self o planes).2.2.m_edid = o.m_edid := by
  induction planes with
  | nil => rfl
  | cons p rest ih =>
    cases p with
    | none => simpa [initPrimaryPlane] using ih
    | some p =>
      unfold initPrimaryPlane
      split
      · simpa using ih
      · rfl

theorem initDpmsScaling_edid (o : DrmOutput) (d s : Bool) :
    (initScaling (initDpms o d) s).m_edid = o.m_edid := by
  cases d <;> cases s <;> rfl

theorem initFinish_empty_edid (b : DrmBackend) (tables : DefaultModes) (env : InitEnv)
    (connector : drmModeConnector) (o : DrmOutput)
    (hedid : o.m_edid = {})
    (hnone : env.edidOverwrite unknown unknown unknown = none) :
    ∃ o', initFinish b tables env connector o = some o' ∧
      o'.m_edid = {} ∧
      o'.m_physicalSize = ⟨toInt32 connector.mmWidth, toInt32 connector.mmHeight⟩ := by
  unfold initFinish
  simp only [hedid]
  have e1 : (({} : Edid).eisaId.isEmpty) = true := rfl
  have e2 : (({} : Edid).monitorName.isEmpty) = true := rfl
  have e3 : (({} : Edid).serialNumber.isEmpty) = true := rfl
  have e4 : (({} : Edid).physicalSize.isEmpty) = true := rfl
  simp only [e1, e2, e3, e4, if_true, hnone, not_true_eq_false, if_false]
  exact (updateDpms_on_keeps b env.dpms _).elim
    fun o' h => ⟨o', h.1, h.2.2.trans rfl, h.2.1.trans rfl⟩

theorem initPrimaryPlane_physicalSize (self : Nat) (o : DrmOutput)
    (planes : List (Option DrmPlane)) :
    (initPrimaryPlane self o planes).2.2.m_physicalSize = o.m_physicalSize := by
  induction planes with
  | nil => rfl
  | cons p rest ih =>
    cases p with
    | none => simpa [initPrimaryPlane] using ih
    | some p =>
      unfold initPrimaryPlane
      split
      · simpa using ih
      · rfl

theorem initSetup_keeps (b : DrmBackend) (env : InitEnv) (self : Nat)
    (planes : List (Option DrmPlane)) (o : DrmOutput) :
    (initSetup b env self planes o).2.2.m_edid = o.m_edid ∧
    (initSetup b env self planes o).2.2.m_physicalSize = o.m_physicalSize := by
  unfold initSetup
  by_cases ha : b.atomicModeSetting = true
  · simp only [ha, if_true]
    exact ⟨initPrimaryPlane_edid self o planes, initPrimaryPlane_physicalSize self o planes⟩
  · simp only [ha, if_false]
    exact ⟨rfl, rfl⟩

theorem initDpmsScaling_physicalSize (o : DrmOutput) (d s : Bool) :
    (initScaling (initDpms o d) s).m_physicalSize = o.m_physicalSize := by
  cases d <;> cases s <;> rfl

/-- C3: when the EDID blob is shorter than 128 bytes or does not start with the EDID
header, `initEdid` returns without a change, so on a new output (empty EDID record)
EISA ID, monitor name and serial number stay empty and the physical size stays the
empty size.  With no `PhysicalSize` entry for unknown/unknown/unknown, `init` then
returns true with the physical size `QSize(connector->mmWidth, connector->mmHeight)`
whenever its set-up step (`initPrimaryPlane()` or `m_crtc->blank()`) succeeds; when
that step fails `init` returns false and the physical size is the one the output had
before. -/
theorem init_invalid_edid (b : DrmBackend) (tables : DefaultModes) (env : InitEnv)
    (self : Nat) (planes : List (Option DrmPlane)) (connector : drmModeConnector)
    (o : DrmOutput)
    (hfresh : o.m_edid = {})
    (hbad : ∀ data, env.edid = some data →
      data.length < 128 ∨ data.take 8 ≠ [0x00, 0xFF, 0xFF, 0xFF, 0xFF, 0xFF, 0xFF, 0x00])
    (hnone : env.edidOverwrite unknown unknown unknown = none) :
    initEdid o env.edid = o ∧
    (initEdid o env.edid).m_edid.eisaId = [] ∧
    (initEdid o env.edid).m_edid.monitorName = [] ∧
    (initEdid o env.edid).m_edid.serialNumber = [] ∧
    (initEdid o env.edid).m_edid.physicalSize.isEmpty = true ∧
    ((initSetup b env self planes
        (initScaling (initDpms o env.hasDpmsProperty) env.hasScalingProperty)).1 = true →
      ∃ planes' o', init b tables env self planes connector o = some (true, planes', o') ∧
        o'.m_edid = {} ∧
        o'.m_physicalSize = ⟨toInt32 connector.mmWidth, toInt32 connector.mmHeight⟩) ∧
    ((initSetup b env self planes
        (initScaling (initDpms o env.hasDpmsProperty) env.hasScalingProperty)).1 = false →
      ∃ planes' o', init b tables env self planes connector o = some (false, planes', o') ∧
        o'.m_edid = {} ∧ o'.m_physicalSize = o.m_physicalSize) := by
  have he : initEdid o env.edid = o := initEdid_rejects o env.edid hbad
  refine ⟨he, by rw [he, hfresh], by rw [he, hfresh], by rw [he, hfresh],
    by rw [he, hfresh]; rfl, ?_, ?_⟩
  · intro hs
    have h2 := (initSetup_keeps b env self planes
      (initScaling (initDpms o env.hasDpmsProperty) env.hasScalingProperty)).1.trans
      ((initDpmsScaling_edid o env.hasDpmsProperty env.hasScalingProperty).trans hfresh)
    obtain ⟨o', f1, f2, f3⟩ := initFinish_empty_edid b tables env connector _ h2 hnone
    refine ⟨(initSetup b env self planes
      (initScaling (initDpms o env.hasDpmsProperty) env.hasScalingProperty)).2.1, o', ?_, f2, f3⟩
    unfold init
    rw [he]
    simp only [hs, not_true_eq_false, if_false, f1, Option.map_some']
  · intro hs
    have hk := initSetup_keeps b env self planes
      (initScaling (initDpms o env.hasDpmsProperty) env.hasScalingProperty)
    refine ⟨(initSetup b env self planes
      (initScaling (initDpms o env.hasDpmsProperty) env.hasScalingProperty)).2.1,
      (initSetup b env self planes
      (initScaling (initDpms o env.hasDpmsProperty) env.hasScalingProperty)).2.2, ?_,
      hk.1.trans ((initDpmsScaling_edid o env.hasDpmsProperty env.hasScalingProperty).trans hfresh),
      hk.2.trans (initDpmsScaling_physicalSize o env.hasDpmsProperty env.hasScalingProperty)⟩
    unfold init
    rw [he]
    simp only [hs, Bool.false_eq_true, not_false_eq_true, if_true]

/-- Witness of C3: a 128-byte blob whose second header byte is `FE`, on a new legacy
output whose connector reports 520 mm x 290 mm and whose CRTC can be blanked: `init`
returns true and the physical size is 520 x 290. -/
theorem init_invalid_edid_witness :
    initEdid {} (some (sampleEdid.set 1 0xFE)) = {} ∧
    ∃ planes' o',
      init {} {} { edid := some (sampleEdid.set 1 0xFE) } 1 []
        { mmWidth := 520, mmHeight := 290 } {} = some (true, planes', o') ∧
      o'.m_edid = {} ∧ o'.m_physicalSize = ⟨520, 290⟩ :=
  have h := init_invalid_edid {} {} { edid := some (sampleEdid.set 1 0xFE) } 1 []
    { mmWidth := 520, mmHeight := 290 } {} rfl
    (fun data hd => by
      have hd' : some (sampleEdid.set 1 0xFE) = some data := hd
      cases hd'
      exact Or.inr (by decide))
    rfl
  ⟨h.1, h.2.2.2.2.2.1 rfl⟩

set_option maxRecDepth 8000 in
/-- Counterexample to C3: the same invalid blob and connector, no `PhysicalSize`
entry, but the set-up step fails (atomic mode setting with no plane to claim, or a
legacy CRTC that cannot be blanked): `init` returns false before the physical size is
assigned, and the size stays the invalid default (-1, -1), not 520 x 290. -/
theorem init_aborts_before_physical_size :
    (init { atomicModeSetting := true } {} { edid := some (sampleEdid.set 1 0xFE) } 1 []
      { mmWidth := 520, mmHeight := 290 } {}).map (fun r => (r.1, r.2.2.m_physicalSize))
      = some (false, ⟨-1, -1⟩) ∧
    (init {} {}
      { edid := some (sampleEdid.set 1 0xFE), dpms := { crtcBlank := fun c => (false, c) } }
      1 [] { mmWidth := 520, mmHeight := 290 } {}).map (fun r => (r.1, r.2.2.m_physicalSize))
      = some (false, ⟨-1, -1⟩) ∧
    ({ edid := some (sampleEdid.set 1 0xFE) } : InitEnv).edidOverwrite unknown unknown unknown
      = none ∧
    (sampleEdid.set 1 0xFE).take 8 ≠ [0x00, 0xFF, 0xFF, 0xFF, 0xFF, 0xFF, 0xFF, 0x00] ∧
    (⟨-1, -1⟩ : QSize) ≠ ⟨toInt32 520, toInt32 290⟩ := by
  refine ⟨by decide, by decide, rfl, by decide, by decide⟩

theorem descriptorStep_fields (data : List Byte) (e : Edid) (i : Nat) :
    (descriptorStep data e i).monitorName =
      (if hasTag data 0xfc i = true ∧ e.monitorName = [] then descriptorText data i
       else e.monitorName) ∧
    (descriptorStep data e i).eisaId =
      (if hasTag data 0xfe i = true ∧ descriptorText data i ≠ [] then descriptorText data i
       else e.eisaId) ∧
    (descriptorStep data e i).serialNumber =
      (if hasTag data 0xff i = true then descriptorText data i else e.serialNumber) ∧
    (descriptorStep data e i).physicalSize = e.physicalSize := by
  unfold descriptorStep hasTag isDescriptor descriptorText
  by_cases h0 : byteAt data (0x36 + i * 18) = 0
  · by_cases h1 : byteAt data (0x36 + i * 18 + 1) = 0
    · by_cases h2 : byteAt data (0x36 + i * 18 + 2) = 0
      · by_cases hc : byteAt data (0x36 + i * 18 + 3) = 0xfc
        · by_cases hn : e.monitorName = [] <;>
            by_cases ht : (QByteArray.fromRaw data (0x36 + i * 18 + 5) 12).trimmed = [] <;>
            simp [h0, h1, h2, hc, hn, ht]
        · by_cases he : byteAt data (0x36 + i * 18 + 3) = 0xfe
          · by_cases ht : (QByteArray.fromRaw data (0x36 + i * 18 + 5) 12).trimmed = [] <;>
              simp [h0, h1, h2, he, ht]
          · by_cases hf : byteAt data (0x36 + i * 18 + 3) = 0xff
            · simp [h0, h1, h2, hf]
            · simp [h0, h1, h2, hc, he, hf]
      · simp [h0, h1, h2]
    · simp [h0, h1]
  · simp [h0]

theorem foldl_serialNumber (data : List Byte) (l : List Nat) (e : Edid) :
    (l.foldl (descriptorStep data) e).serialNumber =
      (lastText data (hasTag data 0xff) l).getD e.serialNumber := by
  induction l generalizing e with
  | nil => simp [lastText]
  | cons i l ih =>
    rw [List.foldl_cons, ih, (descriptorStep_fields data e i).2.2.1]
    simp only [lastText, List.reverse_cons, List.find?_append]
    cases hl : List.find? (hasTag data 0xff) l.reverse with
    | some j => simp
    | none =>
      by_cases hi : hasTag data 0xff i = true <;> simp [hi]

theorem foldl_eisaId (data : List Byte) (l : List Nat) (e : Edid) :
    (l.foldl (descriptorStep data) e).eisaId =
      (lastText data (fun i => hasTag data 0xfe i && !(descriptorText data i).isEmpty) l).getD
        e.eisaId := by
  induction l generalizing e with
  | nil => simp [lastText]
  | cons i l ih =>
    rw [List.foldl_cons, ih, (descriptorStep_fields data e i).2.1]
    simp only [lastText, List.reverse_cons, List.find?_append]
    cases hl : List.find? (fun i => hasTag data 0xfe i && !(descriptorText data i).isEmpty)
        l.reverse with
    | some j => simp
    | none =>
      by_cases hi : hasTag data 0xfe i = true <;>
        by_cases ht : descriptorText data i = [] <;> simp [hi, ht]

theorem foldl_monitorName_of_ne (data : List Byte) (l : List Nat) (e : Edid)
    (h : e.monitorName ≠ []) :
    (l.foldl (descriptorStep data) e).monitorName = e.monitorName := by
  induction l generalizing e with
  | nil => rfl
  | cons i l ih =>
    have hs : (descriptorStep data e i).monitorName = e.monitorName := by
      rw [(descriptorStep_fields data e i).1]; simp [h]
    rw [List.foldl_cons, ih _ (by rw [hs]; exact h), hs]

theorem foldl_monitorName (data : List Byte) (l : List Nat) (e : Edid)
    (h : e.monitorName = []) :
    (l.foldl (descriptorStep data) e).monitorName =
      (firstText data (fun i => hasTag data 0xfc i && !(descriptorText data i).isEmpty) l).getD
        [] := by
  induction l generalizing e with
  | nil => simp [firstText, h]
  | cons i l ih =>
    have hs := (descriptorStep_fields data e i).1
    rw [List.foldl_cons]
    by_cases hi : hasTag data 0xfc i = true
    · by_cases ht : descriptorText data i = []
      · rw [ih _ (by rw [hs]; simp [hi, h, ht])]
        simp [firstText, List.find?_cons, hi, ht]
      · rw [foldl_monitorName_of_ne _ _ _ (by rw [hs]; simp [hi, h, ht]), hs]
        simp [firstText, List.find?_cons, hi, ht, h]
    · rw [ih _ (by rw [hs]; simp [hi, h])]
      simp [firstText, List.find?_cons, hi]

set_option maxRecDepth 100000 in
/-- Counterexample to C6: in the valid 128-byte EDID `sampleEdid` block 0 is the
first block with tag 0xFF and its text is "A1", block 1 also has tag 0xFF with text
"B2"; the serial number after the scan is "B2", the text of the later block. -/
theorem serialNumber_last_match_wins :
    sampleEdid.length = 128 ∧ verifyEdidHeader sampleEdid = true ∧
    hasTag sampleEdid 0xff 0 = true ∧ descriptorText sampleEdid 0 = [0x41, 0x31] ∧
    hasTag sampleEdid 0xff 1 = true ∧ descriptorText sampleEdid 1 = [0x42, 0x32] ∧
    (extractMonitorDescriptorDescription sampleEdid
        { eisaId := extractEisaId sampleEdid,
          serialNumber := extractSerialNumber sampleEdid }).serialNumber = [0x42, 0x32] ∧
    (initEdid {} (some sampleEdid)).m_edid.serialNumber ≠ descriptorText sampleEdid 0 := by
  refine ⟨by decide, by decide, by decide, by decide, by decide, by decide, by decide, by decide⟩

/-- C6 (amended): when the scan of the five blocks stays inside the blob and the
monitor name is empty beforehand (as in `initEdid`), afterwards the monitor name is
the trimmed text of the first block with tag 0xFC whose trimmed text is not empty
(empty when there is none), the EISA ID is the trimmed text of the last block with
tag 0xFE whose trimmed text is not empty (unchanged when there is none), and the
serial number is the trimmed text of the last block with tag 0xFF (unchanged when
there is none). -/
theorem extractMonitorDescriptorDescription_fields (data : List Byte) (edid : Edid)
    (hscan : scanInBounds data = true) (hname : edid.monitorName = []) :
    (extractMonitorDescriptorDescription data edid).monitorName =
      (firstText data (fun i => hasTag data 0xfc i && !(descriptorText data i).isEmpty)
        (List.range 5)).getD [] ∧
    (extractMonitorDescriptorDescription data edid).eisaId =
      (lastText data (fun i => hasTag data 0xfe i && !(descriptorText data i).isEmpty)
        (List.range 5)).getD edid.eisaId ∧
    (extractMonitorDescriptorDescription data edid).serialNumber =
      (lastText data (hasTag data 0xff) (List.range 5)).getD edid.serialNumber :=
  ⟨foldl_monitorName data (List.range 5) edid hname,
   foldl_eisaId data (List.range 5) edid,
   foldl_serialNumber data (List.range 5) edid⟩

set_option maxRecDepth 100000 in
/-- Witness of the amended C6 on `sampleEdid`: the name is "DELL" (the first name
block is empty), the EISA ID stays "DEL" and the serial number is "B2". -/
theorem extractMonitorDescriptorDescription_fields_witness :
    (extractMonitorDescriptorDescription sampleEdid
        { eisaId := extractEisaId sampleEdid }).monitorName = [0x44, 0x45, 0x4C, 0x4C] ∧
    (extractMonitorDescriptorDescription sampleEdid
        { eisaId := extractEisaId sampleEdid }).eisaId = [0x44, 0x45, 0x4C] ∧
    (extractMonitorDescriptorDescription sampleEdid
        { eisaId := extractEisaId sampleEdid }).serialNumber = [0x42, 0x32] :=
  have h := extractMonitorDescriptorDescription_fields sampleEdid
    { eisaId := extractEisaId sampleEdid } (by decide) rfl
  ⟨h.1.trans (by decide), h.2.1.trans (by decide), h.2.2.trans (by decide)⟩

theorem toUInt64_toInt32 (r : Nat) (h : r < 2 ^ 31) : toUInt64 (toInt32 r) = r := by
  have h1 : r % 2 ^ 32 = r := Nat.mod_eq_of_lt (by omega)
  unfold toUInt64 toInt32
  rw [h1, if_pos h]
  have h2 : ((r : Int) % 2 ^ 64) = (r : Int) := Int.emod_eq_of_lt (by omega) (by omega)
  rw [h2]
  simp

theorem readModes_ids (o : DrmOutput) (ms : List drmModeModeInfo) (i : Nat) :
    (readModes o i ms).map Mode.id = (List.range ms.length).map (fun j => ((i + j : Nat) : Int)) := by
  induction ms generalizing i with
  | nil => rfl
  | cons m rest ih =>
    simp only [readModes, List.map_cons, List.length_cons, List.range_succ_eq_map, ih, makeMode,
      List.map_map]
    refine congrArg₂ _ (by simp) ?_
    apply List.map_congr_left
    intro j _
    simp only [Function.comp]
    congr 1
    omega

theorem synthesizeModes_ids (o : DrmOutput) (dm : Mode) (table : List drmModeModeInfo)
    (k : Int) :
    (synthesizeModes o dm k table).map Mode.id =
      (List.range (synthesizeModes o dm k table).length).map (fun (j : Nat) => k + (j : Int)) := by
  induction table generalizing k with
  | nil => rfl
  | cons e rest ih =>
    unfold synthesizeModes
    split
    · exact ih k
    · simp only [List.map_cons, List.length_cons, List.range_succ_eq_map, ih, makeMode,
        List.map_map]
      refine congrArg₂ _ (by simp) ?_
      apply List.map_congr_left
      intro j _
      simp only [Function.comp, Nat.cast_succ]
      omega

theorem markPreferred_fields (m : Mode) :
    (markPreferred m).id = m.id ∧ (markPreferred m).size = m.size ∧
    (markPreferred m).refreshRate = m.refreshRate ∧
    (markPreferred m).flags.preferred = true := by
  unfold markPreferred
  split
  · exact ⟨rfl, rfl, rfl, rfl⟩
  · next h => exact ⟨rfl, rfl, rfl, by simpa using h⟩

theorem range_cast_nodup (n : Nat) :
    ((List.range n).map (fun (j : Nat) => (j : Int))).Nodup :=
  (List.nodup_range n).map (fun _ _ h => Int.ofNat.inj h)

theorem readModes_get (o : DrmOutput) (ms : List drmModeModeInfo) (i j : Nat) :
    (readModes o i ms)[j]? = (ms[j]?).map (fun m => makeMode o ((i + j : Nat) : Int) m) := by
  induction ms generalizing i j with
  | nil => simp [readModes]
  | cons m rest ih =>
    cases j with
    | zero => simp [readModes]
    | succ j =>
      simp only [readModes, List.getElem?_cons_succ, ih]
      have : i + 1 + j = i + (j + 1) := by omega
      rw [this]

theorem synthesizeModes_get (o : DrmOutput) (dm : Mode) (native : drmModeModeInfo)
    (hw : dm.size.width = native.hdisplay) (hh : dm.size.height = native.vdisplay)
    (hr : toUInt64 dm.refreshRate = storedRefreshRate native)
    (table : List drmModeModeInfo) (k : Int) (j : Nat) :
    (synthesizeModes o dm k table)[j]? =
      ((table.filter (fitsStored native))[j]?).map (fun e => makeMode o (k + (j : Int)) e) := by
  induction table generalizing k j with
  | nil => simp [synthesizeModes]
  | cons e rest ih =>
    unfold synthesizeModes
    by_cases hfit : fitsStored native e = true
    · have hc : ¬ ((e.hdisplay : Int) > dm.size.width ∨ (e.vdisplay : Int) > dm.size.height ∨
          refreshRateForMode e > toUInt64 dm.refreshRate) := by
        simp only [fitsStored, Bool.and_eq_true, decide_eq_true_eq] at hfit
        rw [hw, hh, hr]
        omega
      rw [if_neg hc, List.filter_cons_of_pos hfit]
      cases j with
      | zero => simp
      | succ j =>
        simp only [List.getElem?_cons_succ, ih]
        have : k + 1 + (j : Int) = k + ((j + 1 : Nat) : Int) := by push_cast; ring
        rw [this]
    · have hc : ((e.hdisplay : Int) > dm.size.width ∨ (e.vdisplay : Int) > dm.size.height ∨
          refreshRateForMode e > toUInt64 dm.refreshRate) := by
        simp only [fitsStored, Bool.and_eq_true, decide_eq_true_eq] at hfit
        rw [hw, hh, hr]
        omega
      rw [if_pos hc, List.filter_cons_of_neg hfit, ih]

theorem synthesizeModes_stored (o : DrmOutput) (dm : Mode) (native : drmModeModeInfo)
    (hw : dm.size.width = native.hdisplay) (hh : dm.size.height = native.vdisplay)
    (hr : toUInt64 dm.refreshRate = storedRefreshRate native)
    (table : List drmModeModeInfo) (k : Int) :
    (synthesizeModes o dm k table).map Mode.withoutId =
      (table.filter (fitsStored native)).map (fun e => (makeMode o 0 e)) := by
  induction table generalizing k with
  | nil => rfl
  | cons e rest ih =>
    unfold synthesizeModes
    by_cases hfit : fitsStored native e = true
    · have hc : ¬ ((e.hdisplay : Int) > dm.size.width ∨ (e.vdisplay : Int) > dm.size.height ∨
          refreshRateForMode e > toUInt64 dm.refreshRate) := by
        simp only [fitsStored, Bool.and_eq_true, decide_eq_true_eq] at hfit
        rw [hw, hh, hr]
        omega
      rw [if_neg hc, List.filter_cons_of_pos hfit, List.map_cons, List.map_cons, ih]
      rfl
    · have hc : ((e.hdisplay : Int) > dm.size.width ∨ (e.vdisplay : Int) > dm.size.height ∨
          refreshRateForMode e > toUInt64 dm.refreshRate) := by
        simp only [fitsStored, Bool.and_eq_true, decide_eq_true_eq] at hfit
        rw [hw, hh, hr]
        omega
      rw [if_pos hc, List.filter_cons_of_neg hfit, ih]

theorem fitsStored_eq_fitsNative (native : drmModeModeInfo)
    (hrate : refreshRateForMode native < 2 ^ 31) (e : drmModeModeInfo) :
    fitsStored native e = fitsNative native e := by
  unfold fitsStored fitsNative storedRefreshRate
  rw [toUInt64_toInt32 _ hrate]

theorem tableRead_full (tables : DefaultModes) (native : drmModeModeInfo)
    (hlen : tables.portrait.length = tables.landscape.length) :
    tableRead tables native =
      (if native.hdisplay > native.vdisplay then tables.landscape else tables.portrait) := by
  unfold tableRead
  by_cases hl : native.hdisplay > native.vdisplay
  · simp only [hl, if_true]
    exact List.take_length _
  · simp only [hl, if_false]
    rw [← hlen]
    exact List.take_length _

theorem initOutputDeviceModes_cases (tables : DefaultModes) (connector : drmModeConnector)
    (o : DrmOutput) :
    (∃ native, connector.modes = [native] ∧ o.m_internal = true ∧ o.m_scalingCapable = true ∧
      initOutputDeviceModes tables connector o =
        markPreferred (makeMode o ((0 : Nat) : Int) native) ::
          synthesizeModes o (markPreferred (makeMode o ((0 : Nat) : Int) native)) 1
            (tableRead tables native)) ∨
    ((connector.modes.length ≠ 1 ∨ o.m_scalingCapable = false ∨ o.m_internal = false) ∧
      initOutputDeviceModes tables connector o = readModes o 0 connector.modes) := by
  cases hm : connector.modes with
  | nil =>
    right
    refine ⟨Or.inl (by simp), ?_⟩
    unfold initOutputDeviceModes
    simp [hm, readModes]
  | cons native rest =>
    cases rest with
    | cons b rest2 =>
      right
      refine ⟨Or.inl (by simp), ?_⟩
      unfold initOutputDeviceModes
      simp [hm, readModes]
    | nil =>
      by_cases hc : o.m_internal = true ∧ o.m_scalingCapable = true
      · left
        refine ⟨native, rfl, hc.1, hc.2, ?_⟩
        have hsz : (markPreferred (makeMode o ((0 : Nat) : Int) native)).size
            = ⟨native.hdisplay, native.vdisplay⟩ := (markPreferred_fields _).2.1
        unfold initOutputDeviceModes tableRead
        simp only [hm, readModes, hc.1, hc.2, and_self, if_true]
        rw [hsz]
        by_cases hl : native.hdisplay > native.vdisplay
        · have hl' : ((native.hdisplay : Int) > (native.vdisplay : Int)) := by omega
          simp only [hl', decide_True, if_true, hl]
        · have hl' : ¬ ((native.hdisplay : Int) > (native.vdisplay : Int)) := by omega
          simp only [hl', decide_False, Bool.false_eq_true, if_false, hl]
      · right
        refine ⟨?_, ?_⟩
        · by_cases hi : o.m_internal = true
          · right; left
            cases hs : o.m_scalingCapable with
            | false => rfl
            | true => exact absurd ⟨hi, hs⟩ hc
          · right; right
            simpa using hi
        · unfold initOutputDeviceModes
          simp only [hm, readModes, hc, if_false]

theorem initOutputDeviceModes_positions (tables : DefaultModes) (connector : drmModeConnector)
    (o : DrmOutput) :
    (initOutputDeviceModes tables connector o).map Mode.id =
      (List.range (initOutputDeviceModes tables connector o).length).map
        (fun (j : Nat) => (j : Int)) := by
  have hread : (readModes o 0 connector.modes).map Mode.id =
      (List.range (readModes o 0 connector.modes).length).map (fun (j : Nat) => (j : Int)) := by
    have hl : ∀ (ms : List drmModeModeInfo) (i : Nat), (readModes o i ms).length = ms.length := by
      intro ms
      induction ms with
      | nil => intro i; rfl
      | cons m rest ih => intro i; simp [readModes, ih]
    rw [readModes_ids, hl]
    simp
  rcases initOutputDeviceModes_cases tables connector o with ⟨native, _, _, _, h⟩ | ⟨_, h⟩
  · rw [h]
    simp only [List.map_cons, List.length_cons, List.range_succ_eq_map, synthesizeModes_ids,
      List.map_map]
    refine congrArg₂ _ ?_ ?_
    · rw [(markPreferred_fields _).1]; rfl
    · apply List.map_congr_left
      intro j _
      simp only [Function.comp, Nat.cast_succ]
      omega
  · rw [h]; exact hread

/-- C8: in the mode list built by `initOutputDevice` every mode's id is its position
(the ids are 0, 1, 2, ... in list order and no id occurs twice); the i-th connector
mode is at position i with id i, its own size and its own refresh rate; every entry
behind the connector's modes is a synthesized one, present only for an internal,
scaling-capable output with a single native mode, and the entry at position k is built
from the (k-1)-th table entry that fits and has id k; conversely every fitting table
entry that the loop reads yields such an entry, so the synthesized ids are 1, 2, ...
without a gap. -/
theorem initOutputDeviceModes_ids (tables : DefaultModes) (connector : drmModeConnector)
    (o : DrmOutput) :
    (initOutputDeviceModes tables connector o).map Mode.id =
      (List.range (initOutputDeviceModes tables connector o).length).map
        (fun (j : Nat) => (j : Int)) ∧
    ((initOutputDeviceModes tables connector o).map Mode.id).Nodup ∧
    (∀ (i : Nat) (m0 : drmModeModeInfo), connector.modes[i]? = some m0 →
      ∃ m, (initOutputDeviceModes tables connector o)[i]? = some m ∧ m.id = (i : Int) ∧
        m.size = ⟨m0.hdisplay, m0.vdisplay⟩ ∧
        m.refreshRate = toInt32 (refreshRateForMode m0)) ∧
    (∀ (k : Nat) (m : Mode), connector.modes.length ≤ k →
      (initOutputDeviceModes tables connector o)[k]? = some m →
      ∃ native e, connector.modes = [native] ∧ o.m_internal = true ∧
        o.m_scalingCapable = true ∧
        ((tableRead tables native).filter (fitsStored native))[k - 1]? = some e ∧
        m = makeMode o (k : Int) e) ∧
    (∀ (native e : drmModeModeInfo) (j : Nat), connector.modes = [native] →
      o.m_internal = true → o.m_scalingCapable = true →
      ((tableRead tables native).filter (fitsStored native))[j]? = some e →
      (initOutputDeviceModes tables connector o)[j + 1]? =
        some (makeMode o ((j + 1 : Nat) : Int) e)) := by
  have key := initOutputDeviceModes_positions tables connector o
  have hsyn : ∀ (native : drmModeModeInfo) (j : Nat),
      (synthesizeModes o (markPreferred (makeMode o ((0 : Nat) : Int) native)) 1
        (tableRead tables native))[j]? =
      (((tableRead tables native).filter (fitsStored native))[j]?).map
        (fun e => makeMode o (1 + (j : Int)) e) := fun native j =>
    synthesizeModes_get o _ native
      ((congrArg QSize.width (markPreferred_fields _).2.1).trans rfl)
      ((congrArg QSize.height (markPreferred_fields _).2.1).trans rfl)
      (by rw [(markPreferred_fields _).2.2.1]; rfl) _ 1 j
  refine ⟨key, by rw [key]; exact range_cast_nodup _, ?_, ?_, ?_⟩
  · intro i m0 hi
    rcases initOutputDeviceModes_cases tables connector o with ⟨native, hm, _, _, h⟩ | ⟨_, h⟩
    · rw [hm] at hi
      cases i with
      | zero =>
        simp only [List.getElem?_cons_zero, Option.some.injEq] at hi
        subst hi
        refine ⟨markPreferred (makeMode o ((0 : Nat) : Int) native),
          by rw [h, List.getElem?_cons_zero], ?_, ?_, ?_⟩
        · rw [(markPreferred_fields _).1]; rfl
        · rw [(markPreferred_fields _).2.1]; rfl
        · rw [(markPreferred_fields _).2.2.1]; rfl
      | succ i => simp at hi
    · refine ⟨makeMode o ((0 + i : Nat) : Int) m0, ?_, ?_, rfl, rfl⟩
      · rw [h, readModes_get, hi]; rfl
      · show ((0 + i : Nat) : Int) = (i : Int)
        rw [Nat.zero_add]
  · intro k m hk hget
    rcases initOutputDeviceModes_cases tables connector o with ⟨native, hm, hint, hscal, h⟩ | ⟨_, h⟩
    · rw [hm] at hk
      obtain ⟨j, rfl⟩ : ∃ j, k = j + 1 := ⟨k - 1, by simp at hk; omega⟩
      rw [h, List.getElem?_cons_succ, hsyn] at hget
      cases hf : ((tableRead tables native).filter (fitsStored native))[j]? with
      | none => rw [hf] at hget; simp at hget
      | some e =>
        rw [hf] at hget
        simp only [Option.map_some', Option.some.injEq] at hget
        refine ⟨native, e, hm, hint, hscal, by simpa using hf, ?_⟩
        rw [← hget]
        congr 1
        push_cast
        ring
    · exfalso
      rw [h, readModes_get] at hget
      have hnone : connector.modes[k]? = none := List.getElem?_eq_none hk
      rw [hnone] at hget
      simp at hget
  · intro native e j hm hint hscal hf
    rcases initOutputDeviceModes_cases tables connector o with ⟨native', hm', _, _, h⟩ | ⟨hno, _⟩
    · have hn : native' = native := by
        rw [hm] at hm'
        simpa using hm'.symm
      subst hn
      rw [h, List.getElem?_cons_succ, hsyn, hf]
      simp only [Option.map_some', Option.some.injEq]
      congr 1
      push_cast
      ring
    · exfalso
      rcases hno with h1 | h1 | h1
      · rw [hm] at h1; exact h1 rfl
      · rw [hscal] at h1; exact absurd h1 (by decide)
      · rw [hint] at h1; exact absurd h1 (by decide)

/-- Witness of C8: on the internal 1920x1080 panel with the sample tables the list
has the ids 0 and 1; position 0 holds the connector's mode and position 1 the mode
built from the 1280x720 entry, with id 1. -/
theorem initOutputDeviceModes_ids_witness :
    (initOutputDeviceModes sampleTables (oneModeConnector DRM_MODE_CONNECTOR_eDP)
      (scalingOutput true)).map Mode.id = [0, 1] ∧
    (∃ m, (initOutputDeviceModes sampleTables (oneModeConnector DRM_MODE_CONNECTOR_eDP)
        (scalingOutput true))[0]? = some m ∧ m.id = 0 ∧ m.size = ⟨1920, 1080⟩ ∧
      m.refreshRate = 60000) ∧
    (initOutputDeviceModes sampleTables (oneModeConnector DRM_MODE_CONNECTOR_eDP)
      (scalingOutput true))[1]? = some (makeMode (scalingOutput true) 1 mode720) :=
  have h := initOutputDeviceModes_ids sampleTables (oneModeConnector DRM_MODE_CONNECTOR_eDP)
    (scalingOutput true)
  ⟨h.1.trans (by decide),
    (h.2.2.1 0 mode1080 rfl).elim fun m hm =>
      ⟨m, hm.1, hm.2.1, hm.2.2.1, hm.2.2.2.trans (by decide)⟩,
    h.2.2.2.2 mode1080 mode720 0 rfl rfl rfl (by decide)⟩

/-- C7 (amended): for an internal output (LVDS, eDP or DSI) that is scaling capable
and whose connector reports exactly one native mode, the mode list is the native mode
(id 0, marked preferred, refresh rate stored as `int`) followed by the modes built
from exactly those entries, in table order, among the entries the loop reads (the
first `sz` entries of the landscape table when the native width exceeds the native
height, else of the portrait table, `sz` being the length of the landscape table),
whose `hdisplay`, `vdisplay` and `refreshRateForMode` do not exceed the native width,
the native height and the stored native refresh rate.  With two tables of equal
length and a native refresh rate below 2^31 these are exactly the entries of the
table within the native width, height and `refreshRateForMode`.  When the connector
reports a number of modes other than one, or the output is not scaling capable, or it
is not internal, the list is exactly the connector's modes. -/
theorem initOutputDeviceModes_synthesis (tables : DefaultModes)
    (connector : drmModeConnector) (o : DrmOutput) :
    (∀ native : drmModeModeInfo, connector.modes = [native] →
      o.m_internal = true → o.m_scalingCapable = true →
      ∃ first rest, initOutputDeviceModes tables connector o = first :: rest ∧
        first.id = 0 ∧ first.size = ⟨native.hdisplay, native.vdisplay⟩ ∧
        first.refreshRate = toInt32 (refreshRateForMode native) ∧
        first.flags.preferred = true ∧
        rest.map Mode.withoutId =
          ((tableRead tables native).filter (fitsStored native)).map
            (fun e => makeMode o 0 e) ∧
        (tables.portrait.length = tables.landscape.length →
          refreshRateForMode native < 2 ^ 31 →
          first.refreshRate = refreshRateForMode native ∧
          rest.map Mode.withoutId =
            ((if native.hdisplay > native.vdisplay then tables.landscape
              else tables.portrait).filter (fitsNative native)).map
                (fun e => makeMode o 0 e))) ∧
    ((connector.modes.length ≠ 1 ∨ o.m_scalingCapable = false ∨ o.m_internal = false) →
      initOutputDeviceModes tables connector o = readModes o 0 connector.modes) := by
  refine ⟨?_, ?_⟩
  · intro native hone hint hscal
    rcases initOutputDeviceModes_cases tables connector o with ⟨native', hm', _, _, h⟩ | ⟨hno, _⟩
    · have hn : native' = native := by
        rw [hone] at hm'
        simpa using hm'.symm
      subst hn
      obtain ⟨m1, m2, m3, m4⟩ := markPreferred_fields (makeMode o ((0 : Nat) : Int) native')
      have hrest : (synthesizeModes o (markPreferred (makeMode o ((0 : Nat) : Int) native')) 1
          (tableRead tables native')).map Mode.withoutId =
          ((tableRead tables native').filter (fitsStored native')).map
            (fun e => makeMode o 0 e) :=
        synthesizeModes_stored o _ native' ((congrArg QSize.width m2).trans rfl)
          ((congrArg QSize.height m2).trans rfl) (by rw [m3]; rfl) _ 1
      refine ⟨_, _, h, ?_, m2, m3, m4, hrest, ?_⟩
      · rw [m1]; rfl
      · intro hlen hrate
        refine ⟨?_, ?_⟩
        · rw [m3]
          show toInt32 (refreshRateForMode native') = _
          have h1 : refreshRateForMode native' % 2 ^ 32 = refreshRateForMode native' :=
            Nat.mod_eq_of_lt (by omega)
          unfold toInt32
          rw [h1, if_pos hrate]
        · rw [hrest, tableRead_full tables native' hlen]
          congr 1
          apply List.filter_congr
          intro e _
          exact fitsStored_eq_fitsNative native' hrate e
    · exfalso
      rcases hno with h1 | h1 | h1
      · rw [hone] at h1; exact h1 rfl
      · rw [hscal] at h1; exact absurd h1 (by decide)
      · rw [hint] at h1; exact absurd h1 (by decide)
  · intro hno
    rcases initOutputDeviceModes_cases tables connector o with ⟨native, hm, hint, hscal, _⟩ | ⟨_, h⟩
    · exfalso
      rcases hno with h1 | h1 | h1
      · rw [hm] at h1; exact h1 rfl
      · rw [hscal] at h1; exact absurd h1 (by decide)
      · rw [hint] at h1; exact absurd h1 (by decide)
    · exact h

/-- Witness of the amended C7: on the internal panel (an eDP connector) the list is
the native mode followed by the 1280x720 entry, the only entry of the landscape
table that fits. -/
theorem initOutputDeviceModes_synthesis_witness :
    ∃ first rest,
      initOutputDeviceModes sampleTables (oneModeConnector DRM_MODE_CONNECTOR_eDP)
        (scalingOutput true) = first :: rest ∧
      first.id = 0 ∧ first.refreshRate = 60000 ∧
      rest.map Mode.withoutId = [makeMode (scalingOutput true) 0 mode720] := by
  obtain ⟨first, rest, h1, h2, _, _, _, _, h7⟩ :=
    (initOutputDeviceModes_synthesis sampleTables (oneModeConnector DRM_MODE_CONNECTOR_eDP)
      (scalingOutput true)).1 mode1080 rfl rfl rfl
  exact ⟨first, rest, h1, h2, (h7 rfl (by decide)).1.trans (by decide),
    (h7 rfl (by decide)).2.trans (by decide)⟩

/-- Counterexample to C7.  An HDMI connector with the scaling property reports exactly
one mode, the landscape table has an entry (1280x720 at 60 Hz) within the native
width, height and refresh rate, and yet the mode list holds the native mode alone,
also when it is built by `init` on a new output.  On an internal portrait panel with a
portrait table longer than the landscape table, the fitting portrait entry behind the
loop bound is not synthesized.  On an internal panel whose native refresh rate
(3 000 000 000) does not fit the `int` it is stored in, an entry with a higher refresh
rate (4 000 000 000) is synthesized. -/
theorem no_synthesis_on_external_output :
    (oneModeConnector DRM_MODE_CONNECTOR_HDMIA).modes.length = 1 ∧
    (scalingOutput false).m_scalingCapable = true ∧
    sampleTables.landscape.filter (fitsNative mode1080) = [mode720] ∧
    initOutputDeviceModes sampleTables (oneModeConnector DRM_MODE_CONNECTOR_HDMIA)
        (scalingOutput false)
      = [makeMode (scalingOutput false) 0 mode1080] ∧
    (init {} sampleTables { hasScalingProperty := true } 1 []
        (oneModeConnector DRM_MODE_CONNECTOR_HDMIA) { m_mode := mode1080 }).map
        (fun r => (r.1, r.2.2.m_scalingCapable, r.2.2.deviceModes.map Mode.size))
      = some (true, true, [⟨1920, 1080⟩]) ∧
    unevenTables.portrait.filter (fitsNative mode720portrait) = [mode720portrait] ∧
    (initOutputDeviceModes unevenTables portraitConnector
        { m_internal := true, m_scalingCapable := true, m_mode := mode720portrait }).map
        Mode.size = [⟨720, 1280⟩] ∧
    refreshRateForMode fastNative = 3000000000 ∧
    refreshRateForMode fasterEntry = 4000000000 ∧
    (initOutputDeviceModes { landscape := [fasterEntry], portrait := [fasterEntry] }
        { connector_type := DRM_MODE_CONNECTOR_eDP, modes := [fastNative] }
        { m_internal := true, m_scalingCapable := true, m_mode := fastNative }).map
        (fun m => (m.id, m.size, m.refreshRate))
      = [(0, ⟨1920, 1080⟩, -1294967296), (1, ⟨1280, 720⟩, -294967296)] := by
  refine ⟨rfl, rfl, by decide, by decide, by decide, by decide, by decide, by decide,
    by decide, by decide⟩

theorem showCursor_keeps_record (ok : Bool) (o : DrmOutput) :
    (showCursor ok o).2.m_lastWorkingState = o.m_lastWorkingState ∧
    (showCursor ok o).2.m_modesetRequested = o.m_modesetRequested ∧
    (showCursor ok o).2.m_primaryPlane = o.m_primaryPlane := by
  unfold showCursor showCursorBuffer
  cases o.m_cursor.getD o.m_cursorIndex none with
  | none => simp
  | some handle =>
    cases ok
    · simp [DrmOutput.logCall]
    · by_cases hn : o.m_hasNewCursor = true <;> simp [DrmOutput.logCall, hn]

theorem hideCursor_keeps_record (ok : Bool) (o : DrmOutput) :
    (hideCursor ok o).2.m_lastWorkingState = o.m_lastWorkingState ∧
    (hideCursor ok o).2.m_modesetRequested = o.m_modesetRequested ∧
    (hideCursor ok o).2.m_primaryPlane = o.m_primaryPlane := by
  unfold hideCursor
  split <;> exact ⟨rfl, rfl, rfl⟩

theorem commitFlags_allow (mode : AtomicCommitMode) (pending : DpmsMode) :
    commitFlags mode true pending &&& DRM_MODE_ATOMIC_ALLOW_MODESET ≠ 0 := by
  cases mode <;> cases pending <;> decide

theorem commitSucceeded_record (env : CommitEnv) (mode : AtomicCommitMode) (flags : Nat)
    (o : DrmOutput) :
    (commitSucceeded env mode flags o).m_lastWorkingState = o.m_lastWorkingState ∧
    (commitSucceeded env mode flags o).m_modesetRequested =
      (if mode = AtomicCommitMode.Real ∧ flags &&& DRM_MODE_ATOMIC_ALLOW_MODESET ≠ 0 then false
       else o.m_modesetRequested) ∧
    (commitSucceeded env mode flags o).m_primaryPlane = o.m_primaryPlane := by
  unfold commitSucceeded
  simp only
  split
  · split
    · split
      · simp [(hideCursor_keeps_record _ _).1, (hideCursor_keeps_record _ _).2,
          (showCursor_keeps_record _ _).1, (showCursor_keeps_record _ _).2]
      · simp [(showCursor_keeps_record _ _).1, (showCursor_keeps_record _ _).2]
    · split
      · simp [(hideCursor_keeps_record _ _).1, (hideCursor_keeps_record _ _).2]
      · simp
  · split
    · split
      · simp [(hideCursor_keeps_record _ _).1, (hideCursor_keeps_record _ _).2,
          (showCursor_keeps_record _ _).1, (showCursor_keeps_record _ _).2]
      · simp [(showCursor_keeps_record _ _).1, (showCursor_keeps_record _ _).2]
    · split
      · simp [(hideCursor_keeps_record _ _).1, (hideCursor_keeps_record _ _).2]
      · simp

theorem doAtomicCommitTail_success (env : CommitEnv) (mode : AtomicCommitMode)
    (modeset : Bool) (o o' : DrmOutput)
    (h : doAtomicCommitTail env mode modeset o = some (true, o')) :
    o'.m_lastWorkingState = o.m_lastWorkingState ∧
    o'.m_modesetRequested =
      (if mode = AtomicCommitMode.Real ∧
          commitFlags mode modeset o.m_dpmsModePending &&& DRM_MODE_ATOMIC_ALLOW_MODESET ≠ 0
       then false else o.m_modesetRequested) ∧
    o'.m_primaryPlane = o.m_primaryPlane := by
  simp only [doAtomicCommitTail] at h
  split at h
  · exact absurd h (by simp)
  · split at h
    · exact absurd (commitFailed_frame _ _ _ h).1 (by decide)
    · split at h
      · exact absurd (commitFailed_frame _ _ _ h).1 (by decide)
      · simp only [Option.some.injEq, Prod.mk.injEq, true_and] at h
        rw [← h]
        exact commitSucceeded_record env mode _ _

theorem atomicReqModesetPopulate_record (b : DrmBackend) (env : CommitEnv) (o o' : DrmOutput)
    (enable r : Bool) (h : atomicReqModesetPopulate b env o enable = some (r, o')) :
    o'.m_lastWorkingState = o.m_lastWorkingState ∧
    o'.m_modesetRequested = o.m_modesetRequested ∧
    o'.m_dpmsModePending = o.m_dpmsModePending ∧
    o'.m_primaryPlane.map DrmPlane.transformation
      = o.m_primaryPlane.map DrmPlane.transformation := by
  simp only [atomicReqModesetPopulate] at h
  split at h
  · simp only [Option.some.injEq, Prod.mk.injEq] at h
    rw [← h.2]; exact ⟨rfl, rfl, rfl, rfl⟩
  · split at h
    · exact absurd h (by simp)
    · next p hp =>
      simp only [Option.some.injEq, Prod.mk.injEq] at h
      rw [← h.2]
      cases enable <;> by_cases hd : b.deleteBufferAfterPageFlip = true <;>
        simp [hd, hp, DrmPlane.setCurrent, DrmPlane.setNext]

theorem doAtomicCommit_success (b : DrmBackend) (env : CommitEnv) (mode : AtomicCommitMode)
    (o o' : DrmOutput) (h : doAtomicCommit b env mode o = some (true, o')) :
    o'.m_lastWorkingState = o.m_lastWorkingState ∧
    o'.m_modesetRequested =
      (if mode = AtomicCommitMode.Real then false else o.m_modesetRequested) ∧
    o'.m_primaryPlane.map DrmPlane.transformation
      = o.m_primaryPlane.map DrmPlane.transformation := by
  simp only [doAtomicCommit] at h
  split at h
  · exact absurd (commitFailed_frame _ _ _ h).1 (by decide)
  · split at h
    · next hreq =>
      split at h
      · exact absurd (commitFailed_frame _ _ _ h).1 (by decide)
      · split at h
        · exact absurd h (by simp)
        · exact absurd (commitFailed_frame _ _ _ h).1 (by decide)
        · next o1 hp =>
          obtain ⟨p1, p2, p3, p4⟩ := atomicReqModesetPopulate_record _ _ _ _ _ _ hp
          obtain ⟨t1, t2, t3⟩ := doAtomicCommitTail_success _ _ _ _ _ h
          have hreq1 : o1.m_modesetRequested = true := by
            rw [p2]; split <;> exact hreq
          have hl : o1.m_lastWorkingState = o.m_lastWorkingState := by
            rw [p1]; split <;> rfl
          have hpl : o1.m_primaryPlane.map DrmPlane.transformation
              = o.m_primaryPlane.map DrmPlane.transformation := by
            rw [p4]; split <;> rfl
          refine ⟨t1.trans hl, ?_, by rw [t3, hpl]⟩
          rw [t2]
          cases mode
          · simp [hreq1, hreq]
          · simp [commitFlags_allow]
    · next hreq =>
      obtain ⟨t1, t2, t3⟩ := doAtomicCommitTail_success _ _ _ _ _ h
      refine ⟨t1, ?_, by rw [t3]⟩
      rw [t2]
      have hf : o.m_modesetRequested = false := by simpa using hreq
      cases mode <;> simp [hf]

/-- C11: when the TEST and the REAL commit of `presentAtomically` both succeed, it
returns true with a flip pending and no mode-set pending; if a mode-set was
requested on entry, the last working state afterwards is valid and holds the
output's current mode, orientation, global position and primary-plane
transformation; if none was requested, the last working state is unchanged. -/
theorem presentAtomically_success (b : DrmBackend) (env : AtomicEnv) (o o1 o2 : DrmOutput)
    (p : DrmPlane) (buffer : Nat)
    (hv : o.m_isVirtual = false) (hs : env.sessionActive = true)
    (hp : o.m_pageFlipPending = false) (hplane : o.m_primaryPlane = some p)
    (htest : doAtomicCommit b env.test AtomicCommitMode.Test (queuePrimaryPlane o p buffer)
      = some (true, o1))
    (hreal : doAtomicCommit b env.real AtomicCommitMode.Real o1 = some (true, o2)) :
    ∃ o', presentAtomically b env o buffer = some (true, o') ∧
      o'.m_pageFlipPending = true ∧ o'.m_modesetRequested = false ∧
      (o.m_modesetRequested = true →
        o'.m_lastWorkingState.valid = true ∧
        o'.m_lastWorkingState.mode = o'.m_mode ∧
        o'.m_lastWorkingState.orientation = o'.m_orientation ∧
        o'.m_lastWorkingState.globalPos = globalPos o' ∧
        o'.m_primaryPlane.map DrmPlane.transformation
          = some o'.m_lastWorkingState.planeTransformations) ∧
      (o.m_modesetRequested = false → o'.m_lastWorkingState = o.m_lastWorkingState) := by
  obtain ⟨a1, a2, a3⟩ := doAtomicCommit_success _ _ _ _ _ htest
  obtain ⟨b1, b2, b3⟩ := doAtomicCommit_success _ _ _ _ _ hreal
  have hw : o1.m_modesetRequested = o.m_modesetRequested := by
    rw [a2]; rfl
  have hpl2 : ∃ p2, o2.m_primaryPlane = some p2 := by
    have : o2.m_primaryPlane.map DrmPlane.transformation = some p.transformation := by
      rw [b3, a3]; rfl
    cases h2 : o2.m_primaryPlane with
    | none => rw [h2] at this; exact absurd this (by simp)
    | some p2 => exact ⟨p2, rfl⟩
  obtain ⟨p2, hp2⟩ := hpl2
  refine ⟨recordWorkingState o1.m_modesetRequested o2, ?_, ?_⟩
  · simp only [presentAtomically, hv, hs, hp, hplane, htest, hreal,
      Bool.false_eq_true, if_false, not_true_eq_false]
  · rw [hw]
    by_cases hreq : o.m_modesetRequested = true
    · simp [recordWorkingState, b2, hp2, globalPos, hreq]
    · have hreq' : o.m_modesetRequested = false := by simpa using hreq
      simp [recordWorkingState, b2, hreq', b1, a1, queuePrimaryPlane]

/-- Witness of C11: both commits succeed on the reconfigured output, whose request
for 1280x720 at (0, 0) then becomes the last working state. -/
theorem presentAtomically_success_witness :
    ∃ o', presentAtomically { atomicModeSetting := true } {} (reconfiguredOutput true) 5
        = some (true, o') ∧
      o'.m_pageFlipPending = true ∧ o'.m_modesetRequested = false ∧
      o'.m_lastWorkingState.valid = true ∧
      o'.m_lastWorkingState.mode = mode720 ∧
      o'.m_lastWorkingState.globalPos = ⟨0, 0⟩ := by
  obtain ⟨o', h1, h2, h3, h4, _⟩ :=
    presentAtomically_success { atomicModeSetting := true } {} (reconfiguredOutput true)
      { queuePrimaryPlane (reconfiguredOutput true) { id := 31, transformation := 2 } 5 with
        m_blobId := 1,
        hwCalls := [HwCall.createPropertyBlob, HwCall.atomicCommit 1280] }
      { queuePrimaryPlane (reconfiguredOutput true) { id := 31, transformation := 2 } 5 with
        m_blobId := 1,
        m_modesetRequested := false,
        hwCalls := [HwCall.createPropertyBlob, HwCall.atomicCommit 1280,
          HwCall.createPropertyBlob, HwCall.atomicCommit 1025] }
      { id := 31, transformation := 2 } 5 rfl rfl rfl rfl rfl rfl
  have h5 := h4 rfl
  have hm : o'.m_mode = mode720 ∧ o'.globalPosition = ⟨0, 0⟩ := by
    have hv : some (true, o') = some (true, recordWorkingState true
        { queuePrimaryPlane (reconfiguredOutput true) { id := 31, transformation := 2 } 5 with
          m_blobId := 1,
          m_modesetRequested := false,
          hwCalls := [HwCall.createPropertyBlob, HwCall.atomicCommit 1280,
            HwCall.createPropertyBlob, HwCall.atomicCommit 1025] }) := h1.symm.trans rfl
    simp only [Option.some.injEq, Prod.mk.injEq, true_and] at hv
    rw [hv]
    exact ⟨rfl, rfl⟩
  exact ⟨o', h1, h2, h3, h5.1, h5.2.1.trans hm.1, h5.2.2.2.1.trans hm.2⟩

theorem Calls.same (o : DrmOutput) : Calls 0 o o := ⟨[], by simp, by simp [dpmsRequests]⟩

theorem Calls.of_hwCalls_eq {o o' : DrmOutput} (h : o'.hwCalls = o.hwCalls) : Calls 0 o o' :=
  ⟨[], by simp [h], by simp [dpmsRequests]⟩

theorem Calls.comp {j k : Nat} {a b c : DrmOutput} (h1 : Calls j a b) (h2 : Calls k b c) :
    Calls (j + k) a c := by
  obtain ⟨e1, he1, hc1⟩ := h1
  obtain ⟨e2, he2, hc2⟩ := h2
  refine ⟨e1 ++ e2, by rw [he2, he1, List.append_assoc], ?_⟩
  simp only [dpmsRequests, List.countP_append] at *
  omega

theorem Calls.mono {j k : Nat} {a b : DrmOutput} (h : Calls j a b) (hjk : j ≤ k) :
    Calls k a b := by
  obtain ⟨e, he, hc⟩ := h
  exact ⟨e, he, Nat.le_trans hc hjk⟩

theorem logCall_calls (o : DrmOutput) (c : HwCall) :
    Calls (if isDpmsRequest c then 1 else 0) o (o.logCall c) := by
  refine ⟨[c], rfl, ?_⟩
  by_cases h : isDpmsRequest c = true <;> simp [dpmsRequests, h]

theorem errorHandler_calls (o o' : DrmOutput) (h : errorHandler o = some o') :
    Calls 0 o o' := by
  unfold errorHandler at h
  simp only [dpmsOffHandler] at h
  split at h
  · simp only [Option.some.injEq] at h
    subst h
    apply Calls.of_hwCalls_eq
    split_ifs <;> rfl
  · exact absurd h (by simp)
  · simp only [Option.some.injEq] at h
    subst h
    apply Calls.of_hwCalls_eq
    split_ifs <;> rfl

theorem commitFailed_calls (o o' : DrmOutput) (r : Bool) (h : commitFailed o = some (r, o')) :
    Calls 0 o o' := by
  unfold commitFailed at h
  cases he : errorHandler o with
  | none => simp [he] at h
  | some o1 =>
    simp only [he, Option.map_some', Option.some.injEq, Prod.mk.injEq] at h
    rw [← h.2]
    exact errorHandler_calls o o1 he

theorem showCursor_calls (ok : Bool) (o : DrmOutput) : Calls 0 o (showCursor ok o).2 := by
  have h : (showCursor ok o).2.hwCalls = o.hwCalls ∨
      ∃ c, (showCursor ok o).2.hwCalls = o.hwCalls ++ [HwCall.setCursor c] := by
    unfold showCursor showCursorBuffer
    cases o.m_cursor.getD o.m_cursorIndex none with
    | none => left; simp
    | some handle =>
      right
      refine ⟨some handle, ?_⟩
      cases ok
      · simp [DrmOutput.logCall]
      · by_cases hn : o.m_hasNewCursor = true <;> simp [DrmOutput.logCall, hn]
  rcases h with h | ⟨c, h⟩
  · exact Calls.of_hwCalls_eq h
  · exact ⟨[HwCall.setCursor c], h, by simp [dpmsRequests, isDpmsRequest]⟩

theorem hideCursor_calls (ok : Bool) (o : DrmOutput) : Calls 0 o (hideCursor ok o).2 := by
  unfold hideCursor
  split
  · exact Calls.same o
  · exact logCall_calls o _

theorem commitSucceeded_calls (env : CommitEnv) (mode : AtomicCommitMode) (flags : Nat)
    (o : DrmOutput) : Calls 0 o (commitSucceeded env mode flags o) := by
  have step1 : ∀ x : DrmOutput, Calls 0 x
      (if mode = AtomicCommitMode.Real ∧ flags &&& DRM_MODE_ATOMIC_ALLOW_MODESET ≠ 0 then
        ({ x with m_modesetRequested := false, m_dpmsMode := x.m_dpmsModePending,
                  wlDpmsMode := x.m_dpmsModePending } : DrmOutput)
       else x) := by
    intro x; split
    · exact Calls.of_hwCalls_eq rfl
    · exact Calls.same x
  have step2 : ∀ x : DrmOutput, Calls 0 x
      (if x.needShowCursor then
        ({ (showCursor env.showCursorOk x).2 with needShowCursor := false } : DrmOutput)
       else x) := by
    intro x; split
    · exact (showCursor_calls _ x).comp (Calls.of_hwCalls_eq rfl)
    · exact Calls.same x
  have step3 : ∀ x : DrmOutput, Calls 0 x
      (if x.needHideCursor then
        ({ (hideCursor env.hideCursorOk x).2 with needHideCursor := false } : DrmOutput)
       else x) := by
    intro x; split
    · exact (hideCursor_calls _ x).comp (Calls.of_hwCalls_eq rfl)
    · exact Calls.same x
  unfold commitSucceeded
  exact ((step1 o).comp (step2 _)).comp (step3 _)

theorem commitFlags_test (modeset : Bool) (pending : DpmsMode) :
    isDpmsRequest (HwCall.atomicCommit (commitFlags AtomicCommitMode.Test modeset pending))
      = false := by
  cases modeset <;> cases pending <;> decide

theorem doAtomicCommitTail_calls (env : CommitEnv) (mode : AtomicCommitMode) (modeset : Bool)
    (o o' : DrmOutput) (r : Bool) (h : doAtomicCommitTail env mode modeset o = some (r, o')) :
    Calls (if mode = AtomicCommitMode.Real then 1 else 0) o o' := by
  have hlog : Calls (if mode = AtomicCommitMode.Real then 1 else 0) o
      (o.logCall (HwCall.atomicCommit (commitFlags mode modeset o.m_dpmsModePending))) := by
    cases mode
    · have := logCall_calls o
        (HwCall.atomicCommit (commitFlags AtomicCommitMode.Test modeset o.m_dpmsModePending))
      rw [commitFlags_test] at this
      simpa using this
    · exact (logCall_calls o _).mono (by split <;> simp)
  simp only [doAtomicCommitTail] at h
  split at h
  · exact absurd h (by simp)
  · split at h
    · exact (commitFailed_calls _ _ _ h).mono (Nat.zero_le _)
    · split at h
      · exact hlog.comp (commitFailed_calls _ _ _ h)
      · simp only [Option.some.injEq, Prod.mk.injEq] at h
        rw [← h.2]
        exact hlog.comp (commitSucceeded_calls _ _ _ _)

theorem atomicReqModesetPopulate_calls (b : DrmBackend) (env : CommitEnv) (o o' : DrmOutput)
    (enable r : Bool) (h : atomicReqModesetPopulate b env o enable = some (r, o')) :
    Calls 0 o o' := by
  simp only [atomicReqModesetPopulate] at h
  split at h
  · simp only [Option.some.injEq, Prod.mk.injEq] at h
    rw [← h.2]; exact Calls.same o
  · split at h
    · exact absurd h (by simp)
    · simp only [Option.some.injEq, Prod.mk.injEq] at h
      rw [← h.2]
      apply Calls.of_hwCalls_eq
      cases enable <;> by_cases hd : b.deleteBufferAfterPageFlip = true <;> simp [hd]

theorem dpmsOnHandler_keeps (b : DrmBackend) (env : DpmsEnv) (o : DrmOutput) :
    (dpmsOnHandler b env o).hwCalls = o.hwCalls ∧
    (dpmsOnHandler b env o).m_dpmsModePending = o.m_dpmsModePending ∧
    (dpmsOnHandler b env o).m_dpmsMode = o.m_dpmsMode ∧
    (dpmsOnHandler b env o).m_hasDpms = o.m_hasDpms := by
  unfold dpmsOnHandler
  by_cases h1 : b.usesSoftwareCursor = true <;> by_cases h2 : b.atomicModeSetting = true <;>
    simp [h1, h2]

theorem updateDpms_same (b : DrmBackend) (env : DpmsEnv) (o : DrmOutput) (m : DpmsMode)
    (h : m = o.m_dpmsModePending ∨ o.m_hasDpms = false) : updateDpms b env o m = some o := by
  unfold updateDpms
  rcases h with h | h
  · by_cases hd : o.m_hasDpms = true <;> simp [hd, h]
  · simp [h]

/-- C12: when the requested mode equals the pending DPMS state, or the connector has
no DPMS property, `updateDpms` returns with the output state exactly as it was: no
field changes and no kernel call is recorded. -/
theorem updateDpms_noop (b : DrmBackend) (env : DpmsEnv) (o : DrmOutput) (m : DpmsMode)
    (h : m = o.m_dpmsModePending ∨ o.m_hasDpms = false) :
    updateDpms b env o m = some o ∧
    ∀ o', updateDpms b env o m = some o' → o'.hwCalls = o.hwCalls := by
  have hs := updateDpms_same b env o m h
  refine ⟨hs, fun o' ho' => ?_⟩
  rw [hs] at ho'
  simp only [Option.some.injEq] at ho'
  rw [← ho']

/-- Witness of C12: Off is requested while Off is already pending. -/
theorem updateDpms_noop_witness :
    updateDpms {} {} { m_hasDpms := true, m_dpmsModePending := DpmsMode.Off } DpmsMode.Off
      = some { m_hasDpms := true, m_dpmsModePending := DpmsMode.Off } :=
  (updateDpms_noop {} {} { m_hasDpms := true, m_dpmsModePending := DpmsMode.Off } DpmsMode.Off
    (Or.inl rfl)).1

/-- C14: on an output whose connector has the DPMS property, `dpmsLegacyApply`
returns false when the property write fails, with the pending DPMS state set back to
the active one and the active one unchanged; it returns true when the write
succeeds, with the active DPMS state equal to the pending one, which is unchanged. -/
theorem dpmsLegacyApply_spec (b : DrmBackend) (env : DpmsEnv) (o : DrmOutput)
    (hdpms : o.m_hasDpms = true) :
    (env.setPropertyOk = false →
      ∃ o', dpmsLegacyApply b env o = some (false, o') ∧
        o'.m_dpmsModePending = o.m_dpmsMode ∧ o'.m_dpmsMode = o.m_dpmsMode) ∧
    (env.setPropertyOk = true →
      ∃ o', dpmsLegacyApply b env o = some (true, o') ∧
        o'.m_dpmsMode = o.m_dpmsModePending ∧
        o'.m_dpmsModePending = o.m_dpmsModePending) := by
  refine ⟨fun hf => ?_, fun ht => ?_⟩
  · refine ⟨{ o.logCall (HwCall.connectorSetProperty o.m_dpmsModePending.toNat) with
        m_dpmsModePending := o.m_dpmsMode }, ?_, rfl, rfl⟩
    simp [dpmsLegacyApply, hdpms, hf, DrmOutput.logCall]
  · refine ⟨{ dpmsOnHandler b env
        (o.logCall (HwCall.connectorSetProperty o.m_dpmsModePending.toNat)) with
        m_dpmsMode := (dpmsOnHandler b env
          (o.logCall (HwCall.connectorSetProperty o.m_dpmsModePending.toNat))).m_dpmsModePending },
      ?_, ?_, ?_⟩
    · simp [dpmsLegacyApply, hdpms, ht]
    · exact (dpmsOnHandler_keeps b env _).2.1
    · exact (dpmsOnHandler_keeps b env _).2.1

/-- Witness of C14: Off is pending while On is active; a failed write gives back On
as pending, a successful one makes Off active. -/
theorem dpmsLegacyApply_spec_witness :
    (∃ o', dpmsLegacyApply {} { setPropertyOk := false }
        { m_hasDpms := true, m_dpmsModePending := DpmsMode.Off } = some (false, o') ∧
      o'.m_dpmsModePending = DpmsMode.On ∧ o'.m_dpmsMode = DpmsMode.On) ∧
    (∃ o', dpmsLegacyApply {} {}
        { m_hasDpms := true, m_dpmsModePending := DpmsMode.Off } = some (true, o') ∧
      o'.m_dpmsMode = DpmsMode.Off ∧ o'.m_dpmsModePending = DpmsMode.Off) :=
  ⟨(dpmsLegacyApply_spec {} { setPropertyOk := false }
      { m_hasDpms := true, m_dpmsModePending := DpmsMode.Off } rfl).1 rfl,
   (dpmsLegacyApply_spec {} {}
      { m_hasDpms := true, m_dpmsModePending := DpmsMode.Off } rfl).2 rfl⟩

theorem showCursor_index (ok : Bool) (o : DrmOutput) :
    ((showCursor ok o).1 = true ↔ (ok = true ∧ (o.m_cursor.getD o.m_cursorIndex none).isSome = true)) ∧
    (showCursor ok o).2.m_cursor = o.m_cursor ∧
    ((showCursor ok o).1 = true → o.m_hasNewCursor = true →
      (showCursor ok o).2.m_cursorIndex = (o.m_cursorIndex + 1) % 2 ∧
      (showCursor ok o).2.m_hasNewCursor = false) ∧
    (((showCursor ok o).1 = false ∨ o.m_hasNewCursor = false) →
      (showCursor ok o).2.m_cursorIndex = o.m_cursorIndex ∧
      (showCursor ok o).2.m_hasNewCursor = o.m_hasNewCursor) := by
  unfold showCursor showCursorBuffer
  cases o.m_cursor.getD o.m_cursorIndex none with
  | none => simp
  | some c =>
    cases ok <;> cases hn : o.m_hasNewCursor <;> simp [DrmOutput.logCall, hn]

theorem updateCursor_index (n : Bool) (o o' : DrmOutput) (h : updateCursor n o = some o') :
    o'.m_cursorIndex = o.m_cursorIndex ∧ o'.m_cursor = o.m_cursor ∧
    (n = false → o'.m_hasNewCursor = true) := by
  unfold updateCursor at h
  cases n with
  | true =>
    simp only [if_true, Option.some.injEq] at h
    subst h
    simp
  | false =>
    simp only [Bool.false_eq_true, if_false] at h
    split at h
    · exact absurd h (by simp)
    · simp only [Option.some.injEq] at h
      subst h
      simp

theorem alternatingRun_index (k : Nat) : ∀ t : CursorTrace,
    t.output.m_cursorIndex < 2 →
    (t.output.m_cursor.getD 0 none).isSome = true →
    (t.output.m_cursor.getD 1 none).isSome = true →
    ∃ t', t.run (alternatingRun k) = some t' ∧
      t'.output.m_cursorIndex = (t.output.m_cursorIndex + k) % 2 := by
  induction k with
  | zero =>
    intro t hi _ _
    exact ⟨t, rfl, by simp only [Nat.add_zero]; omega⟩
  | succ k ih =>
    intro t hi h0 h1
    have hbuf : (t.output.m_cursor.getD t.output.m_cursorIndex none).isSome = true := by
      have hcases : t.output.m_cursorIndex = 0 ∨ t.output.m_cursorIndex = 1 := by omega
      rcases hcases with h | h <;> rw [h] <;> assumption
    obtain ⟨o1, ho1⟩ := updateCursor_isSome false t.output (Or.inr hbuf)
    have u := updateCursor_index false _ _ ho1
    have s := showCursor_index true o1
    have hbuf1 : (o1.m_cursor.getD o1.m_cursorIndex none).isSome = true := by
      rw [u.1, u.2.1]
      exact hbuf
    have hs1 : (showCursor true o1).1 = true := s.1.2 ⟨rfl, hbuf1⟩
    have hs2 := s.2.2.1 hs1 (u.2.2 rfl)
    have hcur : (showCursor true o1).2.m_cursor = t.output.m_cursor := s.2.1.trans u.2.1
    have hnext := ih { output := (showCursor true o1).2, shown := some o1.m_cursorIndex }
      (by rw [hs2.1]; exact Nat.mod_lt _ (by decide))
      (by rw [hcur]; exact h0) (by rw [hcur]; exact h1)
    refine hnext.elim fun t' ht' => ⟨t', ?_, ?_⟩
    · simp only [alternatingRun, CursorTrace.run, CursorTrace.step, ho1, Option.map_some',
        Option.some_bind, hs1, if_true]
      exact ht'.1
    · rw [ht'.2, hs2.1, u.1]
      omega

/-- C15: on an output whose cursor index is inside the two-element buffer array,
`showCursor()` whose kernel call succeeds while `m_hasNewCursor` is set returns true,
makes the index `1 - index` and clears the flag; when it returns false, or the flag
is not set, the index is unchanged.  Hence, starting at index 0 with both buffers
allocated, after `k` rounds of a content change followed by a successful
`showCursor()` the index is `k % 2`, which is 0 or 1. -/
theorem showCursor_alternates (ok : Bool) (o : DrmOutput) (hidx : o.m_cursorIndex < 2) :
    (ok = true → (o.m_cursor.getD o.m_cursorIndex none).isSome = true →
      o.m_hasNewCursor = true →
      (showCursor ok o).1 = true ∧
      (showCursor ok o).2.m_cursorIndex = 1 - o.m_cursorIndex ∧
      (showCursor ok o).2.m_hasNewCursor = false) ∧
    (((showCursor ok o).1 = false ∨ o.m_hasNewCursor = false) →
      (showCursor ok o).2.m_cursorIndex = o.m_cursorIndex) ∧
    (o.m_cursorIndex = 0 → (o.m_cursor.getD 0 none).isSome = true →
      (o.m_cursor.getD 1 none).isSome = true →
      ∀ k, ∃ t, CursorTrace.run { output := o } (alternatingRun k) = some t ∧
        t.output.m_cursorIndex = k % 2 ∧ t.output.m_cursorIndex < 2) := by
  have s := showCursor_index ok o
  refine ⟨fun hok hbuf hnew => ?_, fun h => (s.2.2.2 h).1, fun h0 hb0 hb1 k => ?_⟩
  · have hs1 : (showCursor ok o).1 = true := s.1.2 ⟨hok, hbuf⟩
    have hs2 := s.2.2.1 hs1 hnew
    refine ⟨hs1, ?_, hs2.2⟩
    rw [hs2.1]
    have hcases : o.m_cursorIndex = 0 ∨ o.m_cursorIndex = 1 := by omega
    rcases hcases with h | h <;> rw [h]
  · have hrun := alternatingRun_index k { output := o } hidx hb0 hb1
    refine hrun.elim fun t ht => ⟨t, ht.1, ?_, ?_⟩
    · rw [ht.2]
      show (o.m_cursorIndex + k) % 2 = k % 2
      rw [h0, Nat.zero_add]
    · rw [ht.2]
      exact Nat.mod_lt _ (by decide)

/-- Witness of C15: from the state after `initCursor` with new content, one
successful `showCursor()` moves the index from 0 to 1, and three rounds end at
index 1. -/
theorem showCursor_alternates_witness :
    ((showCursor true { initialCursor with m_hasNewCursor := true }).1 = true ∧
      (showCursor true { initialCursor with m_hasNewCursor := true }).2.m_cursorIndex = 1 - 0 ∧
      (showCursor true { initialCursor with m_hasNewCursor := true }).2.m_hasNewCursor = false) ∧
    (∃ t, CursorTrace.run { output := { initialCursor with m_hasNewCursor := true } }
        (alternatingRun 3) = some t ∧
      t.output.m_cursorIndex = 3 % 2 ∧ t.output.m_cursorIndex < 2) :=
  ⟨(showCursor_alternates true { initialCursor with m_hasNewCursor := true }
      (by decide)).1 rfl rfl rfl,
   (showCursor_alternates true { initialCursor with m_hasNewCursor := true }
      (by decide)).2.2 rfl rfl rfl 3⟩

theorem step_keeps_target (t t' : CursorTrace) (c : CursorCall)
    (hidx : t.output.m_cursorIndex < 2) (hinv : t.shown ≠ some t.renderTarget)
    (hnew : ∀ ok, c = CursorCall.showCursor ok → (showCursor ok t.output).1 = true →
      t.output.m_hasNewCursor = true)
    (hstep : t.step c = some t') :
    t'.output.m_cursorIndex < 2 ∧ t'.shown ≠ some t'.renderTarget := by
  cases c with
  | showCursor ok =>
    have s := showCursor_index ok t.output
    simp only [CursorTrace.step, Option.some.injEq] at hstep
    subst hstep
    cases hr : (showCursor ok t.output).1 with
    | false =>
      have h2 := (s.2.2.2 (Or.inl hr)).1
      simp only [CursorTrace.renderTarget, Bool.false_eq_true, if_false, h2]
      exact ⟨hidx, hinv⟩
    | true =>
      have h2 := (s.2.2.1 hr (hnew ok rfl hr)).1
      simp only [CursorTrace.renderTarget, if_true, h2, ne_eq, Option.some.injEq]
      exact ⟨Nat.mod_lt _ (by decide), by omega⟩
  | updateCursor n =>
    simp only [CursorTrace.step, Option.map_eq_some'] at hstep
    refine hstep.elim fun o1 h1 => ?_
    have u := updateCursor_index n _ _ h1.1
    rw [← h1.2]
    simp only [CursorTrace.renderTarget, u.1]
    exact ⟨hidx, hinv⟩

/-- C16, amended: along every run of `updateCursor()` and `showCursor()` calls in
which each `showCursor()` that succeeds finds `m_hasNewCursor` set, starting where
the cursor index is 0 or 1 and the buffer `updateCursor()` paints into is not the
one most recently shown, that stays so: after the run the buffer `updateCursor()`
paints into is not the buffer most recently shown by a successful `showCursor()`. -/
theorem updateCursor_target_not_shown (calls : List CursorCall) :
    ∀ t t' : CursorTrace, t.output.m_cursorIndex < 2 → t.shown ≠ some t.renderTarget →
      t.showsChangedContent calls = true → t.run calls = some t' →
      t'.output.m_cursorIndex < 2 ∧ t'.shown ≠ some t'.renderTarget := by
  induction calls with
  | nil =>
    intro t t' hidx hinv _ hrun
    simp only [CursorTrace.run, Option.some.injEq] at hrun
    subst hrun
    exact ⟨hidx, hinv⟩
  | cons c cs ih =>
    intro t t' hidx hinv hnew hrun
    simp only [CursorTrace.run, Option.bind_eq_some] at hrun
    refine hrun.elim fun t1 h1 => ?_
    simp only [CursorTrace.showsChangedContent, h1.1, Bool.and_eq_true] at hnew
    have hs := step_keeps_target t t1 c hidx hinv
      (fun ok hc hr => by
        have h := hnew.1
        subst hc
        simpa [hr] using h) h1.1
    exact ih t1 t' hs.1 hs.2 hnew.2 h1.2

/-- Witness of the amended C16: from the state after `initCursor`, a run with
content changes, a failing and two successful `showCursor()` calls. -/
theorem updateCursor_target_not_shown_witness :
    ∃ t, CursorTrace.run { output := initialCursor } sampleCursorRun = some t ∧
      t.output.m_cursorIndex < 2 ∧ t.shown ≠ some t.renderTarget :=
  ⟨{ output := { initialCursor with
        hwCalls := [HwCall.setCursor (some 1), HwCall.setCursor (some 1),
          HwCall.setCursor (some 2)] },
     shown := some 1 }, rfl,
   updateCursor_target_not_shown sampleCursorRun { output := initialCursor } _
    (by decide) (by decide) (by decide) rfl⟩

/-- Counterexample to C16: from the state after `initCursor`, one `showCursor()`
that succeeds without new content shows buffer 0 and leaves the index at 0, so the
next `updateCursor()` paints into the buffer on screen; and after a content change
and two successful `showCursor()` calls buffer 1 is shown and is the one painted
into next. -/
theorem updateCursor_paints_shown_buffer :
    (CursorTrace.run { output := initialCursor } [CursorCall.showCursor true]).map
      (fun t => (t.shown, t.renderTarget)) = some (some 0, 0) ∧
    (CursorTrace.run { output := initialCursor }
      [CursorCall.updateCursor false, CursorCall.showCursor true,
       CursorCall.showCursor true]).map
      (fun t => (t.shown, t.renderTarget)) = some (some 1, 1) := by
  refine ⟨by decide, by decide⟩

/-- C19: on a disabled output `setGlobalPos`, `setScale` and
`setWaylandMode(size, rate)` return the state they were given: the stored position
and scale, the client-visible scale, the published mode and the published logical
size and position are unchanged. -/
theorem disabled_setters_noop (o : DrmOutput) (pos : QPoint) (s : ℚ) (size : QSize)
    (rate : Int) (h : o.enabled = false) :
    setGlobalPos o pos = o ∧ setScale o s = o ∧
    AbstractOutput.setWaylandMode o size rate = o := by
  simp [setGlobalPos, setScale, AbstractOutput.setWaylandMode, h]

/-- Witness of C19: a disabled output at (100, 0) is asked for position (0, 0),
scale 2 and the mode 1280x720 at 60 Hz. -/
theorem disabled_setters_noop_witness :
    setGlobalPos disabledOutput ⟨0, 0⟩ = disabledOutput ∧
    setScale disabledOutput 2 = disabledOutput ∧
    AbstractOutput.setWaylandMode disabledOutput ⟨1280, 720⟩ 60000 = disabledOutput :=
  disabled_setters_noop disabledOutput ⟨0, 0⟩ 2 ⟨1280, 720⟩ 60000 rfl

/-- C24: in `presentLegacy` with an active session, active DPMS state On and no next
buffer, `drmModeSetCrtc` is called exactly when the CRTC has no current buffer, or
the current buffer needs a mode change, or a mode-set is flagged pending.  When that
mode-set fails no page flip is requested, false is returned and the flag and the
CRTC's next buffer are as before; when it succeeds the flag is cleared.  The result
is true exactly when the page flip is requested and succeeds, and exactly then the
buffer is the CRTC's next buffer. -/
theorem presentLegacy_modeset (env : LegacyEnv) (o : DrmOutput) (buffer : Nat)
    (hs : env.sessionActive = true) (hd : o.m_dpmsMode = DpmsMode.On)
    (hn : o.m_crtc.next = none) :
    (HwCall.setCrtc buffer ∈ (presentLegacy env o buffer).2.hwCalls.drop o.hwCalls.length ↔
      (o.m_crtc.current = none ∨ env.needsModeChange = true ∨ o.m_modesetRequested = true)) ∧
    ((o.m_crtc.current = none ∨ env.needsModeChange = true ∨ o.m_modesetRequested = true) →
      env.setCrtcOk = false →
      (presentLegacy env o buffer).1 = false ∧
      (presentLegacy env o buffer).2.hwCalls = o.hwCalls ++ [HwCall.setCrtc buffer] ∧
      (presentLegacy env o buffer).2.m_modesetRequested = o.m_modesetRequested ∧
      (presentLegacy env o buffer).2.m_crtc.next = o.m_crtc.next) ∧
    ((o.m_crtc.current = none ∨ env.needsModeChange = true ∨ o.m_modesetRequested = true) →
      env.setCrtcOk = true →
      (presentLegacy env o buffer).2.m_modesetRequested = false) ∧
    (HwCall.pageFlip buffer ∈ (presentLegacy env o buffer).2.hwCalls.drop o.hwCalls.length ↔
      ¬ ((o.m_crtc.current = none ∨ env.needsModeChange = true ∨
          o.m_modesetRequested = true) ∧ env.setCrtcOk = false)) ∧
    ((presentLegacy env o buffer).1 = true ↔
      (HwCall.pageFlip buffer ∈ (presentLegacy env o buffer).2.hwCalls.drop o.hwCalls.length ∧
        env.pageFlipOk = true)) ∧
    ((presentLegacy env o buffer).2.m_crtc.next = some buffer ↔
      (presentLegacy env o buffer).1 = true) := by
  cases hc : o.m_crtc.current <;> cases hm : env.needsModeChange <;>
    cases hr : o.m_modesetRequested <;> cases hk : env.setCrtcOk <;>
    cases hp : env.pageFlipOk <;>
    simp [presentLegacy, setModeLegacy, DrmOutput.logCall, hs, hd, hn, hc, hm, hr, hk, hp]

/-- Witness of C24: a CRTC without a current buffer, a mode-set that fails. -/
theorem presentLegacy_modeset_witness :
    (presentLegacy { setCrtcOk := false } {} 7).1 = false ∧
    (presentLegacy { setCrtcOk := false } {} 7).2.hwCalls = [] ++ [HwCall.setCrtc 7] ∧
    (presentLegacy { setCrtcOk := false } {} 7).2.m_modesetRequested = true ∧
    (presentLegacy { setCrtcOk := false } {} 7).2.m_crtc.next = none :=
  (presentLegacy_modeset { setCrtcOk := false } {} 7 rfl rfl rfl).2.1 (Or.inl rfl) rfl

/-- C25: in `presentLegacy` on an output whose CRTC has no next buffer, when the
session is not active the buffer is stored as the CRTC's next buffer, no kernel call
is recorded, the mode-set flag is unchanged and false is returned. -/
theorem presentLegacy_inactive_session (env : LegacyEnv) (o : DrmOutput) (buffer : Nat)
    (hn : o.m_crtc.next = none) (hs : env.sessionActive = false) :
    (presentLegacy env o buffer).1 = false ∧
    (presentLegacy env o buffer).2.m_crtc.next = some buffer ∧
    (presentLegacy env o buffer).2.hwCalls = o.hwCalls ∧
    (presentLegacy env o buffer).2.m_modesetRequested = o.m_modesetRequested ∧
    (presentLegacy env o buffer).2 = { o with m_crtc := { o.m_crtc with next := some buffer } } := by
  simp [presentLegacy, hn, hs]

/-- Witness of C25: buffer 7 is presented while the session is inactive. -/
theorem presentLegacy_inactive_session_witness :
    (presentLegacy { sessionActive := false } {} 7).1 = false ∧
    (presentLegacy { sessionActive := false } {} 7).2.m_crtc.next = some 7 ∧
    (presentLegacy { sessionActive := false } {} 7).2.hwCalls = [] ∧
    (presentLegacy { sessionActive := false } {} 7).2.m_modesetRequested = true :=
  ⟨(presentLegacy_inactive_session { sessionActive := false } {} 7 rfl rfl).1,
   (presentLegacy_inactive_session { sessionActive := false } {} 7 rfl rfl).2.1,
   (presentLegacy_inactive_session { sessionActive := false } {} 7 rfl rfl).2.2.1,
   (presentLegacy_inactive_session { sessionActive := false } {} 7 rfl rfl).2.2.2.1⟩

theorem initPrimaryPlane_skip (self : Nat) (o : DrmOutput) (p : DrmPlane)
    (rest : List (Option DrmPlane))
    (h : o.m_primaryPlane.isSome = true ∨ p.claimable o.m_crtc.resIndex = false) :
    initPrimaryPlane self o (some p :: rest) =
      ((initPrimaryPlane self o rest).1, some p :: (initPrimaryPlane self o rest).2.1,
        (initPrimaryPlane self o rest).2.2) := by
  have hc : p.type ≠ PlaneTypeIndex.Primary ∨ p.output.isSome = true ∨
      o.m_primaryPlane.isSome = true ∨ ¬ p.isCrtcSupported o.m_crtc.resIndex = true := by
    rcases h with h | h
    · exact Or.inr (Or.inr (Or.inl h))
    · simp only [DrmPlane.claimable, Bool.and_eq_false_iff, decide_eq_false_iff_not] at h
      rcases h with (h | h) | h
      · exact Or.inl h
      · right; left
        cases hpo : p.output with
        | none => simp [hpo] at h
        | some x => rfl
      · right; right; right
        simp [h]
  simp only [initPrimaryPlane, hc, if_true]

theorem initPrimaryPlane_take (self : Nat) (o : DrmOutput) (p : DrmPlane)
    (rest : List (Option DrmPlane))
    (h1 : o.m_primaryPlane = none) (h2 : p.claimable o.m_crtc.resIndex = true) :
    initPrimaryPlane self o (some p :: rest) =
      (true, some (p.setOutput (some self)) :: rest,
        { o with m_primaryPlane := some (p.setOutput (some self)) }) := by
  simp only [DrmPlane.claimable, Bool.and_eq_true, decide_eq_true_eq] at h2
  have hc : ¬ (p.type ≠ PlaneTypeIndex.Primary ∨ p.output.isSome = true ∨
      o.m_primaryPlane.isSome = true ∨ ¬ p.isCrtcSupported o.m_crtc.resIndex = true) := by
    have hpo : p.output = none := by
      cases hpo : p.output with
      | none => rfl
      | some x => simp [hpo] at h2
    simp [h1, h2.1.1, hpo, h2.2]
  simp only [initPrimaryPlane, hc, if_false]

/-- C27: `initPrimaryPlane` never claims a plane that has an output.  When it returns
true, the output held no primary plane, the plane it claimed is the first entry of
the list that is of type Primary, had no output and supports the output's CRTC, and
the list afterwards differs from the list before in the owner of that plane only.
It returns false exactly when the output already holds a primary plane or the list
has no such plane, and then the list and the output are unchanged. -/
theorem initPrimaryPlane_claims (self : Nat) (o : DrmOutput)
    (planes : List (Option DrmPlane)) :
    ((initPrimaryPlane self o planes).1 = true →
      ∃ pre p post, planes = pre ++ some p :: post ∧
        p.claimable o.m_crtc.resIndex = true ∧ p.output = none ∧
        (∀ q, some q ∈ pre → q.claimable o.m_crtc.resIndex = false) ∧
        o.m_primaryPlane = none ∧
        (initPrimaryPlane self o planes).2.1 = pre ++ some (p.setOutput (some self)) :: post ∧
        (initPrimaryPlane self o planes).2.2 =
          { o with m_primaryPlane := some (p.setOutput (some self)) }) ∧
    ((initPrimaryPlane self o planes).1 = false →
      (initPrimaryPlane self o planes).2.1 = planes ∧
      (initPrimaryPlane self o planes).2.2 = o) ∧
    ((initPrimaryPlane self o planes).1 = false ↔
      (o.m_primaryPlane.isSome = true ∨
        ∀ q, some q ∈ planes → q.claimable o.m_crtc.resIndex = false)) := by
  induction planes with
  | nil => simp [initPrimaryPlane]
  | cons x rest ih =>
    cases x with
    | none =>
      simp only [initPrimaryPlane]
      refine ⟨fun h => ?_, fun h => ?_, ?_⟩
      · refine (ih.1 h).elim fun pre hpre => hpre.elim fun p hp => hp.elim fun post hpost => ?_
        refine ⟨none :: pre, p, post, ?_, hpost.2.1, hpost.2.2.1, ?_, hpost.2.2.2.2.1, ?_,
          hpost.2.2.2.2.2.2⟩
        · rw [hpost.1]; rfl
        · intro q hq
          simp only [List.mem_cons] at hq
          rcases hq with hq | hq
          · exact absurd hq (by simp)
          · exact hpost.2.2.2.1 q hq
        · rw [hpost.2.2.2.2.2.1]; rfl
      · exact ⟨by rw [(ih.2.1 h).1], (ih.2.1 h).2⟩
      · rw [ih.2.2]
        simp
    | some p =>
      by_cases hskip : o.m_primaryPlane.isSome = true ∨ p.claimable o.m_crtc.resIndex = false
      · rw [initPrimaryPlane_skip self o p rest hskip]
        refine ⟨fun h => ?_, fun h => ?_, ?_⟩
        · refine (ih.1 h).elim fun pre hpre => hpre.elim fun q hq => hq.elim fun post hpost => ?_
          refine ⟨some p :: pre, q, post, ?_, hpost.2.1, hpost.2.2.1, ?_, hpost.2.2.2.2.1, ?_,
            hpost.2.2.2.2.2.2⟩
          · rw [hpost.1]; rfl
          · intro r hr
            simp only [List.mem_cons, Option.some.injEq] at hr
            rcases hr with hr | hr
            · rcases hskip with hs | hs
              · rw [hpost.2.2.2.2.1] at hs
                exact absurd hs (by simp)
              · rw [hr]; exact hs
            · exact hpost.2.2.2.1 r hr
          · show some p :: (initPrimaryPlane self o rest).2.1 = _
            rw [hpost.2.2.2.2.2.1]; rfl
        · exact ⟨by
            show some p :: (initPrimaryPlane self o rest).2.1 = _
            rw [(ih.2.1 h).1], (ih.2.1 h).2⟩
        · show (initPrimaryPlane self o rest).1 = false ↔ _
          rw [ih.2.2]
          constructor
          · intro h
            rcases h with h | h
            · exact Or.inl h
            · rcases hskip with hs | hs
              · exact Or.inl hs
              · right
                intro q hq
                simp only [List.mem_cons, Option.some.injEq] at hq
                rcases hq with hq | hq
                · rw [hq]; exact hs
                · exact h q hq
          · intro h
            rcases h with h | h
            · exact Or.inl h
            · exact Or.inr fun q hq => h q (List.mem_cons_of_mem _ hq)
      · have h1 : o.m_primaryPlane = none := by
          cases hpl : o.m_primaryPlane with
          | none => rfl
          | some x => exact absurd (Or.inl (by simp [hpl])) hskip
        have h2 : p.claimable o.m_crtc.resIndex = true := by
          cases hcl : p.claimable o.m_crtc.resIndex with
          | true => rfl
          | false => exact absurd (Or.inr hcl) hskip
        have hout : p.output = none := by
          simp only [DrmPlane.claimable, Bool.and_eq_true, decide_eq_true_eq] at h2
          cases hpo : p.output with
          | none => rfl
          | some x => simp [hpo] at h2
        rw [initPrimaryPlane_take self o p rest h1 h2]
        refine ⟨fun _ => ⟨[], p, rest, rfl, h2, hout, by simp, h1, rfl, rfl⟩, fun h => ?_, ?_⟩
        · exact absurd h (by simp)
        · constructor
          · intro h; exact absurd h (by simp)
          · intro h
            rcases h with h | h
            · rw [h1] at h; exact absurd h (by simp)
            · have := h p (List.mem_cons_self _ _)
              rw [h2] at this
              exact absurd this (by simp)

/-- Witness of C27: of an overlay plane, a primary plane owned by another output and
a free primary plane, output 2 claims the third. -/
theorem initPrimaryPlane_claims_witness :
    ∃ pre p post, samplePlanes = pre ++ some p :: post ∧
      p.claimable 0 = true ∧ p.output = none ∧
      (∀ q, some q ∈ pre → q.claimable 0 = false) ∧
      ({} : DrmOutput).m_primaryPlane = none ∧
      (initPrimaryPlane 2 {} samplePlanes).2.1 = pre ++ some (p.setOutput (some 2)) :: post ∧
      (initPrimaryPlane 2 {} samplePlanes).2.2 =
        { ({} : DrmOutput) with m_primaryPlane := some (p.setOutput (some 2)) } :=
  (initPrimaryPlane_claims 2 {} samplePlanes).1 (by decide)

theorem CallsAll.none (P : HwCall → Prop) {o o' : DrmOutput} (h : o'.hwCalls = o.hwCalls) :
    CallsAll P o o' :=
  ⟨[], by simp [h], by simp⟩

theorem CallsAll.append (P : HwCall → Prop) {a b c : DrmOutput} (h1 : CallsAll P a b)
    (h2 : CallsAll P b c) : CallsAll P a c := by
  refine h1.elim fun e1 he1 => h2.elim fun e2 he2 => ⟨e1 ++ e2, ?_, ?_⟩
  · rw [he2.1, he1.1, List.append_assoc]
  · intro x hx
    rcases List.mem_append.mp hx with hx | hx
    · exact he1.2 x hx
    · exact he2.2 x hx

theorem logCall_callsAll (P : HwCall → Prop) (o : DrmOutput) (c : HwCall) (hc : P c) :
    CallsAll P o (o.logCall c) :=
  ⟨[c], rfl, by simpa using hc⟩

theorem commitFailed_callsAll (P : HwCall → Prop) (o o' : DrmOutput) (r : Bool)
    (h : commitFailed o = some (r, o')) : CallsAll P o o' := by
  refine (commitFailed_calls o o' r h).elim fun e he => ?_
  have hnil : e = [] := by
    have hcount := he.2
    unfold commitFailed at h
    cases hx : errorHandler o with
    | none => simp [hx] at h
    | some o1 =>
      simp only [hx, Option.map_some', Option.some.injEq, Prod.mk.injEq] at h
      have hcalls : o1.hwCalls = o.hwCalls := by
        unfold errorHandler at hx
        simp only [dpmsOffHandler] at hx
        split at hx
        · simp only [Option.some.injEq] at hx
          subst hx
          split_ifs <;> rfl
        · exact absurd hx (by simp)
        · simp only [Option.some.injEq] at hx
          subst hx
          split_ifs <;> rfl
      have h3 := he.1
      rw [← h.2, hcalls] at h3
      exact (List.self_eq_append_right.mp h3)
  subst hnil
  exact CallsAll.none P (by simpa using he.1)

theorem showCursor_callsAll (P : HwCall → Prop) (hcur : ∀ c, P (HwCall.setCursor c))
    (ok : Bool) (o : DrmOutput) : CallsAll P o (showCursor ok o).2 := by
  have h : (showCursor ok o).2.hwCalls = o.hwCalls ∨
      ∃ c, (showCursor ok o).2.hwCalls = o.hwCalls ++ [HwCall.setCursor c] := by
    unfold showCursor showCursorBuffer
    cases o.m_cursor.getD o.m_cursorIndex none with
    | none => left; simp
    | some handle =>
      right
      refine ⟨some handle, ?_⟩
      cases ok
      · simp [DrmOutput.logCall]
      · by_cases hn : o.m_hasNewCursor = true <;> simp [DrmOutput.logCall, hn]
  rcases h with h | h
  · exact CallsAll.none P h
  · exact h.elim fun c hc => ⟨[HwCall.setCursor c], hc, by simpa using hcur c⟩

theorem hideCursor_callsAll (P : HwCall → Prop) (hcur : ∀ c, P (HwCall.setCursor c))
    (ok : Bool) (o : DrmOutput) : CallsAll P o (hideCursor ok o).2 := by
  unfold hideCursor
  split
  · exact CallsAll.none P rfl
  · exact logCall_callsAll P o _ (hcur none)

theorem commitSucceeded_callsAll (P : HwCall → Prop) (hcur : ∀ c, P (HwCall.setCursor c))
    (env : CommitEnv) (mode : AtomicCommitMode) (flags : Nat) (o : DrmOutput) :
    CallsAll P o (commitSucceeded env mode flags o) := by
  have step1 : ∀ x : DrmOutput, CallsAll P x
      (if mode = AtomicCommitMode.Real ∧ flags &&& DRM_MODE_ATOMIC_ALLOW_MODESET ≠ 0 then
        ({ x with m_modesetRequested := false, m_dpmsMode := x.m_dpmsModePending,
                  wlDpmsMode := x.m_dpmsModePending } : DrmOutput)
       else x) := by
    intro x; split
    · exact CallsAll.none P rfl
    · exact CallsAll.none P rfl
  have step2 : ∀ x : DrmOutput, CallsAll P x
      (if x.needShowCursor then
        ({ (showCursor env.showCursorOk x).2 with needShowCursor := false } : DrmOutput)
       else x) := by
    intro x; split
    · exact (showCursor_callsAll P hcur _ x).append P (CallsAll.none P rfl)
    · exact CallsAll.none P rfl
  have step3 : ∀ x : DrmOutput, CallsAll P x
      (if x.needHideCursor then
        ({ (hideCursor env.hideCursorOk x).2 with needHideCursor := false } : DrmOutput)
       else x) := by
    intro x; split
    · exact (hideCursor_callsAll P hcur _ x).append P (CallsAll.none P rfl)
    · exact CallsAll.none P rfl
  unfold commitSucceeded
  exact ((step1 o).append P (step2 _)).append P (step3 _)

theorem doAtomicCommitTail_callsAll (P : HwCall → Prop) (hcur : ∀ c, P (HwCall.setCursor c))
    (env : CommitEnv) (mode : AtomicCommitMode) (modeset : Bool) (o o' : DrmOutput) (r : Bool)
    (hflags : P (HwCall.atomicCommit (commitFlags mode modeset o.m_dpmsModePending)))
    (h : doAtomicCommitTail env mode modeset o = some (r, o')) : CallsAll P o o' := by
  simp only [doAtomicCommitTail] at h
  split at h
  · exact absurd h (by simp)
  · split at h
    · exact commitFailed_callsAll P _ _ _ h
    · split at h
      · exact (logCall_callsAll P o _ hflags).append P (commitFailed_callsAll P _ _ _ h)
      · simp only [Option.some.injEq, Prod.mk.injEq] at h
        rw [← h.2]
        exact (logCall_callsAll P o _ hflags).append P (commitSucceeded_callsAll P hcur _ _ _ _)

theorem atomicReqModesetPopulate_callsAll (P : HwCall → Prop) (b : DrmBackend)
    (env : CommitEnv) (o o' : DrmOutput) (enable r : Bool)
    (h : atomicReqModesetPopulate b env o enable = some (r, o')) : CallsAll P o o' := by
  simp only [atomicReqModesetPopulate] at h
  split at h
  · simp only [Option.some.injEq, Prod.mk.injEq] at h
    rw [← h.2]; exact CallsAll.none P rfl
  · split at h
    · exact absurd h (by simp)
    · simp only [Option.some.injEq, Prod.mk.injEq] at h
      rw [← h.2]
      apply CallsAll.none
      cases enable <;> by_cases hd : b.deleteBufferAfterPageFlip = true <;> simp [hd]

theorem doAtomicCommit_callsAll (P : HwCall → Prop) (hcur : ∀ c, P (HwCall.setCursor c))
    (b : DrmBackend) (env : CommitEnv) (mode : AtomicCommitMode) (o o' : DrmOutput) (r : Bool)
    (hflags : P (HwCall.atomicCommit
      (commitFlags mode o.m_modesetRequested o.m_dpmsModePending)))
    (hblob : env.allocOk = true → o.m_modesetRequested = true →
      o.m_dpmsModePending = DpmsMode.On → P HwCall.createPropertyBlob)
    (h : doAtomicCommit b env mode o = some (r, o')) : CallsAll P o o' := by
  simp only [doAtomicCommit] at h
  split at h
  · exact commitFailed_callsAll P _ _ _ h
  · next halloc =>
    have halloc1 : env.allocOk = true := by simpa using halloc
    split at h
    · next hreq =>
      split at h
      · next hb =>
        exact (logCall_callsAll P o _ (hblob halloc1 hreq hb.1)).append P
          (commitFailed_callsAll P _ _ _ h)
      · have hf : CallsAll P o
            (if o.m_dpmsModePending = DpmsMode.On then
              { o.logCall HwCall.createPropertyBlob with m_blobId := env.blobId } else o) := by
          split
          · next hon =>
            exact (logCall_callsAll P o _ (hblob halloc1 hreq hon)).append P
              (CallsAll.none P rfl)
          · exact CallsAll.none P rfl
        have hpend : (if o.m_dpmsModePending = DpmsMode.On then
              ({ o.logCall HwCall.createPropertyBlob with m_blobId := env.blobId } : DrmOutput)
              else o).m_dpmsModePending = o.m_dpmsModePending := by
          split <;> rfl
        split at h
        · exact absurd h (by simp)
        · next o1 hp =>
          exact (hf.append P (atomicReqModesetPopulate_callsAll P _ _ _ _ _ _ hp)).append P
            (commitFailed_callsAll P _ _ _ h)
        · next o1 hp =>
          have hp3 := (atomicReqModesetPopulate_record _ _ _ _ _ _ hp).2.2.1
          refine (hf.append P (atomicReqModesetPopulate_callsAll P _ _ _ _ _ _ hp)).append P
            (doAtomicCommitTail_callsAll P hcur _ _ _ _ _ _ ?_ h)
          rw [hp3, hpend]
          rw [hreq] at hflags
          exact hflags
    · next hreq =>
      have hf : o.m_modesetRequested = false := by simpa using hreq
      rw [hf] at hflags
      exact doAtomicCommitTail_callsAll P hcur _ _ _ _ _ _ hflags h

theorem doAtomicCommit_blob (b : DrmBackend) (env : CommitEnv) (mode : AtomicCommitMode)
    (o o' : DrmOutput) (r : Bool) (h : doAtomicCommit b env mode o = some (r, o'))
    (halloc : env.allocOk = true) (hreq : o.m_modesetRequested = true)
    (hon : o.m_dpmsModePending = DpmsMode.On) :
    ∃ rest, o'.hwCalls = o.hwCalls ++ HwCall.createPropertyBlob :: rest := by
  have key : ∀ x : DrmOutput, x.hwCalls = o.hwCalls ++ [HwCall.createPropertyBlob] →
      ∀ k, Calls k x o' → ∃ rest, o'.hwCalls = o.hwCalls ++ HwCall.createPropertyBlob :: rest := by
    intro x hx k hk
    refine hk.elim fun e he => ⟨e, ?_⟩
    rw [he.1, hx, List.append_assoc]
    rfl
  simp only [doAtomicCommit, halloc, hreq, hon, not_true_eq_false, if_false, if_true,
    true_and] at h
  split at h
  · exact key _ rfl _ (commitFailed_calls _ _ _ h)
  · split at h
    · exact absurd h (by simp)
    · next o1 hp =>
      exact key _ rfl _
        ((atomicReqModesetPopulate_calls _ _ _ _ _ _ hp).comp (commitFailed_calls _ _ _ h))
    · next o1 hp =>
      exact key _ rfl _
        ((atomicReqModesetPopulate_calls _ _ _ _ _ _ hp).comp
          (doAtomicCommitTail_calls _ _ _ _ _ _ h))

theorem commitFlags_bits (mode : AtomicCommitMode) (modeset : Bool) (pending : DpmsMode) :
    (commitFlags mode modeset pending &&& DRM_MODE_ATOMIC_ALLOW_MODESET ≠ 0 ↔ modeset = true) ∧
    (mode = AtomicCommitMode.Test →
      commitFlags mode modeset pending &&& DRM_MODE_ATOMIC_TEST_ONLY ≠ 0 ∧
      commitFlags mode modeset pending &&& DRM_MODE_ATOMIC_NONBLOCK = 0 ∧
      commitFlags mode modeset pending &&& DRM_MODE_PAGE_FLIP_EVENT = 0) ∧
    (mode = AtomicCommitMode.Real →
      commitFlags mode modeset pending &&& DRM_MODE_ATOMIC_TEST_ONLY = 0 ∧
      (commitFlags mode modeset pending &&& DRM_MODE_PAGE_FLIP_EVENT ≠ 0 ↔
        pending = DpmsMode.On) ∧
      (commitFlags mode modeset pending &&& DRM_MODE_ATOMIC_NONBLOCK ≠ 0 ↔
        (pending = DpmsMode.On ∧ modeset = false))) := by
  cases mode <;> cases modeset <;> cases pending <;> decide

theorem doAtomicCommit_blob_failure (b : DrmBackend) (env : CommitEnv)
    (mode : AtomicCommitMode) (o o' : DrmOutput) (r : Bool)
    (h : doAtomicCommit b env mode o = some (r, o'))
    (halloc : env.allocOk = true) (hreq : o.m_modesetRequested = true)
    (hon : o.m_dpmsModePending = DpmsMode.On) (hfail : env.blobOk = false) :
    r = false ∧ o'.hwCalls = o.hwCalls ++ [HwCall.createPropertyBlob] := by
  simp only [doAtomicCommit, halloc, hreq, hon, hfail, not_true_eq_false, if_false, if_true,
    true_and, Bool.false_eq_true, not_false_eq_true] at h
  refine ⟨(commitFailed_frame _ _ _ h).1, ?_⟩
  refine (commitFailed_callsAll (fun _ => False) _ _ _ h).elim fun e he => ?_
  have hnil : e = [] := List.eq_nil_iff_forall_not_mem.mpr fun c hc => he.2 c hc
  rw [he.1, hnil, List.append_nil]
  rfl

/-- C28: every `drmModeAtomicCommit` that `doAtomicCommit` issues carries the flags
computed from the commit mode, the mode-set request and the pending DPMS state on
entry: ALLOW_MODESET exactly when a mode-set is requested; in TEST mode TEST_ONLY and
neither NONBLOCK nor PAGE_FLIP_EVENT; in REAL mode not TEST_ONLY, PAGE_FLIP_EVENT
exactly when the pending DPMS state is On, and NONBLOCK exactly when it is On and no
mode-set is requested.  `drmModeCreatePropertyBlob` is called exactly when
`drmModeAtomicAlloc` has succeeded, a mode-set is requested and the pending DPMS
state is On; when that call fails, `doAtomicCommit` returns false and the blob call is
the only kernel call it has made. -/
theorem doAtomicCommit_flags (b : DrmBackend) (env : CommitEnv) (mode : AtomicCommitMode)
    (o o' : DrmOutput) (r : Bool) (h : doAtomicCommit b env mode o = some (r, o')) :
    ∃ extra, o'.hwCalls = o.hwCalls ++ extra ∧
      (∀ flags, HwCall.atomicCommit flags ∈ extra →
        flags = commitFlags mode o.m_modesetRequested o.m_dpmsModePending ∧
        (flags &&& DRM_MODE_ATOMIC_ALLOW_MODESET ≠ 0 ↔ o.m_modesetRequested = true) ∧
        (mode = AtomicCommitMode.Test →
          flags &&& DRM_MODE_ATOMIC_TEST_ONLY ≠ 0 ∧
          flags &&& DRM_MODE_ATOMIC_NONBLOCK = 0 ∧
          flags &&& DRM_MODE_PAGE_FLIP_EVENT = 0) ∧
        (mode = AtomicCommitMode.Real →
          flags &&& DRM_MODE_ATOMIC_TEST_ONLY = 0 ∧
          (flags &&& DRM_MODE_PAGE_FLIP_EVENT ≠ 0 ↔ o.m_dpmsModePending = DpmsMode.On) ∧
          (flags &&& DRM_MODE_ATOMIC_NONBLOCK ≠ 0 ↔
            (o.m_dpmsModePending = DpmsMode.On ∧ o.m_modesetRequested = false)))) ∧
      (HwCall.createPropertyBlob ∈ extra ↔
        (env.allocOk = true ∧ o.m_modesetRequested = true ∧
          o.m_dpmsModePending = DpmsMode.On)) ∧
      (HwCall.createPropertyBlob ∈ extra → env.blobOk = false →
        r = false ∧ extra = [HwCall.createPropertyBlob]) := by
  have hcur : ∀ c : Option Nat,
      (∀ f, HwCall.setCursor c = HwCall.atomicCommit f →
        f = commitFlags mode o.m_modesetRequested o.m_dpmsModePending) ∧
      (HwCall.setCursor c = HwCall.createPropertyBlob →
        (env.allocOk = true ∧ o.m_modesetRequested = true ∧
          o.m_dpmsModePending = DpmsMode.On)) := by
    intro c
    constructor
    · intro f hf; cases hf
    · intro hc; cases hc
  have hflags :
      (∀ f, HwCall.atomicCommit (commitFlags mode o.m_modesetRequested o.m_dpmsModePending)
          = HwCall.atomicCommit f →
        f = commitFlags mode o.m_modesetRequested o.m_dpmsModePending) ∧
      (HwCall.atomicCommit (commitFlags mode o.m_modesetRequested o.m_dpmsModePending)
          = HwCall.createPropertyBlob →
        (env.allocOk = true ∧ o.m_modesetRequested = true ∧
          o.m_dpmsModePending = DpmsMode.On)) := by
    constructor
    · intro f hf
      simp only [HwCall.atomicCommit.injEq] at hf
      exact hf.symm
    · intro hc; cases hc
  have hblob : env.allocOk = true → o.m_modesetRequested = true →
      o.m_dpmsModePending = DpmsMode.On →
      (∀ f, HwCall.createPropertyBlob = HwCall.atomicCommit f →
        f = commitFlags mode o.m_modesetRequested o.m_dpmsModePending) ∧
      (HwCall.createPropertyBlob = HwCall.createPropertyBlob →
        (env.allocOk = true ∧ o.m_modesetRequested = true ∧
          o.m_dpmsModePending = DpmsMode.On)) := by
    intro halloc hreq hon
    constructor
    · intro f hf; cases hf
    · intro _; exact ⟨halloc, hreq, hon⟩
  have hall := doAtomicCommit_callsAll
    (fun c => (∀ f, c = HwCall.atomicCommit f →
        f = commitFlags mode o.m_modesetRequested o.m_dpmsModePending) ∧
      (c = HwCall.createPropertyBlob →
        (env.allocOk = true ∧ o.m_modesetRequested = true ∧
          o.m_dpmsModePending = DpmsMode.On)))
    hcur b env mode o o' r hflags hblob h
  refine hall.elim fun extra he => ⟨extra, he.1, fun flags hmem => ?_, ?_, fun hmem hfail => ?_⟩
  · have hf := (he.2 _ hmem).1 flags rfl
    rw [hf]
    exact ⟨rfl, commitFlags_bits mode o.m_modesetRequested o.m_dpmsModePending⟩
  · constructor
    · intro hmem
      exact (he.2 _ hmem).2 rfl
    · intro hc
      refine (doAtomicCommit_blob b env mode o o' r h hc.1 hc.2.1 hc.2.2).elim
        fun rest hrest => ?_
      have heq : extra = HwCall.createPropertyBlob :: rest := by
        have h2 := he.1
        rw [hrest] at h2
        exact (List.append_cancel_left h2).symm
      rw [heq]
      exact List.mem_cons_self _ _
  · have hc := (he.2 _ hmem).2 rfl
    have hb := doAtomicCommit_blob_failure b env mode o o' r h hc.1 hc.2.1 hc.2.2 hfail
    refine ⟨hb.1, ?_⟩
    have h2 := he.1
    rw [hb.2] at h2
    exact (List.append_cancel_left h2).symm

/-- Witness of C28: a REAL commit with a mode-set requested and On pending creates
the blob and commits with ALLOW_MODESET and PAGE_FLIP_EVENT (1025). -/
theorem doAtomicCommit_flags_witness :
    ∃ extra, [HwCall.createPropertyBlob, HwCall.atomicCommit 1025] = commitReady.hwCalls ++ extra ∧
      (HwCall.createPropertyBlob ∈ extra ↔
        (({} : CommitEnv).allocOk = true ∧ commitReady.m_modesetRequested = true ∧
          commitReady.m_dpmsModePending = DpmsMode.On)) :=
  (doAtomicCommit_flags {} {} AtomicCommitMode.Real commitReady
    { commitReady with
      hwCalls := [HwCall.createPropertyBlob, HwCall.atomicCommit 1025],
      m_blobId := 1, m_modesetRequested := false } true rfl).elim
    fun extra he => ⟨extra, he.1, he.2.2.1⟩

/-- Counterexample to C28: a mode-set is requested and On is pending, yet no blob is
created: when `drmModeAtomicAlloc` fails, `doAtomicCommit` returns false without any
kernel call, and when `drmModeCreatePropertyBlob` itself fails the call is made but
yields no blob and nothing is committed. -/
theorem doAtomicCommit_without_blob :
    commitReady.m_modesetRequested = true ∧
    commitReady.m_dpmsModePending = DpmsMode.On ∧
    (doAtomicCommit {} { allocOk := false } AtomicCommitMode.Real commitReady).map
      (fun r => (r.1, r.2.hwCalls)) = some (false, []) ∧
    (doAtomicCommit {} { blobOk := false } AtomicCommitMode.Real commitReady).map
      (fun r => (r.1, r.2.hwCalls)) = some (false, [HwCall.createPropertyBlob]) := by
  refine ⟨rfl, rfl, by decide, by decide⟩

theorem RolledBack.of_inputs {o x o' : DrmOutput} (h2 : RolledBack x o')
    (h1 : CommitInputs o x) : RolledBack o o' :=
  ⟨h2.1, h2.2.1, fun hne => h2.2.2.1 (by rw [h1.1]; exact hne), h2.2.2.2.1.trans h1.2.1,
    h2.2.2.2.2.1.trans h1.2.2.1, h2.2.2.2.2.2.1.trans h1.2.2.2.1,
    h2.2.2.2.2.2.2.trans h1.2.2.2.2⟩

theorem CommitInputs.next {a b c : DrmOutput} (h1 : CommitInputs a b) (h2 : CommitInputs b c) :
    CommitInputs a c :=
  ⟨h2.1.trans h1.1, h2.2.1.trans h1.2.1, h2.2.2.1.trans h1.2.2.1,
    h2.2.2.2.1.trans h1.2.2.2.1, h2.2.2.2.2.trans h1.2.2.2.2⟩

theorem errorHandler_rolledBack (o o' : DrmOutput) (h : errorHandler o = some o') :
    RolledBack o o' := by
  have key : ∀ x : DrmOutput, x.m_dpmsModePending = x.m_dpmsMode → CommitInputs o x →
      x.m_primaryPlane = o.m_primaryPlane →
      (match x.m_nextPlanesFlipList, x.m_primaryPlane with
        | [], _ => some x
        | _ :: _, none => none
        | _ :: _, some p =>
          some { x with m_primaryPlane := some (p.setNext none), m_nextPlanesFlipList := [] })
        = some o' → RolledBack o o' := by
    intro x hx hin hpl hm
    split at hm
    · next hl =>
      simp only [Option.some.injEq] at hm
      subst hm
      refine ⟨hx, hl, fun hne => ?_, hin.2.1, hin.2.2.1, hin.2.2.2.1, hin.2.2.2.2⟩
      rw [← hin.1] at hne
      exact absurd hl hne
    · exact absurd hm (by simp)
    · simp only [Option.some.injEq] at hm
      subst hm
      exact ⟨hx, rfl, fun _ => rfl, hin.2.1, hin.2.2.1, hin.2.2.2.1, hin.2.2.2.2⟩
  unfold errorHandler at h
  simp only [dpmsOffHandler] at h
  refine key _ ?_ ?_ ?_ h
  · split_ifs with h1 h2
    · rfl
    · rfl
    · exact (not_not.mp h1).symm
  · split_ifs <;> exact ⟨rfl, rfl, rfl, rfl, rfl⟩
  · split_ifs <;> rfl

theorem commitFailed_rolledBack (o o' : DrmOutput) (r : Bool)
    (h : commitFailed o = some (r, o')) : RolledBack o o' := by
  unfold commitFailed at h
  cases he : errorHandler o with
  | none => simp [he] at h
  | some o1 =>
    simp only [he, Option.map_some', Option.some.injEq, Prod.mk.injEq] at h
    rw [← h.2]
    exact errorHandler_rolledBack o o1 he

theorem doAtomicCommitTail_rolledBack (env : CommitEnv) (mode : AtomicCommitMode)
    (modeset : Bool) (o o' : DrmOutput)
    (h : doAtomicCommitTail env mode modeset o = some (false, o')) : RolledBack o o' := by
  simp only [doAtomicCommitTail] at h
  split at h
  · exact absurd h (by simp)
  · split at h
    · exact commitFailed_rolledBack _ _ _ h
    · split at h
      · exact RolledBack.of_inputs (commitFailed_rolledBack _ _ _ h) ⟨rfl, rfl, rfl, rfl, rfl⟩
      · exact absurd h (by simp)

theorem atomicReqModesetPopulate_inputs (b : DrmBackend) (env : CommitEnv) (o o' : DrmOutput)
    (enable r : Bool) (h : atomicReqModesetPopulate b env o enable = some (r, o')) :
    CommitInputs o o' := by
  simp only [atomicReqModesetPopulate] at h
  split at h
  · simp only [Option.some.injEq, Prod.mk.injEq] at h
    rw [← h.2]; exact ⟨rfl, rfl, rfl, rfl, rfl⟩
  · split at h
    · exact absurd h (by simp)
    · simp only [Option.some.injEq, Prod.mk.injEq] at h
      rw [← h.2]
      cases enable <;> by_cases hd : b.deleteBufferAfterPageFlip = true <;>
        simp [CommitInputs, hd]

/-- C30: whenever `doAtomicCommit` returns false, the pending DPMS state equals the
active one, the flip list is empty, the plane that was in the flip list has no next
buffer, and the active DPMS state, the mode-set request and the deferred cursor show
and hide flags are as on entry. -/
theorem doAtomicCommit_failure (b : DrmBackend) (env : CommitEnv) (mode : AtomicCommitMode)
    (o o' : DrmOutput) (h : doAtomicCommit b env mode o = some (false, o')) :
    o'.m_dpmsModePending = o'.m_dpmsMode ∧ o'.m_nextPlanesFlipList = [] ∧
    (o.m_nextPlanesFlipList ≠ [] → o'.m_primaryPlane.map DrmPlane.next = some none) ∧
    o'.m_dpmsMode = o.m_dpmsMode ∧ o'.m_modesetRequested = o.m_modesetRequested ∧
    o'.needShowCursor = o.needShowCursor ∧ o'.needHideCursor = o.needHideCursor := by
  show RolledBack o o'
  simp only [doAtomicCommit] at h
  split at h
  · exact commitFailed_rolledBack _ _ _ h
  · split at h
    · split at h
      · exact RolledBack.of_inputs (commitFailed_rolledBack _ _ _ h) ⟨rfl, rfl, rfl, rfl, rfl⟩
      · have hf : CommitInputs o
            (if o.m_dpmsModePending = DpmsMode.On then
              { o.logCall HwCall.createPropertyBlob with m_blobId := env.blobId } else o) := by
          split <;> exact ⟨rfl, rfl, rfl, rfl, rfl⟩
        split at h
        · exact absurd h (by simp)
        · next o1 hp =>
          exact RolledBack.of_inputs (commitFailed_rolledBack _ _ _ h)
            (hf.next (atomicReqModesetPopulate_inputs _ _ _ _ _ _ hp))
        · next o1 hp =>
          exact RolledBack.of_inputs (doAtomicCommitTail_rolledBack _ _ _ _ _ h)
            (hf.next (atomicReqModesetPopulate_inputs _ _ _ _ _ _ hp))
    · exact doAtomicCommitTail_rolledBack _ _ _ _ _ h

/-- Witness of C30: the kernel rejects a TEST commit while Off is pending and On is
active; afterwards On is pending again and the queued plane has lost its next
buffer. -/
theorem doAtomicCommit_failure_witness :
    (DpmsMode.On = DpmsMode.On ∧ ([] : List PlaneRef) = [] ∧
      ({ commitReady with m_dpmsModePending := DpmsMode.Off }.m_nextPlanesFlipList ≠ [] →
        (some ({ id := 31 } : DrmPlane)).map DrmPlane.next = some none)) :=
  have h := doAtomicCommit_failure {} { commitOk := false } AtomicCommitMode.Test
    { commitReady with m_dpmsModePending := DpmsMode.Off }
    { commitReady with
      m_primaryPlane := some { id := 31 }, m_nextPlanesFlipList := [],
      hwCalls := [HwCall.atomicCommit 1280] } rfl
  ⟨h.1, h.2.1, h.2.2.1⟩

/-- C22, amended: on atomic hardware, for an output whose connector has the DPMS
property and a requested mode that differs from the pending state: when the mode is
On and a flip is pending, the power-on handler runs on the state whose pending-flip
flag has been cleared, and the flag is clear afterwards; when the mode is not On and
no flip is pending, `m_dpmsAtomicOffPending` is set and `dpmsAtomicOff` runs at
once; when the mode is not On and a flip is pending, `m_dpmsAtomicOffPending` is
left set and no kernel call is made. -/
theorem updateDpms_atomic (b : DrmBackend) (env : DpmsEnv) (o : DrmOutput) (m : DpmsMode)
    (hb : b.atomicModeSetting = true) (hd : o.m_hasDpms = true)
    (hm : m ≠ o.m_dpmsModePending) :
    (m = DpmsMode.On → o.m_pageFlipPending = true →
      updateDpms b env o m = some (dpmsOnHandler b env
        { o with m_dpmsModePending := DpmsMode.On, m_modesetRequested := true,
                 m_pageFlipPending := false }) ∧
      (dpmsOnHandler b env
        { o with m_dpmsModePending := DpmsMode.On, m_modesetRequested := true,
                 m_pageFlipPending := false }).m_pageFlipPending = false) ∧
    (m ≠ DpmsMode.On → o.m_pageFlipPending = false →
      updateDpms b env o m = (dpmsAtomicOff b env
        { o with m_dpmsModePending := m, m_modesetRequested := true,
                 m_dpmsAtomicOffPending := true }).map Prod.snd) ∧
    (m ≠ DpmsMode.On → o.m_pageFlipPending = true →
      updateDpms b env o m = some
        { o with m_dpmsModePending := m, m_modesetRequested := true,
                 m_dpmsAtomicOffPending := true }) := by
  refine ⟨fun hon hp => ?_, fun hoff hp => ?_, fun hoff hp => ?_⟩
  · subst hon
    refine ⟨?_, ?_⟩
    · simp [updateDpms, hb, hd, hm, hp]
    · unfold dpmsOnHandler
      by_cases h1 : b.usesSoftwareCursor = true <;> simp [h1, hb]
  · simp [updateDpms, hb, hd, hm, hoff, hp]
  · simp [updateDpms, hb, hd, hm, hoff, hp]

/-- Witness of the amended C22: Off is requested while a flip is pending. -/
theorem updateDpms_atomic_witness :
    updateDpms { atomicModeSetting := true } {}
        { m_hasDpms := true, m_pageFlipPending := true } DpmsMode.Off
      = some { m_hasDpms := true, m_pageFlipPending := true,
               m_dpmsModePending := DpmsMode.Off, m_modesetRequested := true,
               m_dpmsAtomicOffPending := true } :=
  (updateDpms_atomic { atomicModeSetting := true } {}
    { m_hasDpms := true, m_pageFlipPending := true } DpmsMode.Off rfl rfl
    (by decide)).2.2 (by decide) rfl

/-- Counterexample to C22: on an output whose connector has no DPMS property
`updateDpms` returns at once.  With On pending, Off requested and no flip pending,
`m_dpmsAtomicOffPending` stays false and no commit is issued; with Off pending, On
requested and a flip pending, the pending-flip flag stays set. -/
theorem updateDpms_atomic_without_property :
    (updateDpms { atomicModeSetting := true } {} { m_hasDpms := false } DpmsMode.Off).map
      (fun o => (o.m_dpmsAtomicOffPending, o.hwCalls)) = some (false, []) ∧
    (updateDpms { atomicModeSetting := true } {}
      { m_hasDpms := false, m_dpmsModePending := DpmsMode.Off, m_pageFlipPending := true }
      DpmsMode.On).map (fun o => o.m_pageFlipPending) = some true := by
  refine ⟨by decide, by decide⟩

theorem planeTransformStep_sameMode (b : DrmBackend) (rot : PlaneRotations) (o : DrmOutput)
    (t : Transform) :
    (planeTransformStep b rot o t).m_mode = o.m_mode ∧
    (planeTransformStep b rot o t).m_orientation = o.m_orientation := by
  unfold planeTransformStep
  split
  · exact ⟨rfl, rfl⟩
  · simp only
    split <;> exact ⟨rfl, rfl⟩

theorem transform_orientation (b : DrmBackend) (rot : PlaneRotations) (env : CursorEnv)
    (o o' : DrmOutput) (t : Transform) (h : transform b rot env o t = some o') :
    o'.m_mode = o.m_mode ∧
    o'.m_orientation = (orientationSwitch o t).m_orientation := by
  simp only [transform] at h
  split at h
  · exact absurd h (by simp)
  · next x hx =>
    simp only [Option.some.injEq] at h
    have u := updateCursor_sameGeometry _ _ _ hx
    have s := showCursor_sameGeometry env.setCursorOk x
    have w := setWaylandMode_sameGeometry (showCursor env.setCursorOk x).2
    rw [← h]
    refine ⟨?_, ?_⟩
    · rw [w.1, s.1, u.1]
      show (planeTransformStep b rot _ t).m_mode = _
      rw [(planeTransformStep_sameMode b rot _ t).1]
      cases t <;> rfl
    · rw [w.2.1, s.2.1, u.2.1]
      show (planeTransformStep b rot _ t).m_orientation = _
      rw [(planeTransformStep_sameMode b rot _ t).2]
      cases t <;> rfl

/-- C21, evaluated where the code departs from it: on an output in landscape
orientation with mode 1920x1080, `transform(Flipped90)` leaves `pixelSize()` at
1920x1080 (`transform(Rotated90)` gives 1080x1920); on the same output in portrait
orientation, `transform(Flipped)` leaves `pixelSize()` at 1080x1920. -/
theorem transform_flipped_keeps_orientation :
    (transform {} {} {} landscapeOutput Transform.Flipped90).map pixelSize
      = some ⟨1920, 1080⟩ ∧
    (transform {} {} {} landscapeOutput Transform.Rotated90).map pixelSize
      = some ⟨1080, 1920⟩ ∧
    (transform {} {} {}
      { landscapeOutput with m_orientation := ScreenOrientation.PortraitOrientation }
      Transform.Flipped).map pixelSize = some ⟨1080, 1920⟩ := by
  refine ⟨by decide, by decide, by decide⟩

theorem Kept.unchanged (o : DrmOutput) : Kept o o :=
  ⟨rfl, rfl, rfl, rfl, rfl, rfl, rfl, rfl, fun h => h⟩

theorem Kept.chain {a b c : DrmOutput} (h1 : Kept a b) (h2 : Kept b c) : Kept a c :=
  ⟨h2.teardown.trans h1.teardown, h2.deleted.trans h1.deleted,
    h2.deleteLater.trans h1.deleteLater, h2.flipPending.trans h1.flipPending,
    h2.offPending.trans h1.offPending, h2.enabled.trans h1.enabled,
    h2.flipCalls.trans h1.flipCalls, h2.crtc.trans h1.crtc, fun h => h2.plane (h1.plane h)⟩

theorem logCall_kept (o : DrmOutput) (c : HwCall) : Kept o (o.logCall c) :=
  ⟨rfl, rfl, rfl, rfl, rfl, rfl, rfl, rfl, fun h => h⟩

theorem errorHandler_runs (o : DrmOutput) (hp : o.m_primaryPlane.isSome = true) :
    ∃ o', errorHandler o = some o' ∧ Kept o o' := by
  have key : ∀ x : DrmOutput, Kept o x →
      ∃ o', (match x.m_nextPlanesFlipList, x.m_primaryPlane with
        | [], _ => some x
        | _ :: _, none => none
        | _ :: _, some p =>
          some { x with m_primaryPlane := some (p.setNext none), m_nextPlanesFlipList := [] })
        = some o' ∧ Kept o o' := by
    intro x hk
    have hx := hk.plane hp
    cases hl : x.m_nextPlanesFlipList with
    | nil => exact ⟨x, rfl, hk⟩
    | cons pr rest =>
      cases hpl : x.m_primaryPlane with
      | none => rw [hpl] at hx; exact absurd hx (by simp)
      | some p =>
        exact ⟨_, rfl, hk.chain ⟨rfl, rfl, rfl, rfl, rfl, rfl, rfl, rfl, fun _ => rfl⟩⟩
  unfold errorHandler
  simp only [dpmsOffHandler]
  apply key
  split_ifs <;> exact ⟨rfl, rfl, rfl, rfl, rfl, rfl, rfl, rfl, fun h => h⟩

theorem commitFailed_runs (o : DrmOutput) (hp : o.m_primaryPlane.isSome = true) :
    ∃ o', commitFailed o = some (false, o') ∧ Kept o o' := by
  refine (errorHandler_runs o hp).elim fun o' h => ⟨o', ?_, h.2⟩
  simp [commitFailed, h.1]

theorem showCursor_kept (ok : Bool) (o : DrmOutput) : Kept o (showCursor ok o).2 := by
  unfold showCursor showCursorBuffer
  cases o.m_cursor.getD o.m_cursorIndex none with
  | none => simp only [Bool.false_eq_true, not_false_eq_true, if_true]; exact Kept.unchanged o
  | some handle =>
    cases ok
    · simp only [Bool.false_eq_true, not_false_eq_true, if_true]
      exact ⟨rfl, rfl, rfl, rfl, rfl, rfl, rfl, rfl, fun h => h⟩
    · by_cases hn : o.m_hasNewCursor = true
      · simp only [not_true_eq_false, if_false, DrmOutput.logCall, hn, if_true]
        exact ⟨rfl, rfl, rfl, rfl, rfl, rfl, rfl, rfl, fun h => h⟩
      · simp only [not_true_eq_false, if_false, DrmOutput.logCall, hn]
        exact ⟨rfl, rfl, rfl, rfl, rfl, rfl, rfl, rfl, fun h => h⟩

theorem hideCursor_kept (ok : Bool) (o : DrmOutput) : Kept o (hideCursor ok o).2 := by
  unfold hideCursor
  split
  · exact Kept.unchanged o
  · exact ⟨rfl, rfl, rfl, rfl, rfl, rfl, rfl, rfl, fun h => h⟩

theorem commitSucceeded_kept (env : CommitEnv) (mode : AtomicCommitMode) (flags : Nat)
    (o : DrmOutput) : Kept o (commitSucceeded env mode flags o) := by
  have step1 : ∀ x : DrmOutput, Kept x
      (if mode = AtomicCommitMode.Real ∧ flags &&& DRM_MODE_ATOMIC_ALLOW_MODESET ≠ 0 then
        ({ x with m_modesetRequested := false, m_dpmsMode := x.m_dpmsModePending,
                  wlDpmsMode := x.m_dpmsModePending } : DrmOutput)
       else x) := by
    intro x; split
    · exact ⟨rfl, rfl, rfl, rfl, rfl, rfl, rfl, rfl, fun h => h⟩
    · exact Kept.unchanged x
  have step2 : ∀ x : DrmOutput, Kept x
      (if x.needShowCursor then
        ({ (showCursor env.showCursorOk x).2 with needShowCursor := false } : DrmOutput)
       else x) := by
    intro x; split
    · exact (showCursor_kept _ x).chain ⟨rfl, rfl, rfl, rfl, rfl, rfl, rfl, rfl, fun h => h⟩
    · exact Kept.unchanged x
  have step3 : ∀ x : DrmOutput, Kept x
      (if x.needHideCursor then
        ({ (hideCursor env.hideCursorOk x).2 with needHideCursor := false } : DrmOutput)
       else x) := by
    intro x; split
    · exact (hideCursor_kept _ x).chain ⟨rfl, rfl, rfl, rfl, rfl, rfl, rfl, rfl, fun h => h⟩
    · exact Kept.unchanged x
  unfold commitSucceeded
  exact ((step1 o).chain (step2 _)).chain (step3 _)

theorem doAtomicCommitTail_runs (env : CommitEnv) (mode : AtomicCommitMode) (modeset : Bool)
    (o : DrmOutput) (hp : o.m_primaryPlane.isSome = true) :
    ∃ r o', doAtomicCommitTail env mode modeset o = some (r, o') ∧ Kept o o' := by
  have hnone : ¬ (o.m_nextPlanesFlipList ≠ [] ∧ o.m_primaryPlane = none) := by
    intro h
    rw [h.2] at hp
    exact absurd hp (by simp)
  simp only [doAtomicCommitTail, hnone, if_false]
  split
  · exact (commitFailed_runs o hp).elim fun o' h => ⟨false, o', h.1, h.2⟩
  · split
    · refine (commitFailed_runs (o.logCall _) hp).elim fun o' h => ⟨false, o', h.1, ?_⟩
      exact (logCall_kept o _).chain h.2
    · refine ⟨true, _, rfl, ?_⟩
      exact (logCall_kept o _).chain (commitSucceeded_kept env mode _ _)

theorem atomicReqModesetPopulate_kept (b : DrmBackend) (env : CommitEnv) (o o' : DrmOutput)
    (enable r : Bool) (h : atomicReqModesetPopulate b env o enable = some (r, o')) :
    Kept o o' := by
  simp only [atomicReqModesetPopulate] at h
  split at h
  · simp only [Option.some.injEq, Prod.mk.injEq] at h
    rw [← h.2]; exact Kept.unchanged o
  · split at h
    · exact absurd h (by simp)
    · simp only [Option.some.injEq, Prod.mk.injEq] at h
      rw [← h.2]
      cases enable <;> by_cases hd : b.deleteBufferAfterPageFlip = true <;>
        simp only [hd, Bool.false_eq_true, if_false, if_true] <;>
        exact ⟨rfl, rfl, rfl, rfl, rfl, rfl, rfl, rfl, fun h => by first | exact h | rfl⟩

theorem atomicReqModesetPopulate_ne_none (b : DrmBackend) (env : CommitEnv) (o : DrmOutput)
    (enable : Bool) (hp : o.m_primaryPlane.isSome = true) :
    atomicReqModesetPopulate b env o enable ≠ none := by
  unfold atomicReqModesetPopulate
  split
  · simp
  · cases hpl : o.m_primaryPlane with
    | none => rw [hpl] at hp; exact absurd hp (by simp)
    | some p => simp

theorem commitFailed_ne_none (o : DrmOutput) (hp : o.m_primaryPlane.isSome = true) :
    commitFailed o ≠ none := by
  refine (commitFailed_runs o hp).elim fun o' h => ?_
  rw [h.1]
  simp

theorem commitFailed_kept (o o' : DrmOutput) (r : Bool) (hp : o.m_primaryPlane.isSome = true)
    (h : commitFailed o = some (r, o')) : Kept o o' := by
  refine (commitFailed_runs o hp).elim fun o1 h1 => ?_
  rw [h1.1] at h
  simp only [Option.some.injEq, Prod.mk.injEq] at h
  rw [← h.2]
  exact h1.2

theorem doAtomicCommitTail_kept (env : CommitEnv) (mode : AtomicCommitMode) (modeset : Bool)
    (o o' : DrmOutput) (r : Bool) (hp : o.m_primaryPlane.isSome = true)
    (h : doAtomicCommitTail env mode modeset o = some (r, o')) : Kept o o' := by
  refine (doAtomicCommitTail_runs env mode modeset o hp).elim fun r1 hr1 =>
    hr1.elim fun o1 h1 => ?_
  rw [h1.1] at h
  simp only [Option.some.injEq, Prod.mk.injEq] at h
  rw [← h.2]
  exact h1.2

theorem doAtomicCommitTail_ne_none (env : CommitEnv) (mode : AtomicCommitMode)
    (modeset : Bool) (o : DrmOutput) (hp : o.m_primaryPlane.isSome = true) :
    doAtomicCommitTail env mode modeset o ≠ none := by
  refine (doAtomicCommitTail_runs env mode modeset o hp).elim fun r1 hr1 =>
    hr1.elim fun o1 h1 => ?_
  rw [h1.1]
  simp

theorem doAtomicCommit_kept (b : DrmBackend) (env : CommitEnv) (mode : AtomicCommitMode)
    (o o' : DrmOutput) (r : Bool) (hp : o.m_primaryPlane.isSome = true)
    (h : doAtomicCommit b env mode o = some (r, o')) : Kept o o' := by
  simp only [doAtomicCommit] at h
  split at h
  · exact commitFailed_kept _ _ _ hp h
  · split at h
    · split at h
      · exact (logCall_kept o _).chain (commitFailed_kept _ _ _ hp h)
      · have hf : Kept o
            (if o.m_dpmsModePending = DpmsMode.On then
              { o.logCall HwCall.createPropertyBlob with m_blobId := env.blobId } else o) := by
          split <;> exact ⟨rfl, rfl, rfl, rfl, rfl, rfl, rfl, rfl, fun h => h⟩
        split at h
        · exact absurd h (by simp)
        · next o1 hpop =>
          have h1 := atomicReqModesetPopulate_kept _ _ _ _ _ _ hpop
          exact (hf.chain h1).chain (commitFailed_kept _ _ _ (h1.plane (hf.plane hp)) h)
        · next o1 hpop =>
          have h1 := atomicReqModesetPopulate_kept _ _ _ _ _ _ hpop
          exact (hf.chain h1).chain
            (doAtomicCommitTail_kept _ _ _ _ _ _ (h1.plane (hf.plane hp)) h)
    · exact doAtomicCommitTail_kept _ _ _ _ _ _ hp h

theorem doAtomicCommit_ne_none (b : DrmBackend) (env : CommitEnv) (mode : AtomicCommitMode)
    (o : DrmOutput) (hp : o.m_primaryPlane.isSome = true) :
    doAtomicCommit b env mode o ≠ none := by
  intro h
  simp only [doAtomicCommit] at h
  split at h
  · exact commitFailed_ne_none _ hp h
  · split at h
    · split at h
      · exact commitFailed_ne_none (o.logCall _) hp h
      · have hf : Kept o
            (if o.m_dpmsModePending = DpmsMode.On then
              { o.logCall HwCall.createPropertyBlob with m_blobId := env.blobId } else o) := by
          split <;> exact ⟨rfl, rfl, rfl, rfl, rfl, rfl, rfl, rfl, fun h => h⟩
        split at h
        · next hnone =>
          exact atomicReqModesetPopulate_ne_none b env _ _ (hf.plane hp) hnone
        · next o1 hpop =>
          have h1 := atomicReqModesetPopulate_kept _ _ _ _ _ _ hpop
          exact commitFailed_ne_none _ (h1.plane (hf.plane hp)) h
        · next o1 hpop =>
          have h1 := atomicReqModesetPopulate_kept _ _ _ _ _ _ hpop
          exact doAtomicCommitTail_ne_none _ _ _ _ (h1.plane (hf.plane hp)) h
    · exact doAtomicCommitTail_ne_none _ _ _ _ hp h

theorem doAtomicCommit_runs (b : DrmBackend) (env : CommitEnv) (mode : AtomicCommitMode)
    (o : DrmOutput) (hp : o.m_primaryPlane.isSome = true) :
    ∃ r o', doAtomicCommit b env mode o = some (r, o') ∧ Kept o o' := by
  cases h : doAtomicCommit b env mode o with
  | none => exact absurd h (doAtomicCommit_ne_none b env mode o hp)
  | some x => exact ⟨x.1, x.2, rfl, doAtomicCommit_kept b env mode o x.2 x.1 hp h⟩

theorem dpmsAtomicOff_kept (b : DrmBackend) (env : DpmsEnv) (o o' : DrmOutput) (r : Bool)
    (h : dpmsAtomicOff b env o = some (r, o')) :
    Kept { o with m_dpmsAtomicOffPending := false } o' := by
  simp only [dpmsAtomicOff] at h
  split at h
  · exact absurd h (by simp)
  · next p hp =>
    have hpre : ∀ x : DrmOutput, Kept x
        (if ¬ b.usesSoftwareCursor = true then ({ x with needHideCursor := true } : DrmOutput)
         else x) := by
      intro x; split
      · exact ⟨rfl, rfl, rfl, rfl, rfl, rfl, rfl, rfl, fun h => h⟩
      · exact Kept.unchanged x
    have hq : Kept { o with m_dpmsAtomicOffPending := false }
        { o with m_dpmsAtomicOffPending := false,
                 deletedBuffers := o.deletedBuffers ++ p.next.toList,
                 m_primaryPlane := some (p.setNext none),
                 m_nextPlanesFlipList := o.m_nextPlanesFlipList ++ [PlaneRef.primaryPlane] } :=
      ⟨rfl, rfl, rfl, rfl, rfl, rfl, rfl, rfl, fun _ => rfl⟩
    have hsome : ∀ x : DrmOutput, Kept { o with m_dpmsAtomicOffPending := false } x →
        x.m_primaryPlane.isSome = true := fun x hx => hx.plane (by simp [hp])
    split at h
    · exact absurd h (by simp)
    · next o1 ht =>
      simp only [Option.some.injEq, Prod.mk.injEq] at h
      rw [← h.2]
      exact (hq.chain (hpre _)).chain
        (doAtomicCommit_kept _ _ _ _ _ _ (hsome _ (hq.chain (hpre _))) ht)
    · next o1 ht =>
      have c1 := (hq.chain (hpre _)).chain
        (doAtomicCommit_kept _ _ _ _ _ _ (hsome _ (hq.chain (hpre _))) ht)
      split at h
      · exact absurd h (by simp)
      · next o2 hr =>
        simp only [Option.some.injEq, Prod.mk.injEq] at h
        rw [← h.2]
        exact c1.chain (doAtomicCommit_kept _ _ _ _ _ _ (hsome _ c1) hr)
      · next o2 hr =>
        simp only [Option.some.injEq, Prod.mk.injEq] at h
        rw [← h.2]
        exact (c1.chain (doAtomicCommit_kept _ _ _ _ _ _ (hsome _ c1) hr)).chain
          ⟨rfl, rfl, rfl, rfl, rfl, rfl, rfl, rfl, fun h => h⟩

theorem dpmsAtomicOff_ne_none (b : DrmBackend) (env : DpmsEnv) (o : DrmOutput)
    (hpl : o.m_primaryPlane.isSome = true) : dpmsAtomicOff b env o ≠ none := by
  intro h
  simp only [dpmsAtomicOff] at h
  split at h
  · next hnone =>
    rw [hnone] at hpl
    exact absurd hpl (by simp)
  · next p hp =>
    split at h
    · next hnone =>
      refine absurd hnone (doAtomicCommit_ne_none _ _ _ _ ?_)
      split <;> rfl
    · exact absurd h (by simp)
    · next o1 ht =>
      have k1 : o1.m_primaryPlane.isSome = true := by
        refine (doAtomicCommit_kept _ _ _ _ _ _ ?_ ht).plane ?_ <;> (split <;> rfl)
      split at h
      · next hnone =>
        exact doAtomicCommit_ne_none _ _ _ _ k1 hnone
      · exact absurd h (by simp)
      · exact absurd h (by simp)

theorem dpmsAtomicOff_runs (b : DrmBackend) (env : DpmsEnv) (o : DrmOutput)
    (hpl : o.m_primaryPlane.isSome = true) :
    ∃ r o', dpmsAtomicOff b env o = some (r, o') ∧
      Kept { o with m_dpmsAtomicOffPending := false } o' := by
  cases h : dpmsAtomicOff b env o with
  | none => exact absurd h (dpmsAtomicOff_ne_none b env o hpl)
  | some x => exact ⟨x.1, x.2, rfl, dpmsAtomicOff_kept b env o x.2 x.1 h⟩

theorem FlipKept.still (o : DrmOutput) : FlipKept o o :=
  ⟨rfl, rfl, rfl, rfl, rfl, rfl, fun h => h⟩

theorem FlipKept.andThen {a b c : DrmOutput} (h1 : FlipKept a b) (h2 : FlipKept b c) :
    FlipKept a c :=
  ⟨h2.teardown.trans h1.teardown, h2.deleted.trans h1.deleted,
    h2.deleteLater.trans h1.deleteLater, h2.flipPending.trans h1.flipPending,
    h2.offPending.trans h1.offPending, h2.hwCalls.trans h1.hwCalls,
    fun h => h2.plane (h1.plane h)⟩

theorem flipCrtc_kept (b : DrmBackend) (o : DrmOutput) : FlipKept o (flipCrtc b o) :=
  ⟨rfl, rfl, rfl, rfl, rfl, rfl, fun h => h⟩

theorem flipPlane_runs (withDelete : Bool) (x : DrmOutput) (ref : PlaneRef)
    (hx : x.m_primaryPlane.isSome = true) :
    ∃ y, flipPlane withDelete x ref = some y ∧ FlipKept x y ∧
      y.m_primaryPlane.isSome = true := by
  cases hp : x.m_primaryPlane with
  | none => rw [hp] at hx; exact absurd hx (by simp)
  | some p =>
    refine ⟨{ x with m_primaryPlane := some p.flipBuffer,
                     deletedBuffers := x.deletedBuffers ++
                       (if withDelete then p.current.toList else []),
                     flipCalls := x.flipCalls ++ [FlipCall.plane ref] }, ?_,
      ⟨rfl, rfl, rfl, rfl, rfl, rfl, fun _ => rfl⟩, rfl⟩
    simp [flipPlane, hp]

theorem flipPlanes_fold (withDelete : Bool) (l : List PlaneRef) :
    ∀ x : DrmOutput, x.m_primaryPlane.isSome = true →
      ∃ y, l.foldl (fun acc ref => acc.bind fun z => flipPlane withDelete z ref) (some x)
          = some y ∧ FlipKept x y := by
  induction l with
  | nil => intro x _; exact ⟨x, rfl, FlipKept.still x⟩
  | cons ref rest ih =>
    intro x hx
    refine (flipPlane_runs withDelete x ref hx).elim fun x1 h1 => ?_
    refine (ih x1 h1.2.2).elim fun y hy => ⟨y, ?_, h1.2.1.andThen hy.2⟩
    simp only [List.foldl_cons, Option.some_bind, h1.1]
    exact hy.1

theorem flipPlanes_runs (withDelete : Bool) (o : DrmOutput)
    (hpl : o.m_primaryPlane.isSome = true) :
    ∃ y, flipPlanes withDelete o = some y ∧ FlipKept o y := by
  refine (flipPlanes_fold withDelete o.m_nextPlanesFlipList o hpl).elim fun y hy => ?_
  refine ⟨{ y with m_nextPlanesFlipList := [] }, ?_, ?_⟩
  · simp [flipPlanes, hy.1]
  · exact hy.2.andThen ⟨rfl, rfl, rfl, rfl, rfl, rfl, fun h => h⟩

theorem finishFlip_runs (b : DrmBackend) (o : DrmOutput)
    (hpl : b.atomicModeSetting = true → o.m_primaryPlane.isSome = true) :
    ∃ early x, finishFlip b o = some (early, x) ∧ FlipKept o x ∧
      (early = true → b.deleteBufferAfterPageFlip = true ∧ b.atomicModeSetting = true ∧
        o.m_primaryPlane.bind DrmPlane.next = none) := by
  unfold finishFlip
  by_cases hd : b.deleteBufferAfterPageFlip = true
  · by_cases ha : b.atomicModeSetting = true
    · have hsome := hpl ha
      cases hp : o.m_primaryPlane with
      | none => rw [hp] at hsome; exact absurd hsome (by simp)
      | some p =>
        cases hn : p.next with
        | none =>
          refine ⟨true, o, ?_, FlipKept.still o, fun _ => ⟨hd, ha, ?_⟩⟩
          · simp [hd, ha, hn]
          · simp [hn]
        | some nb =>
          refine (flipPlanes_runs true o (by simp [hp])).elim fun y hy =>
            ⟨false, y, ?_, hy.2, fun h => absurd h (by simp)⟩
          simp [hd, ha, hn, hy.1]
    · refine ⟨false, flipCrtc b o, ?_, flipCrtc_kept b o, fun h => absurd h (by simp)⟩
      simp [hd, ha]
  · by_cases ha : b.atomicModeSetting = true
    · refine (flipPlanes_runs false o (hpl ha)).elim fun y hy =>
        ⟨false, flipCrtc b y, ?_, hy.2.andThen (flipCrtc_kept b y), fun h => absurd h (by simp)⟩
      simp [hd, ha, hy.1]
    · refine ⟨false, flipCrtc b (flipCrtc b o), ?_,
        (flipCrtc_kept b o).andThen (flipCrtc_kept b _), fun h => absurd h (by simp)⟩
      simp [hd, ha]

theorem completeFlip_runs (b : DrmBackend) (env : DpmsEnv) (o : DrmOutput)
    (hpl : (b.atomicModeSetting = true ∨ o.m_dpmsAtomicOffPending = true) →
      o.m_primaryPlane.isSome = true) :
    ∃ o', completeFlip b env o = some o' ∧
      o'.m_pageFlipPending = o.m_pageFlipPending ∧ o'.m_teardown = o.m_teardown ∧
      o'.deleteLaterCalled = o.deleteLaterCalled ∧
      (o.m_dpmsAtomicOffPending = true →
        ¬ (b.deleteBufferAfterPageFlip = true ∧ b.atomicModeSetting = true ∧
            o.m_primaryPlane.bind DrmPlane.next = none) →
        o'.m_dpmsAtomicOffPending = false ∧
        ∃ x r, x.m_pageFlipPending = o.m_pageFlipPending ∧
          dpmsAtomicOff b env x = some (r, o')) := by
  refine (finishFlip_runs b o fun ha => hpl (Or.inl ha)).elim fun early he =>
    he.elim fun x hx => ?_
  cases early with
  | true =>
    refine ⟨x, ?_, hx.2.1.flipPending, hx.2.1.teardown, hx.2.1.deleteLater, fun _ hn => ?_⟩
    · simp [completeFlip, hx.1]
    · exact absurd (hx.2.2 rfl) hn
  | false =>
    by_cases hoff : o.m_dpmsAtomicOffPending = true
    · have hxoff : x.m_dpmsAtomicOffPending = true := hx.2.1.offPending.trans hoff
      refine (dpmsAtomicOff_runs b env x (hx.2.1.plane (hpl (Or.inr hoff)))).elim fun r hr =>
        hr.elim fun o' ho' => ?_
      refine ⟨o', ?_, ho'.2.flipPending.trans hx.2.1.flipPending,
        ho'.2.teardown.trans hx.2.1.teardown, ho'.2.deleteLater.trans hx.2.1.deleteLater,
        fun _ _ => ⟨ho'.2.offPending, x, r, hx.2.1.flipPending, ho'.1⟩⟩
      simp [completeFlip, hx.1, hxoff, ho'.1]
    · have hxoff : x.m_dpmsAtomicOffPending = false := by
        rw [hx.2.1.offPending]
        simpa using hoff
      refine ⟨x, ?_, hx.2.1.flipPending, hx.2.1.teardown, hx.2.1.deleteLater,
        fun h _ => absurd h hoff⟩
      simp [completeFlip, hx.1, hxoff]

theorem pageFlipped_live (b : DrmBackend) (env : DpmsEnv) (o : DrmOutput)
    (hlive : ¬ (o.m_teardown = true ∧ o.m_deleted = true)) :
    pageFlipped b env o = completeFlip b env
      (if o.m_teardown = true then
        { o with m_pageFlipPending := false, deleteLaterCalled := true }
       else { o with m_pageFlipPending := false }) := by
  show (if o.m_teardown = true ∧ o.m_deleted = true then
      some { o with m_pageFlipPending := false } else completeFlip b env _) = _
  rw [if_neg hlive]

/-- C23, amended: when a deferred DPMS-off is pending and `pageFlipped()` runs on an
output that is not a torn-down output under destruction, whose primary plane exists
and, on an atomic backend that deletes buffers after the flip, has a next buffer,
then `pageFlipped()` clears the pending-flip flag and runs `dpmsAtomicOff` before it
returns, so that `m_dpmsAtomicOffPending` is false and no flip is pending
afterwards. -/
theorem pageFlipped_runs_deferred_off (b : DrmBackend) (env : DpmsEnv) (o : DrmOutput)
    (hoff : o.m_dpmsAtomicOffPending = true)
    (hlive : ¬ (o.m_teardown = true ∧ o.m_deleted = true))
    (hpl : o.m_primaryPlane.isSome = true)
    (hnext : ¬ (b.deleteBufferAfterPageFlip = true ∧ b.atomicModeSetting = true ∧
      o.m_primaryPlane.bind DrmPlane.next = none)) :
    ∃ o', pageFlipped b env o = some o' ∧ o'.m_pageFlipPending = false ∧
      o'.m_dpmsAtomicOffPending = false ∧
      ∃ x r, x.m_pageFlipPending = false ∧ dpmsAtomicOff b env x = some (r, o') := by
  rw [pageFlipped_live b env o hlive]
  by_cases ht : o.m_teardown = true
  · rw [if_pos ht]
    refine (completeFlip_runs b env
      { o with m_pageFlipPending := false, deleteLaterCalled := true }
      (fun _ => hpl)).elim fun o' ho' =>
      ⟨o', ho'.1, ho'.2.1, (ho'.2.2.2.2 hoff hnext).1, (ho'.2.2.2.2 hoff hnext).2⟩
  · rw [if_neg ht]
    refine (completeFlip_runs b env { o with m_pageFlipPending := false }
      (fun _ => hpl)).elim fun o' ho' =>
      ⟨o', ho'.1, ho'.2.1, (ho'.2.2.2.2 hoff hnext).1, (ho'.2.2.2.2 hoff hnext).2⟩

/-- Witness of the amended C23: a deferred DPMS-off on an atomic backend that reuses
its buffers; both commits of `dpmsAtomicOff` succeed. -/
theorem pageFlipped_runs_deferred_off_witness :
    ∃ o', pageFlipped { atomicModeSetting := true } {} deferredOffOutput = some o' ∧
      o'.m_pageFlipPending = false ∧ o'.m_dpmsAtomicOffPending = false ∧
      ∃ x r, x.m_pageFlipPending = false ∧
        dpmsAtomicOff { atomicModeSetting := true } {} x = some (r, o') :=
  pageFlipped_runs_deferred_off { atomicModeSetting := true } {} deferredOffOutput rfl
    (by decide) rfl (by decide)

/-- Counterexample to C23: with a deferred DPMS-off pending, `pageFlipped()` returns
without running `dpmsAtomicOff` (the flag stays set and no kernel call is made) on an
atomic backend that deletes buffers after the flip when the primary plane has no next
buffer, and on a torn-down output under destruction. -/
theorem pageFlipped_skips_deferred_off :
    (pageFlipped { atomicModeSetting := true, deleteBufferAfterPageFlip := true } {}
      deferredOffOutput).map
      (fun o => (o.m_pageFlipPending, o.m_dpmsAtomicOffPending, o.hwCalls))
      = some (false, true, []) ∧
    (pageFlipped { atomicModeSetting := true } {}
      { deferredOffOutput with m_teardown := true, m_deleted := true }).map
      (fun o => (o.m_pageFlipPending, o.m_dpmsAtomicOffPending, o.hwCalls))
      = some (false, true, []) := by
  refine ⟨by decide, by decide⟩

/-- C29, evaluated where the code departs from it: on a legacy backend that reuses
its buffers, with buffer 1 current and buffer 2 next on the CRTC, one `pageFlipped()`
calls `m_crtc->flipBuffer()` twice and leaves the CRTC without a current buffer; on
a legacy backend that deletes buffers after the flip it is called once and buffer 2
is current. -/
theorem pageFlipped_flips_crtc_twice :
    (pageFlipped {} {} flippingOutput).map
      (fun o => (o.flipCalls, o.m_crtc.current, o.m_crtc.next))
      = some ([FlipCall.crtc, FlipCall.crtc], none, none) ∧
    (pageFlipped { deleteBufferAfterPageFlip := true } {} flippingOutput).map
      (fun o => (o.flipCalls, o.m_crtc.current, o.m_crtc.next))
      = some ([FlipCall.crtc], some 2, none) := by
  refine ⟨by decide, by decide⟩

theorem CountCalls.bound {p : HwCall → Bool} {k : Nat} {a b : DrmOutput}
    (h : CountCalls p k a b) : b.hwCalls.countP p ≤ a.hwCalls.countP p + k := by
  refine h.elim fun e he => ?_
  rw [he.1, List.countP_append]
  exact Nat.add_le_add_left he.2 _

theorem roundHalfEven_intCast (z : ℤ) : roundHalfEven (z : ℚ) = z := by
  unfold roundHalfEven
  simp

theorem roundHalfEven_of_near (x : ℚ) (r : ℤ) (h : |x - r| < 1 / 2) : roundHalfEven x = r := by
  have h1 := abs_lt.mp h
  unfold roundHalfEven
  by_cases hx : (r : ℚ) ≤ x
  · have hf : Int.floor x = r := by
      rw [Int.floor_eq_iff]
      constructor
      · exact hx
      · linarith [h1.2]
    simp only [hf]
    rw [if_pos (by linarith [h1.2])]
  · have hf : Int.floor x = r - 1 := by
      rw [Int.floor_eq_iff]
      push_cast
      constructor
      · linarith [h1.1]
      · push_neg at hx; linarith
    simp only [hf]
    push_cast
    rw [if_neg (by linarith [h1.1]), if_pos (by linarith [h1.1])]
    ring

theorem log_lt_of_abs_lt (q : ℚ) (hq : q ≠ 0) (m : ℤ) (h : |q| < (2 : ℚ) ^ m) :
    Int.log 2 |q| < m := by
  have hpos : 0 < |q| := abs_pos.mpr hq
  exact (Int.lt_zpow_iff_log_lt (b := 2) (by norm_num) hpos (x := m)).mp (by exact_mod_cast h)

theorem roundTo_exact (p : ℕ) (emin : ℤ) (n z : ℤ) (hn : |n| < 2 ^ p)
    (hz : emin - ((p : ℤ) - 1) ≤ z) :
    roundTo p emin ((n : ℚ) * (2 : ℚ) ^ z) = (n : ℚ) * (2 : ℚ) ^ z := by
  unfold roundTo
  by_cases h0 : (n : ℚ) * (2 : ℚ) ^ z = 0
  · rw [if_pos h0, h0]
  · rw [if_neg h0]
    simp only
    have h2 : (0 : ℚ) < 2 := by norm_num
    have hlog : Int.log 2 |(n : ℚ) * (2 : ℚ) ^ z| < (p : ℤ) + z := by
      apply log_lt_of_abs_lt _ h0
      rw [abs_mul, abs_of_pos (zpow_pos h2 z), zpow_add₀ (by norm_num : (2 : ℚ) ≠ 0)]
      apply mul_lt_mul_of_pos_right _ (zpow_pos h2 z)
      have : ((|n| : ℤ) : ℚ) < ((2 ^ p : ℤ) : ℚ) := by exact_mod_cast hn
      simpa using this
    have hu : max (Int.log 2 |(n : ℚ) * (2 : ℚ) ^ z|) emin - ((p : ℤ) - 1) ≤ z := by
      rcases max_cases (Int.log 2 |(n : ℚ) * (2 : ℚ) ^ z|) emin with h | h <;> rw [h.1] <;> omega
    generalize max (Int.log 2 |(n : ℚ) * (2 : ℚ) ^ z|) emin - ((p : ℤ) - 1) = u at hu
    obtain ⟨d, hd⟩ : ∃ d : ℕ, z = u + d := ⟨(z - u).toNat, by omega⟩
    have hq : (n : ℚ) * (2 : ℚ) ^ z / (2 : ℚ) ^ u = ((n * 2 ^ d : ℤ) : ℚ) := by
      rw [hd, zpow_add₀ (by norm_num : (2 : ℚ) ≠ 0)]
      push_cast
      field_simp
      ring
    rw [hq, roundHalfEven_intCast, hd, zpow_add₀ (by norm_num : (2 : ℚ) ≠ 0), zpow_natCast]
    push_cast
    ring

theorem roundTo_of_near (p : ℕ) (emin : ℤ) (q : ℚ) (e r : ℤ)
    (he1 : (2 : ℚ) ^ e ≤ |q|) (he2 : |q| < (2 : ℚ) ^ (e + 1)) (hemin : emin ≤ e)
    (hr : |q / (2 : ℚ) ^ (e - ((p : ℤ) - 1)) - r| < 1 / 2) :
    roundTo p emin q = (r : ℚ) * (2 : ℚ) ^ (e - ((p : ℤ) - 1)) := by
  have hpos : 0 < |q| := lt_of_lt_of_le (zpow_pos (by norm_num) e) he1
  have hq : q ≠ 0 := abs_pos.mp hpos
  have hlog : Int.log 2 |q| = e := by
    apply le_antisymm
    · have := (Int.lt_zpow_iff_log_lt (b := 2) (by norm_num) hpos (x := e + 1)).mp
        (by exact_mod_cast he2)
      omega
    · exact (Int.zpow_le_iff_le_log (b := 2) (by norm_num) hpos (x := e)).mp
        (by exact_mod_cast he1)
  unfold roundTo
  rw [if_neg hq]
  simp only [hlog, max_eq_left hemin]
  rw [roundHalfEven_of_near _ r hr]

theorem roundFloat_zero : roundFloat 0 = 0 := by
  simp [roundFloat, roundTo]

theorem roundDouble_zero : roundDouble 0 = 0 := by
  simp [roundDouble, roundTo]

theorem Scaled.enlarge {n : ℤ} {k : ℕ} {B C : ℤ} {q : ℚ} (h : Scaled n k B q) (hBC : B ≤ C) :
    Scaled n k C q :=
  h.elim fun j hj => ⟨j, le_trans hj.1 hBC, hj.2⟩

theorem Scaled.nonneg {n : ℤ} {k : ℕ} {B : ℤ} {q : ℚ} (h : Scaled n k B q) : 0 ≤ B :=
  h.elim fun j hj => le_trans (abs_nonneg j) hj.1

theorem Scaled.zero (n : ℤ) (k : ℕ) : Scaled n k 0 0 :=
  ⟨0, by simp, by simp⟩

theorem Scaled.unit (n : ℤ) (k : ℕ) : Scaled n k 1 ((n : ℚ) / (2 : ℚ) ^ k) :=
  ⟨1, by simp, by simp⟩

theorem Scaled.neg {n : ℤ} {k : ℕ} {B : ℤ} {q : ℚ} (h : Scaled n k B q) : Scaled n k B (-q) :=
  h.elim fun j hj => ⟨-j, by rw [abs_neg]; exact hj.1, by rw [hj.2]; push_cast; ring⟩

theorem Scaled.add {n : ℤ} {k : ℕ} {B C : ℤ} {q r : ℚ} (h1 : Scaled n k B q)
    (h2 : Scaled n k C r) : Scaled n k (B + C) (q + r) :=
  h1.elim fun j hj => h2.elim fun i hi =>
    ⟨j + i, le_trans (abs_add j i) (add_le_add hj.1 hi.1), by
      rw [hj.2, hi.2]; push_cast; ring⟩

theorem Scaled.mul_int {n : ℤ} {k : ℕ} {B : ℤ} {q : ℚ} (h : Scaled n k B q) (a : ℤ) :
    Scaled n k (B * |a|) (q * (a : ℚ)) :=
  h.elim fun j hj =>
    ⟨j * a, by rw [abs_mul]; exact mul_le_mul_of_nonneg_right hj.1 (abs_nonneg a), by
      rw [hj.2]; push_cast; ring⟩

theorem Scaled.int_mul {n : ℤ} {k : ℕ} {B : ℤ} {q : ℚ} (h : Scaled n k B q) (a : ℤ) :
    Scaled n k (B * |a|) ((a : ℚ) * q) := by
  rw [mul_comm (a : ℚ) q]; exact h.mul_int a

theorem Scaled.roundTo_eq {n : ℤ} {k : ℕ} {B : ℤ} {q : ℚ} (h : Scaled n k B q)
    (p : ℕ) (emin : ℤ) (hn : 0 ≤ n) (hB : n * B < 2 ^ p) (hk : emin - ((p : ℤ) - 1) ≤ -(k : ℤ)) :
    roundTo p emin q = q := by
  refine h.elim fun j hj => ?_
  have hq : q = ((n * j : ℤ) : ℚ) * (2 : ℚ) ^ (-(k : ℤ)) := by
    rw [hj.2, zpow_neg, zpow_natCast]
    rfl
  rw [hq]
  apply roundTo_exact _ _ _ _ _ hk
  rw [abs_mul, abs_of_nonneg hn]
  exact lt_of_le_of_lt (mul_le_mul_of_nonneg_left hj.1 hn) hB

theorem Scaled.roundFloat_eq {n : ℤ} {k : ℕ} {B : ℤ} {q : ℚ} (h : Scaled n k B q)
    (hn : 0 ≤ n) (hB : n * B < 2 ^ 24) (hk : k ≤ 149) : roundFloat q = q :=
  h.roundTo_eq 24 (-126) hn hB (by push_cast; omega)

theorem Scaled.roundDouble_eq {n : ℤ} {k : ℕ} {B : ℤ} {q : ℚ} (h : Scaled n k B q)
    (hn : 0 ≤ n) (hB : n * B < 2 ^ 53) (hk : k ≤ 1074) : roundDouble q = q :=
  h.roundTo_eq 53 (-1022) hn hB (by push_cast; omega)

theorem roundFloat_intCast (a : ℤ) (ha : |a| < 2 ^ 24) : roundFloat (a : ℚ) = a := by
  have := roundTo_exact 24 (-126) a 0 ha (by norm_num)
  simpa [roundFloat] using this

theorem scaled_bound {n X Y c : ℤ} (hn : 0 ≤ n) (hXY : X ≤ Y) (h : n * Y < c) : n * X < c :=
  lt_of_le_of_lt (mul_le_mul_of_nonneg_left hXY hn) h

theorem ScaledMatrix.widen {n : ℤ} {k : ℕ} {D E : ℤ} {m : QMatrix4x4}
    (h : ScaledMatrix n k D m) (hDE : D ≤ E) : ScaledMatrix n k E m :=
  ⟨h.1, h.2.1, h.2.2.1, h.2.2.2.1, h.2.2.2.2.1.enlarge hDE, h.2.2.2.2.2.enlarge hDE⟩

theorem QMatrix4x4.translate_exact {n : ℤ} {k : ℕ} {D : ℤ} {m : QMatrix4x4}
    (hm : ScaledMatrix n k D m) (x y : ℚ) (a b : ℤ) (hx : x = (a : ℚ)) (hy : y = (b : ℚ))
    (hn : 0 < n) (hk : k ≤ 149) (hB : n * (D + |a| + |b|) < 2 ^ 24) :
    m.translate (roundFloat x) (roundFloat y) = m.translateExact x y ∧
    ScaledMatrix n k (D + |a| + |b|) (m.translateExact x y) := by
  have hD : 0 ≤ D := hm.2.2.2.2.1.nonneg
  have ha0 := abs_nonneg a
  have hb0 := abs_nonneg b
  have hn0 : 0 ≤ n := hn.le
  have hn1 : 1 ≤ n := hn
  have hsmall : ∀ X : ℤ, 0 ≤ X → X ≤ D + |a| + |b| → X < 2 ^ 24 := by
    intro X hX0 hX
    have h1 : X ≤ n * X := by nlinarith
    have h2 : n * X ≤ n * (D + |a| + |b|) := mul_le_mul_of_nonneg_left hX hn0
    omega
  have hra : roundFloat x = x := by
    rw [hx]; exact roundFloat_intCast a (hsmall _ ha0 (by omega))
  have hrb : roundFloat y = y := by
    rw [hy]; exact roundFloat_intCast b (hsmall _ hb0 (by omega))
  have key : ∀ (p q d : ℚ), Scaled n k 1 p → Scaled n k 1 q → Scaled n k D d →
      roundFloat (d + roundFloat (roundFloat (p * x) + roundFloat (q * y))) = d + p * x + q * y ∧
      Scaled n k (D + |a| + |b|) (d + p * x + q * y) := by
    intro p q d hp hq hd
    have s1 : Scaled n k (1 * |a|) (p * x) := by rw [hx]; exact hp.mul_int a
    have s2 : Scaled n k (1 * |b|) (q * y) := by rw [hy]; exact hq.mul_int b
    have s3 := s1.add s2
    have s4 := hd.add s3
    have e1 := s1.roundFloat_eq hn0 (scaled_bound hn0 (by omega) hB) hk
    have e2 := s2.roundFloat_eq hn0 (scaled_bound hn0 (by omega) hB) hk
    have e3 := s3.roundFloat_eq hn0 (scaled_bound hn0 (by omega) hB) hk
    have e4 := s4.roundFloat_eq hn0 (scaled_bound hn0 (by omega) hB) hk
    rw [e1, e2, e3, e4]
    refine ⟨by ring, ?_⟩
    have : d + p * x + q * y = d + (p * x + q * y) := by ring
    rw [this]
    exact s4.enlarge (by omega)
  have kx := key m.m11 m.m12 m.dx hm.1 hm.2.1 hm.2.2.2.2.1
  have ky := key m.m21 m.m22 m.dy hm.2.2.1 hm.2.2.2.1 hm.2.2.2.2.2
  refine ⟨?_, hm.1, hm.2.1, hm.2.2.1, hm.2.2.2.1, kx.2, ky.2⟩
  simp only [QMatrix4x4.translate, QMatrix4x4.translateExact, hra, hrb, kx.1, ky.1]

theorem QMatrix4x4.rotate_exact {n : ℤ} {k : ℕ} {D : ℤ} {m : QMatrix4x4}
    (hm : ScaledMatrix n k D m) (angle : ℤ)
    (hangle : angle = -90 ∨ angle = -180 ∨ angle = -270)
    (hn : 0 ≤ n) (hn24 : n < 2 ^ 24) (hk : k ≤ 149) :
    m.rotate angle = m.rotateExact angle ∧ ScaledMatrix n k D (m.rotateExact angle) := by
  have hone : n * 1 < 2 ^ 24 := by omega
  have r11 := hm.1.roundFloat_eq hn hone hk
  have r12 := hm.2.1.roundFloat_eq hn hone hk
  have r21 := hm.2.2.1.roundFloat_eq hn hone hk
  have r22 := hm.2.2.2.1.roundFloat_eq hn hone hk
  have n11 := hm.1.neg.roundFloat_eq hn hone hk
  have n12 := hm.2.1.neg.roundFloat_eq hn hone hk
  have n21 := hm.2.2.1.neg.roundFloat_eq hn hone hk
  have n22 := hm.2.2.2.1.neg.roundFloat_eq hn hone hk
  rcases hangle with h | h | h <;> subst h
  · have hsc : rotateSinCos (-90) = (-1, 0) := by decide
    refine ⟨?_, ?_⟩
    · simp only [QMatrix4x4.rotate, QMatrix4x4.rotateExact, hsc, mul_zero, mul_neg, mul_one,
        roundFloat_zero, zero_add, zero_sub, neg_neg, n11, n12, n21, n22, r11, r12, r21, r22,
        sub_neg_eq_add]
    · simp only [QMatrix4x4.rotateExact, hsc, mul_zero, mul_neg, mul_one, zero_add, zero_sub,
        neg_neg, sub_neg_eq_add]
      exact ⟨hm.2.1.neg, hm.1, hm.2.2.2.1.neg, hm.2.2.1, hm.2.2.2.2.1, hm.2.2.2.2.2⟩
  · have hsc : rotateSinCos (-180) = (0, -1) := by decide
    refine ⟨?_, ?_⟩
    · simp only [QMatrix4x4.rotate, QMatrix4x4.rotateExact, hsc, mul_zero, mul_neg, mul_one,
        roundFloat_zero, add_zero, sub_zero, neg_neg, n11, n12, n21, n22, r11, r12, r21, r22]
    · simp only [QMatrix4x4.rotateExact, hsc, mul_zero, mul_neg, mul_one, add_zero, sub_zero]
      exact ⟨hm.1.neg, hm.2.1.neg, hm.2.2.1.neg, hm.2.2.2.1.neg, hm.2.2.2.2.1, hm.2.2.2.2.2⟩
  · have hsc : rotateSinCos (-270) = (1, 0) := by decide
    refine ⟨?_, ?_⟩
    · simp only [QMatrix4x4.rotate, QMatrix4x4.rotateExact, hsc, mul_zero, mul_one,
        roundFloat_zero, zero_add, zero_sub, n11, n12, n21, n22, r11, r12, r21, r22]
    · simp only [QMatrix4x4.rotateExact, hsc, mul_zero, mul_one, zero_add, zero_sub]
      exact ⟨hm.2.1, hm.1.neg, hm.2.2.2.1, hm.2.2.1.neg, hm.2.2.2.2.1, hm.2.2.2.2.2⟩

theorem QMatrix4x4.scale_flip_exact {n : ℤ} {k : ℕ} {D : ℤ} {m : QMatrix4x4}
    (hm : ScaledMatrix n k D m) (hn : 0 ≤ n) (hn24 : n < 2 ^ 24) (hk : k ≤ 149) :
    m.scale (-1) 1 = m.scaleExact (-1) 1 ∧ ScaledMatrix n k D (m.scaleExact (-1) 1) := by
  have hone : n * 1 < 2 ^ 24 := by omega
  have r12 := hm.2.1.roundFloat_eq hn hone hk
  have r22 := hm.2.2.2.1.roundFloat_eq hn hone hk
  have n11 := hm.1.neg.roundFloat_eq hn hone hk
  have n21 := hm.2.2.1.neg.roundFloat_eq hn hone hk
  refine ⟨?_, ?_⟩
  · simp only [QMatrix4x4.scale, QMatrix4x4.scaleExact, mul_neg, mul_one, n11, n21, r12, r22]
  · simp only [QMatrix4x4.scaleExact, mul_neg, mul_one]
    exact ⟨hm.1.neg, hm.2.1, hm.2.2.1.neg, hm.2.2.2.1, hm.2.2.2.2.1, hm.2.2.2.2.2⟩

theorem QMatrix4x4.scale_init_exact (n : ℤ) (k : ℕ) (hn : 0 ≤ n) (hn24 : n < 2 ^ 24)
    (hk : k ≤ 149) :
    ({} : QMatrix4x4).scale (roundFloat ((n : ℚ) / 2 ^ k)) (roundFloat ((n : ℚ) / 2 ^ k)) =
      ({} : QMatrix4x4).scaleExact ((n : ℚ) / 2 ^ k) ((n : ℚ) / 2 ^ k) ∧
    ScaledMatrix n k 0
      (({} : QMatrix4x4).scaleExact ((n : ℚ) / 2 ^ k) ((n : ℚ) / 2 ^ k)) := by
  have hone : n * 1 < 2 ^ 24 := by omega
  have rs := (Scaled.unit n k).roundFloat_eq hn hone hk
  refine ⟨?_, ?_⟩
  · simp only [QMatrix4x4.scale, QMatrix4x4.scaleExact, one_mul, zero_mul, roundFloat_zero, rs]
  · simp only [QMatrix4x4.scaleExact, one_mul, zero_mul]
    exact ⟨Scaled.unit n k, (Scaled.zero n k).enlarge (by norm_num),
      (Scaled.zero n k).enlarge (by norm_num), Scaled.unit n k, Scaled.zero n k, Scaled.zero n k⟩

theorem QMatrix4x4.map_exact {n : ℤ} {k : ℕ} {D : ℤ} {m : QMatrix4x4}
    (hm : ScaledMatrix n k D m) (X Y : ℤ) (hn : 0 ≤ n) (hk : k ≤ 1074)
    (hB : n * (|X| + |Y| + D) < 2 ^ 53) :
    m.map ⟨(X : ℚ), (Y : ℚ)⟩ = m.mapExact ⟨(X : ℚ), (Y : ℚ)⟩ := by
  have hD : 0 ≤ D := hm.2.2.2.2.1.nonneg
  have hX0 := abs_nonneg X
  have hY0 := abs_nonneg Y
  have key : ∀ (p q d : ℚ), Scaled n k 1 p → Scaled n k 1 q → Scaled n k D d →
      roundDouble (roundDouble (roundDouble ((X : ℚ) * p) + roundDouble ((Y : ℚ) * q)) + d)
        = p * X + q * Y + d := by
    intro p q d hp hq hd
    have s1 : Scaled n k (1 * |X|) ((X : ℚ) * p) := hp.int_mul X
    have s2 : Scaled n k (1 * |Y|) ((Y : ℚ) * q) := hq.int_mul Y
    have s3 := s1.add s2
    have s4 := s3.add hd
    have e1 := s1.roundDouble_eq hn (scaled_bound hn (by omega) hB) hk
    have e2 := s2.roundDouble_eq hn (scaled_bound hn (by omega) hB) hk
    have e3 := s3.roundDouble_eq hn (scaled_bound hn (by omega) hB) hk
    have e4 := s4.roundDouble_eq hn (scaled_bound hn (by omega) hB) hk
    rw [e1, e2, e3, e4]
    ring
  simp only [QMatrix4x4.map, QMatrix4x4.mapExact,
    key m.m11 m.m12 m.dx hm.1 hm.2.1 hm.2.2.2.2.1,
    key m.m21 m.m22 m.dy hm.2.2.1 hm.2.2.2.1 hm.2.2.2.2.2]

theorem rotationSwitch_exact {n : ℤ} {k : ℕ} {m : QMatrix4x4} (hm : ScaledMatrix n k 0 m)
    (rect : QRect) (t : Transform) (hn : 0 < n) (hk : k ≤ 149)
    (hB : n * (|rect.width| + |rect.height| + 1) < 2 ^ 24) :
    rotationSwitch m rect t = rotationSwitchExact m rect t ∧
    ScaledMatrix n k (|rect.width| + |rect.height|) (rotationSwitchExact m rect t) := by
  have hw0 := abs_nonneg rect.width
  have hh0 := abs_nonneg rect.height
  have hn0 : 0 ≤ n := hn.le
  have hn24 : n < 2 ^ 24 := by nlinarith
  have h90 := QMatrix4x4.translate_exact hm 0 (rect.width : ℚ) 0 rect.width (by simp) rfl hn hk
    (scaled_bound hn0 (by simp; omega) hB)
  have h180 := QMatrix4x4.translate_exact hm (rect.width : ℚ) (rect.height : ℚ)
    rect.width rect.height rfl rfl hn hk (scaled_bound hn0 (by omega) hB)
  have h270 := QMatrix4x4.translate_exact hm (rect.height : ℚ) 0 rect.height 0 rfl (by simp)
    hn hk (scaled_bound hn0 (by simp; omega) hB)
  rw [roundFloat_zero] at h90 h270
  have r90 := QMatrix4x4.rotate_exact h90.2 (-90) (Or.inl rfl) hn0 hn24 hk
  have r180 := QMatrix4x4.rotate_exact h180.2 (-180) (Or.inr (Or.inl rfl)) hn0 hn24 hk
  have r270 := QMatrix4x4.rotate_exact h270.2 (-270) (Or.inr (Or.inr rfl)) hn0 hn24 hk
  cases t
  · exact ⟨rfl, hm.widen (by omega)⟩
  · exact ⟨by simp only [rotationSwitch, rotationSwitchExact, h90.1, r90.1],
      r90.2.widen (by simp)⟩
  · exact ⟨by simp only [rotationSwitch, rotationSwitchExact, h180.1, r180.1],
      r180.2.widen (by omega)⟩
  · exact ⟨by simp only [rotationSwitch, rotationSwitchExact, h270.1, r270.1],
      r270.2.widen (by simp)⟩
  · exact ⟨rfl, hm.widen (by omega)⟩
  · exact ⟨by simp only [rotationSwitch, rotationSwitchExact, h90.1, r90.1],
      r90.2.widen (by simp)⟩
  · exact ⟨by simp only [rotationSwitch, rotationSwitchExact, h180.1, r180.1],
      r180.2.widen (by omega)⟩
  · exact ⟨by simp only [rotationSwitch, rotationSwitchExact, h270.1, r270.1],
      r270.2.widen (by simp)⟩

theorem flipSwitch_exact {n : ℤ} {k : ℕ} {D : ℤ} {m : QMatrix4x4} (hm : ScaledMatrix n k D m)
    (rect : QRect) (t : Transform) (hn : 0 < n) (hk : k ≤ 149)
    (hB : n * (D + |rect.width| + 1) < 2 ^ 24) :
    flipSwitch m rect t = flipSwitchExact m rect t ∧
    ScaledMatrix n k (D + |rect.width|) (flipSwitchExact m rect t) := by
  have hw0 := abs_nonneg rect.width
  have hD : 0 ≤ D := hm.2.2.2.2.1.nonneg
  have hn0 : 0 ≤ n := hn.le
  have hn24 : n < 2 ^ 24 := by nlinarith
  have ht := QMatrix4x4.translate_exact hm (rect.width : ℚ) 0 rect.width 0 rfl (by simp) hn hk
    (scaled_bound hn0 (by simp) hB)
  rw [roundFloat_zero] at ht
  have hs := QMatrix4x4.scale_flip_exact ht.2 hn0 hn24 hk
  cases t
  · exact ⟨rfl, hm.widen (by omega)⟩
  · exact ⟨rfl, hm.widen (by omega)⟩
  · exact ⟨rfl, hm.widen (by omega)⟩
  · exact ⟨rfl, hm.widen (by omega)⟩
  · exact ⟨by simp only [flipSwitch, flipSwitchExact, ht.1, hs.1], hs.2.widen (by simp)⟩
  · exact ⟨by simp only [flipSwitch, flipSwitchExact, ht.1, hs.1], hs.2.widen (by simp)⟩
  · exact ⟨by simp only [flipSwitch, flipSwitchExact, ht.1, hs.1], hs.2.widen (by simp)⟩
  · exact ⟨by simp only [flipSwitch, flipSwitchExact, ht.1, hs.1], hs.2.widen (by simp)⟩

theorem logicalToNativeMatrix_exact (rect : QRect) (n : ℤ) (k : ℕ) (t : Transform)
    (hn : 0 < n) (hk : k ≤ 149)
    (hB : n * (2 * (|rect.width| + |rect.height|) + |rect.x| + |rect.y| + 1) < 2 ^ 24) :
    logicalToNativeMatrix rect ((n : ℚ) / 2 ^ k) t = exactMatrix rect ((n : ℚ) / 2 ^ k) t ∧
    ScaledMatrix n k (2 * (|rect.width| + |rect.height|) + |rect.x| + |rect.y|)
      (exactMatrix rect ((n : ℚ) / 2 ^ k) t) := by
  have hw0 := abs_nonneg rect.width
  have hh0 := abs_nonneg rect.height
  have hx0 := abs_nonneg rect.x
  have hy0 := abs_nonneg rect.y
  have hn0 : 0 ≤ n := hn.le
  have hn24 : n < 2 ^ 24 := by nlinarith
  have h0 := QMatrix4x4.scale_init_exact n k hn0 hn24 hk
  have h1 := rotationSwitch_exact h0.2 rect t hn hk (scaled_bound hn0 (by omega) hB)
  have h2 := flipSwitch_exact h1.2 rect t hn hk (scaled_bound hn0 (by omega) hB)
  have h3 := QMatrix4x4.translate_exact h2.2 (-(rect.x : ℚ)) (-(rect.y : ℚ)) (-rect.x) (-rect.y)
    (by push_cast; rfl) (by push_cast; rfl) hn hk
    (scaled_bound hn0 (by rw [abs_neg, abs_neg]; omega) hB)
  refine ⟨?_, ?_⟩
  · simp only [logicalToNativeMatrix, exactMatrix, h0.1, h1.1, h2.1, h3.1]
  · simp only [exactMatrix]
    exact h3.2.widen (by rw [abs_neg, abs_neg]; omega)

theorem exactMatrix_map (rect : QRect) (s : ℚ) (t : Transform) (a b : ℚ) :
    (exactMatrix rect s t).mapExact ⟨(rect.x : ℚ) + a, (rect.y : ℚ) + b⟩ =
      match t with
      | Transform.Normal => ⟨s * a, s * b⟩
      | Transform.Rotated90 => ⟨s * b, s * ((rect.width : ℚ) - a)⟩
      | Transform.Rotated180 => ⟨s * ((rect.width : ℚ) - a), s * ((rect.height : ℚ) - b)⟩
      | Transform.Rotated270 => ⟨s * ((rect.height : ℚ) - b), s * a⟩
      | Transform.Flipped => ⟨s * ((rect.width : ℚ) - a), s * b⟩
      | Transform.Flipped90 => ⟨s * b, s * a⟩
      | Transform.Flipped180 => ⟨s * a, s * ((rect.height : ℚ) - b)⟩
      | Transform.Flipped270 => ⟨s * ((rect.height : ℚ) - b), s * ((rect.width : ℚ) - a)⟩ := by
  cases t <;>
    simp only [exactMatrix, rotationSwitchExact, flipSwitchExact, QMatrix4x4.mapExact,
      QMatrix4x4.translateExact, QMatrix4x4.scaleExact, QMatrix4x4.rotateExact, rotateSinCos,
      QPointF.mk.injEq] <;>
    norm_num <;> constructor <;> ring

theorem logicalToNativeMatrix_map (rect : QRect) (n : ℤ) (k : ℕ) (t : Transform)
    (hn : 0 < n) (hk : k ≤ 149)
    (hB : n * (2 * (|rect.width| + |rect.height|) + |rect.x| + |rect.y| + 1) < 2 ^ 24)
    (a b : ℤ) (ha : |a| ≤ |rect.width|) (hb : |b| ≤ |rect.height|) :
    (logicalToNativeMatrix rect ((n : ℚ) / 2 ^ k) t).map
        ⟨(rect.x : ℚ) + a, (rect.y : ℚ) + b⟩ =
      (exactMatrix rect ((n : ℚ) / 2 ^ k) t).mapExact
        ⟨(rect.x : ℚ) + a, (rect.y : ℚ) + b⟩ := by
  have hw0 := abs_nonneg rect.width
  have hh0 := abs_nonneg rect.height
  have hx0 := abs_nonneg rect.x
  have hy0 := abs_nonneg rect.y
  have hxa := abs_add rect.x a
  have hyb := abs_add rect.y b
  have hn0 : 0 ≤ n := hn.le
  have h := logicalToNativeMatrix_exact rect n k t hn hk hB
  rw [h.1]
  have hm := QMatrix4x4.map_exact h.2 (rect.x + a) (rect.y + b) hn0 (by omega) (by
    have h1 : n * (|rect.x + a| + |rect.y + b| +
        (2 * (|rect.width| + |rect.height|) + |rect.x| + |rect.y|)) ≤
        n * (3 * (2 * (|rect.width| + |rect.height|) + |rect.x| + |rect.y| + 1)) :=
      mul_le_mul_of_nonneg_left (by omega) hn0
    have h2 : n * (3 * (2 * (|rect.width| + |rect.height|) + |rect.x| + |rect.y| + 1)) =
        3 * (n * (2 * (|rect.width| + |rect.height|) + |rect.x| + |rect.y| + 1)) := by ring
    omega)
  push_cast at hm
  exact hm

theorem roundFloat_dyadic (n : ℤ) (z : ℕ) (hn : |n| < 2 ^ 24) (hz : z ≤ 149) :
    roundFloat ((n : ℚ) / 2 ^ z) = (n : ℚ) / 2 ^ z := by
  have h := roundTo_exact 24 (-126) n (-(z : ℤ)) hn (by push_cast; omega)
  rw [zpow_neg, zpow_natCast] at h
  exact h

theorem roundDouble_dyadic (n : ℤ) (z : ℕ) (hn : |n| < 2 ^ 53) (hz : z ≤ 1074) :
    roundDouble ((n : ℚ) / 2 ^ z) = (n : ℚ) / 2 ^ z := by
  have h := roundTo_exact 53 (-1022) n (-(z : ℤ)) hn (by push_cast; omega)
  rw [zpow_neg, zpow_natCast] at h
  exact h

theorem roundFloat_scale11 : roundFloat scale11 = 9227469 / 8388608 := by
  have h := roundTo_of_near 24 (-126) scale11 0 9227469
    (by norm_num [scale11, abs_of_pos]) (by norm_num [scale11, abs_of_pos]) (by norm_num)
    (by norm_num [scale11, abs_lt])
  rw [roundFloat, h]; norm_num

theorem roundFloat_float11 : roundFloat (9227469 / 8388608) = 9227469 / 8388608 := by
  have h := roundFloat_dyadic 9227469 23 (by norm_num) (by norm_num)
  norm_num at h ⊢
  exact h

theorem roundFloat_small_ints :
    roundFloat (-10) = -10 ∧ roundFloat (-20) = -20 ∧ roundFloat (-11) = -11 ∧
    roundFloat (-22) = -22 := by
  have h10 := roundFloat_intCast (-10) (by norm_num)
  have h20 := roundFloat_intCast (-20) (by norm_num)
  have h11 := roundFloat_intCast (-11) (by norm_num)
  have h22 := roundFloat_intCast (-22) (by norm_num)
  push_cast at h10 h20 h11 h22
  exact ⟨h10, h20, h11, h22⟩

theorem roundFloat_products11 :
    roundFloat (9227469 / 8388608 * -10) = -11 ∧
    roundFloat (9227469 / 8388608 * -20) = -22 := by
  have h1 := roundTo_of_near 24 (-126) (9227469 / 8388608 * -10) 3 (-11534336)
    (by norm_num [abs_of_neg]) (by norm_num [abs_of_neg]) (by norm_num)
    (by norm_num [abs_lt])
  have h2 := roundTo_of_near 24 (-126) (9227469 / 8388608 * -20) 4 (-11534336)
    (by norm_num [abs_of_neg]) (by norm_num [abs_of_neg]) (by norm_num)
    (by norm_num [abs_lt])
  refine ⟨?_, ?_⟩
  · rw [roundFloat, h1]; norm_num
  · rw [roundFloat, h2]; norm_num

theorem logicalToNativeMatrix_scale11 :
    logicalToNativeMatrix sampleRect scale11 Transform.Normal =
      { m11 := 9227469 / 8388608, m12 := 0, m21 := 0, m22 := 9227469 / 8388608,
        dx := -11, dy := -22 } := by
  simp only [logicalToNativeMatrix, rotationSwitch, flipSwitch, QMatrix4x4.scale,
    QMatrix4x4.translate, sampleRect, roundFloat_scale11, one_mul, zero_mul, roundFloat_zero,
    Int.cast_ofNat, zero_add, add_zero, roundFloat_float11, roundFloat_small_ints.1,
    roundFloat_small_ints.2.1, roundFloat_small_ints.2.2.1, roundFloat_small_ints.2.2.2,
    roundFloat_products11.1, roundFloat_products11.2]

theorem roundDouble_of_eq (q : ℚ) (n : ℤ) (z : ℕ) (hq : q = (n : ℚ) / 2 ^ z)
    (hn : |n| < 2 ^ 53) (hz : z ≤ 1074) : roundDouble q = q := by
  rw [hq]; exact roundDouble_dyadic n z hn hz

theorem map_topLeft_scale11 :
    (logicalToNativeMatrix sampleRect scale11 Transform.Normal).map
      sampleRect.topLeft.toPointF = ⟨2 / 8388608, 4 / 8388608⟩ := by
  have e1 := roundDouble_of_eq (10 * (9227469 / 8388608)) 92274690 23 (by norm_num)
    (by norm_num) (by norm_num)
  have e2 := roundDouble_of_eq (20 * (9227469 / 8388608)) 184549380 23 (by norm_num)
    (by norm_num) (by norm_num)
  have e3 := roundDouble_of_eq (10 * (9227469 / 8388608) + -11) 2 23 (by norm_num)
    (by norm_num) (by norm_num)
  have e4 := roundDouble_of_eq (20 * (9227469 / 8388608) + -22) 4 23 (by norm_num)
    (by norm_num) (by norm_num)
  rw [logicalToNativeMatrix_scale11]
  simp only [QMatrix4x4.map, sampleRect, QRect.topLeft, QPoint.toPointF, Int.cast_ofNat,
    mul_zero, roundDouble_zero, add_zero, zero_add, e1, e2, e3, e4, QPointF.mk.injEq]
  constructor <;> norm_num

theorem map_topRight_scale11 :
    (logicalToNativeMatrix sampleRect scale11 Transform.Normal).map ⟨110, 20⟩ =
      ⟨922746902 / 8388608, 4 / 8388608⟩ := by
  have e1 := roundDouble_of_eq (110 * (9227469 / 8388608)) 1015021590 23 (by norm_num)
    (by norm_num) (by norm_num)
  have e2 := roundDouble_of_eq (20 * (9227469 / 8388608)) 184549380 23 (by norm_num)
    (by norm_num) (by norm_num)
  have e3 := roundDouble_of_eq (110 * (9227469 / 8388608) + -11) 922746902 23 (by norm_num)
    (by norm_num) (by norm_num)
  have e4 := roundDouble_of_eq (20 * (9227469 / 8388608) + -22) 4 23 (by norm_num)
    (by norm_num) (by norm_num)
  rw [logicalToNativeMatrix_scale11]
  simp only [QMatrix4x4.map, mul_zero, roundDouble_zero, add_zero, zero_add, e1, e2, e3, e4,
    QPointF.mk.injEq]
  constructor <;> norm_num

theorem map_topLeft_scaleAboveOne :
    (logicalToNativeMatrix offsetRect scaleAboveOne Transform.Normal).map
      offsetRect.topLeft.toPointF = ⟨1 / 8388608, 0⟩ := by
  have f2 : roundFloat (8388609 / 8388608) = 8388609 / 8388608 := by
    have h := roundFloat_dyadic 8388609 23 (by norm_num) (by norm_num)
    norm_num at h ⊢
    exact h
  have f1 : roundFloat scaleAboveOne = 8388609 / 8388608 := by
    unfold scaleAboveOne; exact f2
  have f3 : roundFloat (-5) = -5 := by
    have h := roundFloat_intCast (-5) (by norm_num)
    push_cast at h
    exact h
  have f4 : roundFloat (8388609 / 8388608 * -5) = -(41943044 / 8388608) := by
    have h := roundTo_of_near 24 (-126) (8388609 / 8388608 * -5) 2 (-10485761)
      (by norm_num [abs_of_neg]) (by norm_num [abs_of_neg]) (by norm_num)
      (by norm_num [abs_lt])
    rw [roundFloat, h]; norm_num
  have f5 : roundFloat (-(41943044 / 8388608)) = -(41943044 / 8388608) := by
    have h := roundFloat_dyadic (-10485761) 21 (by norm_num) (by norm_num)
    norm_num at h ⊢
    exact h
  have hm : logicalToNativeMatrix offsetRect scaleAboveOne Transform.Normal =
      { m11 := 8388609 / 8388608, m12 := 0, m21 := 0, m22 := 8388609 / 8388608,
        dx := -(41943044 / 8388608), dy := 0 } := by
    simp only [logicalToNativeMatrix, rotationSwitch, flipSwitch, QMatrix4x4.scale,
      QMatrix4x4.translate, offsetRect, f1, f2, f3, f4, f5, one_mul, zero_mul, roundFloat_zero,
      Int.cast_ofNat, Int.cast_zero, neg_zero, mul_zero, zero_add, add_zero]
  have e1 := roundDouble_of_eq (5 * (8388609 / 8388608)) 41943045 23 (by norm_num)
    (by norm_num) (by norm_num)
  have e2 := roundDouble_of_eq (5 * (8388609 / 8388608) + -(41943044 / 8388608)) 1 23
    (by norm_num) (by norm_num) (by norm_num)
  rw [hm]
  simp only [QMatrix4x4.map, offsetRect, QRect.topLeft, QPoint.toPointF, Int.cast_ofNat,
    Int.cast_zero, mul_zero, zero_mul, roundDouble_zero, add_zero, zero_add, e1, e2,
    QPointF.mk.injEq]
  constructor <;> norm_num

/-- C17 (amended): for a rectangle with integer coordinates and a positive scale
`n / 2 ^ k` (`k` at most 149) with `n * (2 * (|w| + |h|) + |x| + |y| + 1) < 2 ^ 24`, so
that no `float` operation of the construction rounds, `logicalToNativeMatrix` maps the
rectangle's top-left point to a corner of the native rectangle: the origin for Normal
and Flipped90, `(0, s * w)` for Rotated90, `(s * w, s * h)` for Rotated180,
`(s * h, 0)` for Rotated270, `(s * w, 0)` for Flipped, `(0, s * h)` for Flipped180 and
`(s * h, s * w)` for Flipped270. -/
theorem logicalToNativeMatrix_topLeft (rect : QRect) (n : ℤ) (k : ℕ) (t : Transform)
    (hn : 0 < n) (hk : k ≤ 149)
    (hB : n * (2 * (|rect.width| + |rect.height|) + |rect.x| + |rect.y| + 1) < 2 ^ 24) :
    (logicalToNativeMatrix rect ((n : ℚ) / 2 ^ k) t).map rect.topLeft.toPointF =
      match t with
      | Transform.Normal => ⟨0, 0⟩
      | Transform.Rotated90 => ⟨0, (n : ℚ) / 2 ^ k * rect.width⟩
      | Transform.Rotated180 => ⟨(n : ℚ) / 2 ^ k * rect.width, (n : ℚ) / 2 ^ k * rect.height⟩
      | Transform.Rotated270 => ⟨(n : ℚ) / 2 ^ k * rect.height, 0⟩
      | Transform.Flipped => ⟨(n : ℚ) / 2 ^ k * rect.width, 0⟩
      | Transform.Flipped90 => ⟨0, 0⟩
      | Transform.Flipped180 => ⟨0, (n : ℚ) / 2 ^ k * rect.height⟩
      | Transform.Flipped270 =>
          ⟨(n : ℚ) / 2 ^ k * rect.height, (n : ℚ) / 2 ^ k * rect.width⟩ := by
  have h := (logicalToNativeMatrix_map rect n k t hn hk hB 0 0 (by simp) (by simp)).trans
    (exactMatrix_map rect ((n : ℚ) / 2 ^ k) t _ _)
  simp only [Int.cast_zero, add_zero] at h
  show (logicalToNativeMatrix rect ((n : ℚ) / 2 ^ k) t).map ⟨(rect.x : ℚ), (rect.y : ℚ)⟩ = _
  rw [h]
  cases t <;> simp

/-- Witness of the amended C17: the rectangle 100x50 at (10, 20) under the scale 3/2
and Rotated180 has its top-left point mapped to (150, 75). -/
theorem logicalToNativeMatrix_topLeft_witness :
    (logicalToNativeMatrix sampleRect (((3 : ℤ) : ℚ) / 2 ^ 1) Transform.Rotated180).map
      sampleRect.topLeft.toPointF = ⟨150, 75⟩ :=
  (logicalToNativeMatrix_topLeft sampleRect 3 1 Transform.Rotated180 (by norm_num) (by norm_num)
    (by norm_num [sampleRect])).trans (by norm_num [sampleRect])

/-- Counterexample to C17.  For the rectangle 100x50 at (10, 20), scale 1 and the
transform Rotated90 the top-left point is mapped to (0, 100), not to the origin.  For
the same rectangle, the transform Normal and the scale 1.1 (as a `double`), which is
not a `float`, the top-left point is mapped to (2 / 2^23, 4 / 2^23); and for the
rectangle 1x1 at (5, 0) and the scale 1 + 2^(-23), which is a `float`, to
(1 / 2^23, 0): the products of the scale with the coordinates are rounded. -/
theorem logicalToNativeMatrix_topLeft_not_origin :
    (logicalToNativeMatrix sampleRect 1 Transform.Rotated90).map sampleRect.topLeft.toPointF
      = ⟨0, 100⟩ ∧
    (logicalToNativeMatrix sampleRect 1 Transform.Rotated90).map sampleRect.topLeft.toPointF
      ≠ ⟨0, 0⟩ ∧
    (logicalToNativeMatrix sampleRect scale11 Transform.Normal).map
      sampleRect.topLeft.toPointF = ⟨2 / 8388608, 4 / 8388608⟩ ∧
    (logicalToNativeMatrix offsetRect scaleAboveOne Transform.Normal).map
      offsetRect.topLeft.toPointF = ⟨1 / 8388608, 0⟩ := by
  have h : (logicalToNativeMatrix sampleRect 1 Transform.Rotated90).map
      sampleRect.topLeft.toPointF = ⟨0, 100⟩ := by
    have h1 := (logicalToNativeMatrix_map sampleRect 1 0 Transform.Rotated90 (by norm_num)
      (by norm_num) (by norm_num [sampleRect]) 0 0 (by simp) (by simp)).trans
      (exactMatrix_map sampleRect _ Transform.Rotated90 _ _)
    norm_num [sampleRect] at h1
    simpa [sampleRect, QRect.topLeft, QPoint.toPointF] using h1
  refine ⟨h, ?_, map_topLeft_scale11, map_topLeft_scaleAboveOne⟩
  rw [h]
  simp

theorem corners_expand (rect : QRect) :
    rect.corners =
      [⟨(rect.x : ℚ) + 0, (rect.y : ℚ) + 0⟩, ⟨(rect.x : ℚ) + rect.width, (rect.y : ℚ) + 0⟩,
       ⟨(rect.x : ℚ) + 0, (rect.y : ℚ) + rect.height⟩,
       ⟨(rect.x : ℚ) + rect.width, (rect.y : ℚ) + rect.height⟩] := by
  simp [QRect.corners]

/-- C18 (amended): for a rectangle of non-negative width and height and a positive
scale `s = n / 2 ^ k` (`k` at most 149) with
`n * (2 * (w + h) + |x| + |y| + 1) < 2 ^ 24`, so that no `float` operation of the
construction rounds, under each of the eight transforms `logicalToNativeMatrix` maps
the four corners of the rectangle into `[0, s * W] x [0, s * H]`, each onto a corner
of that native rectangle, and every corner of the native rectangle is the image of
one of them; `(W, H)` is `(w, h)` for the 0 and 180 degree variants and `(h, w)` for
the 90 and 270 degree variants. -/
theorem logicalToNativeMatrix_corners (rect : QRect) (n : ℤ) (k : ℕ) (t : Transform)
    (hw : 0 ≤ rect.width) (hh : 0 ≤ rect.height) (hn : 0 < n) (hk : k ≤ 149)
    (hB : n * (2 * (|rect.width| + |rect.height|) + |rect.x| + |rect.y| + 1) < 2 ^ 24) :
    (∀ p ∈ rect.corners,
      0 ≤ ((logicalToNativeMatrix rect ((n : ℚ) / 2 ^ k) t).map p).x ∧
      ((logicalToNativeMatrix rect ((n : ℚ) / 2 ^ k) t).map p).x ≤
        (n : ℚ) / 2 ^ k * (nativeExtent rect t).1 ∧
      0 ≤ ((logicalToNativeMatrix rect ((n : ℚ) / 2 ^ k) t).map p).y ∧
      ((logicalToNativeMatrix rect ((n : ℚ) / 2 ^ k) t).map p).y ≤
        (n : ℚ) / 2 ^ k * (nativeExtent rect t).2) ∧
    (∀ p ∈ rect.corners, (logicalToNativeMatrix rect ((n : ℚ) / 2 ^ k) t).map p ∈
      nativeCorners ((n : ℚ) / 2 ^ k * (nativeExtent rect t).1)
        ((n : ℚ) / 2 ^ k * (nativeExtent rect t).2)) ∧
    (∀ q ∈ nativeCorners ((n : ℚ) / 2 ^ k * (nativeExtent rect t).1)
        ((n : ℚ) / 2 ^ k * (nativeExtent rect t).2),
      ∃ p ∈ rect.corners, (logicalToNativeMatrix rect ((n : ℚ) / 2 ^ k) t).map p = q) := by
  have hs : (0 : ℚ) < (n : ℚ) / 2 ^ k := by
    apply div_pos
    · exact_mod_cast hn
    · positivity
  generalize hsdef : (n : ℚ) / 2 ^ k = s at hs
  have hW : (0 : ℚ) ≤ rect.width := by exact_mod_cast hw
  have hH : (0 : ℚ) ≤ rect.height := by exact_mod_cast hh
  have hsW : 0 ≤ s * (rect.width : ℚ) := mul_nonneg hs.le hW
  have hsH : 0 ≤ s * (rect.height : ℚ) := mul_nonneg hs.le hH
  have key : ∀ a b : ℤ, |a| ≤ |rect.width| → |b| ≤ |rect.height| →
      (logicalToNativeMatrix rect s t).map ⟨(rect.x : ℚ) + a, (rect.y : ℚ) + b⟩ =
        (exactMatrix rect s t).mapExact ⟨(rect.x : ℚ) + a, (rect.y : ℚ) + b⟩ := by
    intro a b ha hb
    rw [← hsdef]
    exact logicalToNativeMatrix_map rect n k t hn hk hB a b ha hb
  have h00 := (key 0 0 (by simp) (by simp)).trans (exactMatrix_map rect s t _ _)
  have h10 := (key rect.width 0 le_rfl (by simp)).trans (exactMatrix_map rect s t _ _)
  have h01 := (key 0 rect.height (by simp) le_rfl).trans (exactMatrix_map rect s t _ _)
  have h11 := (key rect.width rect.height le_rfl le_rfl).trans (exactMatrix_map rect s t _ _)
  simp only [Int.cast_zero] at h00 h10 h01
  rw [corners_expand]
  simp only [List.mem_cons, List.mem_singleton, List.not_mem_nil, or_false, forall_eq_or_imp,
    forall_eq, exists_eq_or_imp, exists_eq_left, h00, h10, h01, h11, nativeCorners]
  cases t <;>
    simp [nativeExtent, Transform.swapsAxes, hsW, hsH]

/-- Witness of the amended C18: the top-left corner of the rectangle 100x50 at
(10, 20) under scale 2 and Rotated90 lands inside the native rectangle, on one of its
corners. -/
theorem logicalToNativeMatrix_corners_witness :
    (0 ≤ ((logicalToNativeMatrix sampleRect (((2 : ℤ) : ℚ) / 2 ^ 0) Transform.Rotated90).map
        sampleRect.topLeft.toPointF).x ∧
      ((logicalToNativeMatrix sampleRect (((2 : ℤ) : ℚ) / 2 ^ 0) Transform.Rotated90).map
        sampleRect.topLeft.toPointF).x ≤
          ((2 : ℤ) : ℚ) / 2 ^ 0 * (nativeExtent sampleRect Transform.Rotated90).1 ∧
      0 ≤ ((logicalToNativeMatrix sampleRect (((2 : ℤ) : ℚ) / 2 ^ 0) Transform.Rotated90).map
        sampleRect.topLeft.toPointF).y ∧
      ((logicalToNativeMatrix sampleRect (((2 : ℤ) : ℚ) / 2 ^ 0) Transform.Rotated90).map
        sampleRect.topLeft.toPointF).y ≤
          ((2 : ℤ) : ℚ) / 2 ^ 0 * (nativeExtent sampleRect Transform.Rotated90).2) ∧
    (logicalToNativeMatrix sampleRect (((2 : ℤ) : ℚ) / 2 ^ 0) Transform.Rotated90).map
        sampleRect.topLeft.toPointF ∈
      nativeCorners (((2 : ℤ) : ℚ) / 2 ^ 0 * (nativeExtent sampleRect Transform.Rotated90).1)
        (((2 : ℤ) : ℚ) / 2 ^ 0 * (nativeExtent sampleRect Transform.Rotated90).2) :=
  ⟨(logicalToNativeMatrix_corners sampleRect 2 0 Transform.Rotated90 (by decide) (by decide)
      (by norm_num) (by norm_num) (by norm_num [sampleRect])).1
      sampleRect.topLeft.toPointF (List.mem_cons_self _ _),
   (logicalToNativeMatrix_corners sampleRect 2 0 Transform.Rotated90 (by decide) (by decide)
      (by norm_num) (by norm_num) (by norm_num [sampleRect])).2.1
      sampleRect.topLeft.toPointF (List.mem_cons_self _ _)⟩

/-- Counterexample to C18: for the rectangle 100x50 at (10, 20), the transform Normal
and the positive scale 1.1 (as a `double`) the corner (110, 20) is mapped to
(922746902 / 2^23, 4 / 2^23), about (110.0000026, 0.0000005): its x coordinate
exceeds `s * W`, and the image is no corner of the native rectangle. -/
theorem logicalToNativeMatrix_corner_outside :
    (⟨110, 20⟩ : QPointF) ∈ sampleRect.corners ∧
    0 ≤ sampleRect.width ∧ 0 ≤ sampleRect.height ∧ 0 < scale11 ∧
    (logicalToNativeMatrix sampleRect scale11 Transform.Normal).map ⟨110, 20⟩ =
      ⟨922746902 / 8388608, 4 / 8388608⟩ ∧
    scale11 * (nativeExtent sampleRect Transform.Normal).1 < 922746902 / 8388608 ∧
    (⟨922746902 / 8388608, 4 / 8388608⟩ : QPointF) ∉
      nativeCorners (scale11 * (nativeExtent sampleRect Transform.Normal).1)
        (scale11 * (nativeExtent sampleRect Transform.Normal).2) := by
  refine ⟨?_, by decide, by decide, by norm_num [scale11], map_topRight_scale11, ?_, ?_⟩
  · norm_num [QRect.corners, sampleRect]
  · norm_num [scale11, nativeExtent, Transform.swapsAxes, sampleRect]
  · norm_num [scale11, nativeCorners, nativeExtent, Transform.swapsAxes, sampleRect]

theorem qRound_eq (d : ℚ) (m n : ℤ) (z : ℕ) (h0 : 0 ≤ d) (hd : d + 1 / 2 = (n : ℚ) / 2 ^ z)
    (hn : |n| < 2 ^ 53) (hz : z ≤ 1074) (hm1 : (m : ℚ) ≤ d + 1 / 2) (hm2 : d + 1 / 2 < m + 1) :
    qRound d = m := by
  unfold qRound truncToInt
  rw [if_pos h0, roundDouble_of_eq _ n z hd hn hz, if_pos (by linarith)]
  exact Int.floor_eq_iff.mpr ⟨hm1, hm2⟩

theorem divide_exact (s : QSize) (c : ℚ) (w h : ℤ) (hc : c ≠ 0)
    (hw0 : 0 ≤ w) (hw : w < 2 ^ 31) (hh0 : 0 ≤ h) (hh : h < 2 ^ 31)
    (hsw : (s.width : ℚ) = w * c) (hsh : (s.height : ℚ) = h * c) :
    s.divide c = ⟨w, h⟩ := by
  have key : ∀ (x v : ℤ), 0 ≤ v → v < 2 ^ 31 → (x : ℚ) = v * c →
      qRound (roundDouble ((x : ℚ) / c)) = v := by
    intro x v hv0 hv hx
    have hq : (x : ℚ) / c = v := by rw [hx]; field_simp
    rw [hq, roundDouble_of_eq (v : ℚ) v 0 (by simp) (by rw [abs_of_nonneg hv0]; omega)
      (by norm_num)]
    have hv0' : (0 : ℚ) ≤ v := by exact_mod_cast hv0
    refine qRound_eq (v : ℚ) v (2 * v + 1) 1 hv0' (by push_cast; ring)
      (by rw [abs_of_nonneg (by omega)]; omega) (by norm_num) (by linarith) (by linarith)
  unfold QSize.divide
  rw [key s.width w hw0 hw hsw, key s.height h hh0 hh hsh]

theorem divide_scale16 : (⟨1440, 900⟩ : QSize).divide scale16 = ⟨900, 563⟩ := by
  have h1 : roundDouble (((1440 : ℤ) : ℚ) / scale16) = 900 := by
    have h := roundTo_of_near 53 (-1022) (((1440 : ℤ) : ℚ) / scale16) 9 7916483719987200
      (by norm_num [scale16, abs_of_pos]) (by norm_num [scale16, abs_of_pos]) (by norm_num)
      (by norm_num [scale16, abs_lt])
    rw [roundDouble, h]; norm_num
  have h2 : roundDouble (((900 : ℤ) : ℚ) / scale16) = 1125 / 2 := by
    have h := roundTo_of_near 53 (-1022) (((900 : ℤ) : ℚ) / scale16) 9 4947802324992000
      (by norm_num [scale16, abs_of_pos]) (by norm_num [scale16, abs_of_pos]) (by norm_num)
      (by norm_num [scale16, abs_lt])
    rw [roundDouble, h]; norm_num
  have q1 : qRound 900 = 900 :=
    qRound_eq 900 900 1801 1 (by norm_num) (by norm_num) (by norm_num) (by norm_num)
      (by norm_num) (by norm_num)
  have q2 : qRound (1125 / 2) = 563 :=
    qRound_eq (1125 / 2) 563 563 0 (by norm_num) (by norm_num) (by norm_num) (by norm_num)
      (by norm_num) (by norm_num)
  unfold QSize.divide
  rw [h1, h2, q1, q2]

/-- C20: `geometry()` is the rectangle whose top-left is the global position and
whose size is `pixelSize()` divided by `scale()`: each component is the `double`
quotient rounded by `qRound`, and when the pixel size is an exact multiple
`(w * scale, h * scale)` of the scale the size is `(w, h)`.  `pixelSize()` is the
current mode's `(hdisplay, vdisplay)`, transposed exactly when the orientation is
portrait or inverted portrait; `orientateSize` applied twice gives back the size. -/
theorem geometry_pixelSize (o : DrmOutput) (size : QSize) :
    (geometry o).topLeft = globalPos o ∧
    (geometry o).size = (pixelSize o).divide (scale o) ∧
    (geometry o).width = qRound (roundDouble (((pixelSize o).width : ℚ) / scale o)) ∧
    (geometry o).height = qRound (roundDouble (((pixelSize o).height : ℚ) / scale o)) ∧
    (∀ w h : ℤ, scale o ≠ 0 → 0 ≤ w → w < 2 ^ 31 → 0 ≤ h → h < 2 ^ 31 →
      ((pixelSize o).width : ℚ) = w * scale o → ((pixelSize o).height : ℚ) = h * scale o →
      (geometry o).size = ⟨w, h⟩) ∧
    ((o.m_orientation = ScreenOrientation.PortraitOrientation ∨
        o.m_orientation = ScreenOrientation.InvertedPortraitOrientation) →
      pixelSize o = ⟨o.m_mode.vdisplay, o.m_mode.hdisplay⟩) ∧
    (¬ (o.m_orientation = ScreenOrientation.PortraitOrientation ∨
        o.m_orientation = ScreenOrientation.InvertedPortraitOrientation) →
      pixelSize o = ⟨o.m_mode.hdisplay, o.m_mode.vdisplay⟩) ∧
    orientateSize o (orientateSize o size) = size := by
  refine ⟨rfl, rfl, rfl, rfl, ?_, fun h => ?_, fun h => ?_, ?_⟩
  · intro w h hc hw0 hw hh0 hh hsw hsh
    show (pixelSize o).divide (scale o) = ⟨w, h⟩
    exact divide_exact _ _ w h hc hw0 hw hh0 hh hsw hsh
  · simp only [pixelSize, orientateSize, h, if_true, QSize.transposed]
  · simp only [pixelSize, orientateSize, h, if_false]
  · unfold orientateSize
    split <;> rfl

/-- Witness of C20: a portrait output with mode 1920x1080 at scale 1 has pixel size
1080x1920 and that size as its geometry, at its global position (100, 0); an output
with mode 1440x900 at the scale 1.6 has the geometry 900x563 (the `double` quotient
900 / 1.6 is 562.5). -/
theorem geometry_pixelSize_witness :
    pixelSize disabledOutput = ⟨1080, 1920⟩ ∧
    (geometry disabledOutput).topLeft = ⟨100, 0⟩ ∧
    (geometry disabledOutput).size = ⟨1080, 1920⟩ ∧
    (geometry scaledOutput).size = ⟨900, 563⟩ :=
  ⟨(geometry_pixelSize disabledOutput {}).2.2.2.2.2.1 (Or.inl rfl),
   (geometry_pixelSize disabledOutput {}).1,
   (geometry_pixelSize disabledOutput {}).2.2.2.2.1 1080 1920 (by decide) (by decide)
     (by decide) (by decide) (by decide) (by norm_num [pixelSize, orientateSize,
       disabledOutput, QSize.transposed, scale, mode1080])
     (by norm_num [pixelSize, orientateSize, disabledOutput, QSize.transposed, scale,
       mode1080]),
   (geometry_pixelSize scaledOutput {}).2.1.trans divide_scale16⟩

end KWin
